import Mathlib

/-!
Userspace ELF loader (`basic_elf_loader`)

A shallow embedding of `src/basic/basic_elf_loader.h`.

* Machine integers are natural numbers; every `size_t` operation of the source
  is written with an explicit reduction modulo `2 ^ 64`. A range of `len`
  addresses starting at `start` is the set of `a` with `(a - start) mod 2 ^ 64 < len`.
* The process address space is a pair of maps (bytes and page protection) and
  the host dynamic linker is a list of open handles; both live in `World`,
  together with the chronological list of calls made to the injected
  primitives.
* The pure-virtual members of the class (`map_fixed`, `map_random`, `unmap`,
  `protect`, `open_elf`, `validate_elf`, `setup_stack`, `relocate_rela`, ...)
  and the host linker (`dlopen`, `dlsym`, `dlvsym`, `dlclose`) are the fields
  of `Host`: they decide success or failure and the values returned.
* The headers `elf_file.h` and `macros.h` are not part of the source tree. The
  accessor is the structure `ElfFile`, the class-dependent layouts and helpers
  are the structure `ElfClass`, and `ROUND_DOWN` / `ROUND_UP` follow the spec.
* A C++ `throw "msg"` is `Abort.thrown "msg"`; the world at the point of the
  throw is returned next to it. The `while (true)` walk over the dynamic table
  takes a bound on the number of entries it may read.

The file has three parts: the embedding with the concrete images used as
examples, the lemmas about it, and the statements of the claims.
-/

namespace Loader

/-! ## Machine words -/

/-- Number of values of the host `size_t`. -/
def SIZE_MOD : Nat := 2 ^ 64

/-- Largest `size_t`, also `(size_t) -1`. -/
def SIZE_MAX : Nat := 2 ^ 64 - 1

/-- Conversion to `size_t`. -/
def size_t (x : Nat) : Nat := x % SIZE_MOD

/-- Addition in `size_t`. -/
def size_add (a b : Nat) : Nat := (a + b) % SIZE_MOD

/-- Subtraction in `size_t` (wraps below zero). -/
def size_sub (a b : Nat) : Nat := (a % SIZE_MOD + (SIZE_MOD - b % SIZE_MOD)) % SIZE_MOD

/-- Multiplication in `size_t`. -/
def size_mul (a b : Nat) : Nat := (a * b) % SIZE_MOD

/-- Modelled from the spec: `ROUND_DOWN` of `utils/macros.h`, which is not part of
the source tree; the spec names it `round_down(x, a)`, the largest multiple of `a`
that is at most `x`. -/
def ROUND_DOWN (x a : Nat) : Nat := size_sub x (x % a)

/-- Modelled from the spec: `ROUND_UP` of `utils/macros.h`, which is not part of
the source tree; the spec names it `round_up(x, a)`, the smallest multiple of `a`
that is at least `x`, computed in `size_t`. -/
def ROUND_UP (x a : Nat) : Nat := size_mul (size_add x (size_sub a 1) / a) a

/-! ## ELF constants (from `<elf.h>`) -/

def PT_LOAD : Nat := 1
def PT_DYNAMIC : Nat := 2
def PT_INTERP : Nat := 3

def ET_EXEC : Nat := 2
def ET_DYN : Nat := 3

def DT_NULL : Nat := 0
def DT_NEEDED : Nat := 1
def DT_PLTRELSZ : Nat := 2
def DT_STRTAB : Nat := 5
def DT_SYMTAB : Nat := 6
def DT_RELA : Nat := 7
def DT_RELASZ : Nat := 8
def DT_RELAENT : Nat := 9
def DT_SYMENT : Nat := 11
def DT_INIT : Nat := 12
def DT_FINI : Nat := 13
def DT_RPATH : Nat := 15
def DT_REL : Nat := 17
def DT_RELSZ : Nat := 18
def DT_RELENT : Nat := 19
def DT_PLTREL : Nat := 20
def DT_JMPREL : Nat := 23
def DT_INIT_ARRAY : Nat := 25
def DT_FINI_ARRAY : Nat := 26
def DT_INIT_ARRAYSZ : Nat := 27
def DT_FINI_ARRAYSZ : Nat := 28
def DT_RUNPATH : Nat := 29
def DT_FLAGS : Nat := 30
def DT_VERSYM : Nat := 0x6ffffff0
def DT_FLAGS_1 : Nat := 0x6ffffffb
def DT_VERNEED : Nat := 0x6ffffffe
def DT_VERNEEDNUM : Nat := 0x6fffffff

def STB_WEAK : Nat := 2

def RTLD_LAZY : Nat := 0x1
def RTLD_GLOBAL : Nat := 0x100

def PF_X : Nat := 1
def PF_W : Nat := 2
def PF_R : Nat := 4

/-- Value `(void*) -1` returned by the mapping primitives on failure. -/
def MAP_ERROR : Nat := SIZE_MAX

def UNMAP_ERROR : Int := -1

def PROTECT_ERROR : Int := -1

/-! ## ELF image accessor -/

/-- Program header (`elf_file<CLASS>::segment`). -/
structure Segment where
  p_type : Nat
  p_flags : Nat
  p_offset : Nat
  p_vaddr : Nat
  p_filesz : Nat
  p_memsz : Nat
  p_align : Nat
  deriving DecidableEq, Repr

/-- File header fields read by the loader. -/
structure Header where
  e_type : Nat
  e_entry : Nat
  e_phoff : Nat
  e_phentsize : Nat
  e_phnum : Nat
  deriving DecidableEq, Repr

/-- Dynamic entry (`elf_file<CLASS>::dyn`). -/
structure Dyn where
  d_tag : Nat
  d_val : Nat
  deriving DecidableEq, Repr

/-- Relocation entry with addend (`elf_file<CLASS>::rela`). -/
structure Rela where
  r_offset : Nat
  r_info : Nat
  r_addend : Int
  deriving DecidableEq, Repr

/-- Relocation entry without addend (`elf_file<CLASS>::rel`). -/
structure Rel where
  r_offset : Nat
  r_info : Nat
  deriving DecidableEq, Repr

/-- Symbol table entry (`elf_file<CLASS>::sym`), the fields the loader reads. -/
structure Sym where
  st_name : Nat
  st_info : Nat
  deriving DecidableEq, Repr

/-- Version-needed entry (`elf_file<CLASS>::verneed`), the fields the loader reads. -/
structure Verneed where
  vn_cnt : Nat
  vn_aux : Nat
  vn_next : Nat
  deriving DecidableEq, Repr

/-- Version-needed auxiliary entry (`elf_file<CLASS>::vernaux`). -/
structure Vernaux where
  vna_other : Nat
  vna_name : Nat
  vna_next : Nat
  deriving DecidableEq, Repr

/-- Modelled from the spec: the class-dependent part of `elf_file<CLASS>`
(`exec_file_formats/elf/elf_file.h`, not part of the source tree): the width of
`addr`, the sizes of `dyn` and `versym`, the info-word helpers `ELF_R_SYM`,
`ELF_R_TYPE`, `ELF_ST_BIND`, and the typed views that the source obtains by
`reinterpret_cast` of an address of the loaded image. A C string is read as the
`String` before its terminator, so it is empty exactly when its first byte is 0. -/
structure ElfClass where
  addr_mod : Nat
  sizeof_dyn : Nat
  sizeof_versym : Nat
  ELF_R_SYM : Nat → Nat
  ELF_R_TYPE : Nat → Nat
  ELF_ST_BIND : Nat → Nat
  read_rela : (Nat → Nat) → Nat → Rela
  read_rel : (Nat → Nat) → Nat → Rel
  read_sym : (Nat → Nat) → Nat → Sym
  read_versym : (Nat → Nat) → Nat → Nat
  read_verneed : (Nat → Nat) → Nat → Verneed
  read_vernaux : (Nat → Nat) → Nat → Vernaux
  read_cstr : (Nat → Nat) → Nat → String

/-- Modelled from the spec: the accessor `elf_file<CLASS>` of
`exec_file_formats/elf/elf_file.h`, which is not part of the source tree. The spec
describes it as a read-only view over bytes with typed accessors for the file
header, program headers indexed by offset, dynamic entries indexed by raw offset,
dynamic string table lookup, and a pointer into the file at a raw offset. -/
structure ElfFile where
  /-- Result of `get_header()`. -/
  header : Header
  /-- Program header at a raw table offset. -/
  get_program_header : Nat → Segment
  /-- Byte of the file at a raw offset. -/
  file : Nat → Nat
  /-- Dynamic entry at a raw offset. -/
  get_dyn_at_raw_offset : Nat → Dyn
  /-- String of the dynamic string table at an index. -/
  get_string_from_dynstr : Nat → String
  /-- Null-terminated string of the file at a raw offset. -/
  get_string_at_raw_offset : Nat → String

/-- Pointer into the file at a raw offset, as the sequence of bytes it points to. -/
def ElfFile.get_offset (elf : ElfFile) (off : Nat) : Nat → Nat :=
  fun k => elf.file (off + k)

/-! ## World: address space, host linker, call log -/

/-- Calls made to the injected primitives and to the host linker. -/
inductive Event where
  | map_fixed (addr len : Nat)
  | map_random (len : Nat)
  | unmap (addr len : Nat)
  | protect (addr len flags : Nat)
  | dlopen (file : String) (mode : Nat)
  | dlsym (name : String)
  | dlvsym (name version : String)
  | dlclose (handle : Nat)
  | relocate_rela (reloc_offset reloc_type relocation_value : Nat) (addend : Int)
      (sym the_load_bias : Nat)
  | relocate_rel (reloc_offset reloc_type relocation_value sym the_load_bias : Nat)
  | open_elf (path : String)
  | setup_stack (stack_addr stack_size entry_addr interp_load_bias load_min_addr : Nat)
  | jump_entry_elf (entry_addr stack_addr : Nat)
  | exit
  deriving DecidableEq, Repr

/-- Process state the loader acts on. -/
structure World where
  /-- Byte stored at each address. -/
  mem : Nat → Nat
  /-- Protection of each address; `none` when unmapped. -/
  prot : Nat → Option Nat
  /-- Host-linker handles currently open, one occurrence per successful `dlopen`. -/
  handles : List Nat
  /-- Calls made so far, oldest first. -/
  log : List Event

/-- Ways in which a run stops without returning. -/
inductive Abort where
  /-- A C++ `throw` of a string literal. -/
  | thrown (msg : String)
  /-- Undefined behaviour reached (integer division by zero, uninitialised read). -/
  | undefined (what : String)
  /-- The dynamic walk used up its fuel without meeting `DT_NULL`. -/
  | out_of_fuel
  deriving DecidableEq, Repr

/-- Value of `struct stack` (`utils/stack.h`): base address and size. -/
structure Stack where
  addr : Nat
  size : Nat
  deriving DecidableEq, Repr

/-- Injected collaborators: the pure-virtual members of `basic_elf_loader` and the
host dynamic linker. Each may inspect the whole world. Addresses they return are
pointer values; a pointer has the width of `size_t`, so the casts `(size_t) mapped`
and `(size_t) sym_val` of the source leave the value as it is. -/
structure Host where
  validate_elf : ElfFile → Bool
  open_elf : String → ElfFile
  /-- Whether `map_fixed(addr, len)` succeeds. -/
  map_fixed_ok : World → Nat → Nat → Bool
  /-- Address returned by `map_random(len)`; `MAP_ERROR` on failure. -/
  map_random_addr : World → Nat → Nat
  unmap_ok : World → Nat → Nat → Bool
  protect_ok : World → Nat → Nat → Nat → Bool
  /-- Handle returned by `dlopen(file, mode)`; `0` is `nullptr`. -/
  dlopen : World → String → Nat → Nat
  /-- Result of `dlsym(RTLD_DEFAULT, name)`: `none` when `dlerror()` reports an error. -/
  dlsym : World → String → Option Nat
  /-- Result of `dlvsym(RTLD_DEFAULT, name, version)`. -/
  dlvsym : World → String → String → Option Nat
  dlclose_ok : World → Nat → Bool
  /-- Memory after `relocate_rela(offset, type, value, addend, sym, bias)`. -/
  relocate_rela : World → Nat → Nat → Nat → Int → Nat → Nat → (Nat → Nat)
  /-- Memory after `relocate_rel(offset, type, value, sym, bias)`. -/
  relocate_rel : World → Nat → Nat → Nat → Nat → Nat → (Nat → Nat)
  /-- Stack entry point returned by `setup_stack` and the memory it leaves. -/
  setup_stack : World → Stack → ElfFile → Nat → Nat → Nat → Nat × (Nat → Nat)
  get_possible_search_prefixes : List String

/-- Append a call to the log. -/
def record (w : World) (e : Event) : World :=
  { w with log := w.log ++ [e] }

/-- Address `a` lies among the `len` machine addresses starting at `start`. -/
def in_range (a start len : Nat) : Prop := size_sub a start < len

instance (a start len : Nat) : Decidable (in_range a start len) := by
  unfold in_range; infer_instance

/-- Store `n` bytes of `src` at `dst`. -/
def memcpy (mem : Nat → Nat) (dst : Nat) (src : Nat → Nat) (n : Nat) : Nat → Nat :=
  fun a => if in_range a dst n then src (size_sub a dst) else mem a

/-- Store `n` copies of `c` at `dst`. -/
def memset (mem : Nat → Nat) (dst c n : Nat) : Nat → Nat :=
  fun a => if in_range a dst n then c else mem a

/-- Fresh anonymous pages over a range: zero bytes, readable and writable. -/
def install (w : World) (addr len : Nat) : World :=
  { w with
    mem := fun a => if in_range a addr len then 0 else w.mem a
    prot := fun a => if in_range a addr len then some (PF_R ||| PF_W) else w.prot a }

/-- Primitive `map_fixed(addr, len)`: on success fresh zero pages replace whatever
was mapped in the range and `addr` is returned. -/
def map_fixed (h : Host) (addr len : Nat) (w : World) : Nat × World :=
  if h.map_fixed_ok w addr len then (addr, install (record w (Event.map_fixed addr len)) addr len)
  else (MAP_ERROR, record w (Event.map_fixed addr len))

/-- Primitive `map_random(len)`: fresh zero pages at an address of the host's choice. -/
def map_random (h : Host) (len : Nat) (w : World) : Nat × World :=
  if h.map_random_addr w len = MAP_ERROR then (MAP_ERROR, record w (Event.map_random len))
  else (h.map_random_addr w len,
        install (record w (Event.map_random len)) (h.map_random_addr w len) len)

/-- Primitive `unmap(addr, len)`. -/
def unmap (h : Host) (addr len : Nat) (w : World) : Int × World :=
  if h.unmap_ok w addr len then
    (0, { record w (Event.unmap addr len) with
          prot := fun a => if in_range a addr len then none else w.prot a })
  else (UNMAP_ERROR, record w (Event.unmap addr len))

/-- Primitive `protect(addr, len, flags)`. -/
def protect (h : Host) (addr len flags : Nat) (w : World) : Int × World :=
  if h.protect_ok w addr len flags then
    (0, { record w (Event.protect addr len flags) with
          prot := fun a => if in_range a addr len then some flags else w.prot a })
  else (PROTECT_ERROR, record w (Event.protect addr len flags))

/-- Loop over a list that stops at the first abort (a loop whose body may throw). -/
def for_each {ι σ : Type} (body : ι → σ → Except Abort Unit × σ) :
    List ι → σ → Except Abort Unit × σ
  | [], s => (.ok (), s)
  | i :: rest, s =>
    match body i s with
    | (.ok _, s1) => for_each body rest s1
    | (.error e, s1) => (.error e, s1)

/-! ## `load_segments_elf` -/

/-- Program header number `i`: `get_program_header(e_phoff + e_phentsize * i)`. -/
def segment_at (elf : ElfFile) (i : Nat) : Segment :=
  elf.get_program_header
    (size_add (size_t elf.header.e_phoff) (size_mul (size_t elf.header.e_phentsize) i))

/-- The sum `(size_t) bias + (size_t) segment->p_vaddr` (line 125). -/
def raw_load_addr (bias : Nat) (segment : Segment) : Nat :=
  size_add (size_t bias) (size_t segment.p_vaddr)

/-- Aligned-down start of a mapping whose raw start is `raw_load_addr`. -/
def adjusted_load_addr (raw_load_addr : Nat) (segment : Segment) : Nat :=
  ROUND_DOWN raw_load_addr (size_t segment.p_align)

/-- Aligned-up length of a mapping whose raw start is `raw_load_addr`. -/
def adjusted_mapping_len (raw_load_addr : Nat) (segment : Segment) : Nat :=
  ROUND_UP (size_add (size_t segment.p_memsz)
      (size_sub raw_load_addr (adjusted_load_addr raw_load_addr segment)))
    (size_t segment.p_align)

/-- Value of `adjusted_load_addr` in the first loop (lines 82-88), where the raw
address is `p_vaddr` itself. -/
def plan_lo (segment : Segment) : Nat :=
  adjusted_load_addr (size_t segment.p_vaddr) segment

/-- Value of `adjusted_load_addr + adjusted_mapping_len` in the first loop (line 93). -/
def plan_hi (segment : Segment) : Nat :=
  size_add (plan_lo segment) (adjusted_mapping_len (size_t segment.p_vaddr) segment)

/-- Body of the first loop of `load_segments_elf` (lines 75-94) on `(min, max)`. -/
def plan_step (elf : ElfFile) (acc : Nat × Nat) (i : Nat) : Nat × Nat :=
  if (segment_at elf i).p_type ≠ PT_LOAD then acc
  else
    (if plan_lo (segment_at elf i) < acc.1 then plan_lo (segment_at elf i) else acc.1,
     if acc.2 < plan_hi (segment_at elf i) then plan_hi (segment_at elf i) else acc.2)

/-- The pair `(min, max)` after the first loop (lines 73-94). -/
def plan (elf : ElfFile) : Nat × Nat :=
  (List.range (size_t elf.header.e_phnum)).foldl (plan_step elf) (SIZE_MAX, 0)

/-- Address-space reservation (lines 97-113): returns the bias. -/
def reserve (h : Host) (elf : ElfFile) (min range : Nat) (w : World) :
    Except Abort Nat × World :=
  if elf.header.e_type = ET_EXEC then
    let check := map_fixed h min range w
    if check.1 = MAP_ERROR then (.error (.thrown "segment map fail"), check.2)
    else
      let unmapped := unmap h check.1 range check.2
      if unmapped.1 = UNMAP_ERROR then
        (.error (.thrown "can't unmap sample segment"), unmapped.2)
      else (.ok 0, unmapped.2)
  else
    let mapped := map_random h range w
    if mapped.1 = MAP_ERROR then (.error (.thrown "segment map fail"), mapped.2)
    else
      let unmapped := unmap h mapped.1 range mapped.2
      if unmapped.1 = UNMAP_ERROR then
        (.error (.thrown "can't unmap sample segment"), unmapped.2)
      else (.ok mapped.1, unmapped.2)

/-- The stores of one iteration (lines 144-151): copy of the file content, then zero
fill of the rest of the segment. -/
def write_segment (elf : ElfFile) (bias : Nat) (segment : Segment) (w : World) : World :=
  let raw_load_addr := raw_load_addr bias segment
  let raw_mapping_len := size_t segment.p_memsz
  let content_len := size_t segment.p_filesz
  let w1 : World :=
    if content_len > 0 then
      { w with mem := memcpy w.mem raw_load_addr (elf.get_offset (size_t segment.p_offset))
                  (size_t segment.p_filesz) }
    else w
  if content_len < raw_mapping_len then
    { w1 with mem := memset w1.mem (size_add raw_load_addr content_len) 0
                (size_sub raw_mapping_len content_len) }
  else w1

/-- Body of the second loop of `load_segments_elf` (lines 118-160). The state is the
world together with `*load_min_addr`. -/
def map_step (h : Host) (elf : ElfFile) (bias : Nat) (i : Nat) (s : World × Nat) :
    Except Abort Unit × (World × Nat) :=
  let segment := segment_at elf i
  if segment.p_type ≠ PT_LOAD then (.ok (), s)
  else
    let lo := adjusted_load_addr (raw_load_addr bias segment) segment
    let len := adjusted_mapping_len (raw_load_addr bias segment) segment
    let mapped := map_fixed h lo len s.1
    if mapped.1 = MAP_ERROR then (.error (.thrown "couldn't map the segment"), (mapped.2, s.2))
    else
      let guarded := protect h mapped.1 len segment.p_flags
        (write_segment elf bias segment mapped.2)
      if guarded.1 = PROTECT_ERROR then
        (.error (.thrown "failed to change segment flags"), (guarded.2, s.2))
      else
        (.ok (), (guarded.2, if s.2 = SIZE_MAX ∨ lo < s.2 then lo else s.2))

/-- Member `load_segments_elf` (lines 62-163): on success the pair
`(bias, *load_min_addr)`. -/
def load_segments_elf (h : Host) (elf : ElfFile) (w : World) :
    Except Abort (Nat × Nat) × World :=
  let segments_count := size_t elf.header.e_phnum
  if segments_count = 0 then (.error (.thrown "no segments in the elf file"), w)
  else
    let range := size_sub (plan elf).2 (plan elf).1
    match reserve h elf (plan elf).1 range w with
    | (.error e, w1) => (.error e, w1)
    | (.ok bias, w1) =>
      match for_each (map_step h elf bias) (List.range segments_count) (w1, SIZE_MAX) with
      | (.error e, s) => (.error e, s.1)
      | (.ok _, s) => (.ok (bias, s.2), s.1)

/-! ## `do_relocations` -/

/-- Local variables of `do_relocations` filled by the dynamic walk (lines 193-250);
the spec calls the record `DynInfo`. -/
structure DynInfo where
  needed_files : List String := []
  strtab : Bool := false
  dynamic_strtab : Nat := 0
  symtab : Bool := false
  dynamic_symtab : Nat := 0
  dynamic_symtab_entry_size : Nat := 0
  rela : Bool := false
  rela_table_addr : Nat := 0
  rela_table_size : Nat := 0
  rela_entry_size : Nat := 0
  rel : Bool := false
  rel_table_addr : Nat := 0
  rel_table_size : Nat := 0
  rel_entry_size : Nat := 0
  plt : Bool := false
  plt_reloc_type : Nat := 0
  plt_reloc_table_addr : Nat := 0
  plt_reloc_table_size : Nat := 0
  init_func : Bool := false
  init : Nat := 0
  fini_func : Bool := false
  fini : Nat := 0
  init_array_func : Bool := false
  init_array : Nat := 0
  init_array_size : Nat := 0
  fini_array_func : Bool := false
  fini_array : Nat := 0
  fini_array_size : Nat := 0
  rpath : String := ""
  runpath : String := ""
  flags : Nat := 0
  flags_1 : Nat := 0
  ver : Bool := false
  versym : Nat := 0
  verneed : Nat := 0
  verneednum : Nat := 0
  deriving DecidableEq, Repr

/-- Search for the `PT_DYNAMIC` header (lines 183-189): the value of the local
`segment` after the loop, `none` while it is still uninitialised. -/
def find_dynamic (elf : ElfFile) : List Nat → Option Segment → Option Segment
  | [], segment => segment
  | i :: rest, _ =>
    if (segment_at elf i).p_type = PT_DYNAMIC then some (segment_at elf i)
    else find_dynamic elf rest (some (segment_at elf i))

/-- The `switch` on one dynamic entry (lines 260-387). -/
def scan_entry (elf : ElfFile) (curr : Dyn) (d : DynInfo) : DynInfo :=
  let val := size_t curr.d_val
  if curr.d_tag = DT_INIT then { d with init := val, init_func := true }
  else if curr.d_tag = DT_INIT_ARRAY then { d with init_array := val, init_array_func := true }
  else if curr.d_tag = DT_INIT_ARRAYSZ then { d with init_array_size := val }
  else if curr.d_tag = DT_FINI then { d with fini := val, fini_func := true }
  else if curr.d_tag = DT_FINI_ARRAY then { d with fini_array := val, fini_array_func := true }
  else if curr.d_tag = DT_FINI_ARRAYSZ then { d with fini_array_size := val }
  else if curr.d_tag = DT_NEEDED then
    { d with needed_files := d.needed_files ++ [elf.get_string_from_dynstr val] }
  else if curr.d_tag = DT_STRTAB then { d with dynamic_strtab := val, strtab := true }
  else if curr.d_tag = DT_SYMTAB then { d with dynamic_symtab := val, symtab := true }
  else if curr.d_tag = DT_SYMENT then { d with dynamic_symtab_entry_size := val }
  else if curr.d_tag = DT_RELA then { d with rela_table_addr := val, rela := true }
  else if curr.d_tag = DT_RELASZ then { d with rela_table_size := val }
  else if curr.d_tag = DT_RELAENT then { d with rela_entry_size := val }
  else if curr.d_tag = DT_REL then { d with rel_table_addr := val, rel := true }
  else if curr.d_tag = DT_RELSZ then { d with rel_table_size := val }
  else if curr.d_tag = DT_RELENT then { d with rel_entry_size := val }
  else if curr.d_tag = DT_JMPREL then { d with plt_reloc_table_addr := val, plt := true }
  else if curr.d_tag = DT_PLTRELSZ then { d with plt_reloc_table_size := val }
  else if curr.d_tag = DT_PLTREL then { d with plt_reloc_type := val }
  else if curr.d_tag = DT_RPATH then { d with rpath := elf.get_string_from_dynstr val }
  else if curr.d_tag = DT_RUNPATH then { d with runpath := elf.get_string_from_dynstr val }
  else if curr.d_tag = DT_FLAGS then { d with flags := val }
  else if curr.d_tag = DT_FLAGS_1 then { d with flags_1 := val }
  else if curr.d_tag = DT_VERSYM then { d with ver := true, versym := val }
  else if curr.d_tag = DT_VERNEED then { d with verneed := val }
  else if curr.d_tag = DT_VERNEEDNUM then { d with verneednum := val }
  else d

/-- Dynamic entry number `i` of the table at file offset `p_offset` (lines 255-256). -/
def dyn_at (cls : ElfClass) (elf : ElfFile) (segment : Segment) (i : Nat) : Dyn :=
  elf.get_dyn_at_raw_offset (size_add (size_t segment.p_offset) (size_mul cls.sizeof_dyn i))

/-- The `while (true)` walk over the dynamic table (lines 253-390), from entry `i`.
The first argument bounds the number of entries read; `none` when it runs out. -/
def scan_dynamic (cls : ElfClass) (elf : ElfFile) (segment : Segment) :
    Nat → Nat → DynInfo → Option DynInfo
  | 0, _, _ => none
  | fuel + 1, i, d =>
    if (dyn_at cls elf segment i).d_tag = DT_NULL then some d
    else scan_dynamic cls elf segment fuel (size_add i 1)
      (scan_entry elf (dyn_at cls elf segment i) d)

/-- The list `search_prefixes` (lines 397-403). -/
def search_prefixes (h : Host) (d : DynInfo) : List String :=
  (if d.runpath ≠ "" then [d.runpath ++ "/"] else [])
    ++ (if d.rpath ≠ "" then [d.rpath ++ "/"] else [])
    ++ h.get_possible_search_prefixes

/-- The mode given to every `dlopen` (line 412). -/
def dlopen_mode : Nat := RTLD_LAZY ||| RTLD_GLOBAL

/-- Inner loop of the library opening (lines 419-429): try the prefixes in order
until one opens; returns the handle kept, if any. -/
def try_prefixes (h : Host) (needed : String) : List String → World → Option Nat × World
  | [], w => (none, w)
  | pre :: rest, w =>
    if h.dlopen w (pre ++ needed) dlopen_mode ≠ 0 then
      (some (h.dlopen w (pre ++ needed) dlopen_mode),
       { record w (Event.dlopen (pre ++ needed) dlopen_mode) with
         handles := w.handles ++ [h.dlopen w (pre ++ needed) dlopen_mode] })
    else try_prefixes h needed rest (record w (Event.dlopen (pre ++ needed) dlopen_mode))

/-- Body of the outer loop of the library opening (lines 415-432). The state is the
world with the part of the vector `handles` filled so far. -/
def open_needed (h : Host) (prefixes : List String) (needed : String) (s : World × List Nat) :
    Except Abort Unit × (World × List Nat) :=
  match try_prefixes h needed prefixes s.1 with
  | (some handler, w1) => (.ok (), (w1, s.2 ++ [handler]))
  | (none, w1) =>
    (.error (.thrown "can't open/find a certain library using dlopen()"), (w1, s.2))

/-- Assignment `versions[key] = value` on the `std::map`; a key never assigned reads
as `nullptr`, which is what `operator[]` returns for it. -/
def versions_set (versions : Nat → Nat) (key value : Nat) : Nat → Nat :=
  fun k => if k = key then value else versions k

/-- Inner loop over the auxiliary entries of one `verneed` (lines 445-455); the first
argument is the number of iterations left. -/
def vernaux_loop (cls : ElfClass) (mem : Nat → Nat) (the_load_bias dynamic_strtab ver aux : Nat) :
    Nat → Nat → (Nat → Nat) → (Nat → Nat)
  | 0, _, versions => versions
  | n + 1, vernaux_sum, versions =>
    let vernaux := cls.read_vernaux mem (size_add (size_add ver aux) vernaux_sum)
    vernaux_loop cls mem the_load_bias dynamic_strtab ver aux n
      (size_add vernaux_sum vernaux.vna_next)
      (versions_set versions vernaux.vna_other
        (size_add (size_add the_load_bias dynamic_strtab) vernaux.vna_name))

/-- Outer loop over the `verneed` list (lines 438-458); the first argument is the
number of iterations left. -/
def verneed_loop (cls : ElfClass) (mem : Nat → Nat) (the_load_bias : Nat) (d : DynInfo) :
    Nat → Nat → (Nat → Nat) → (Nat → Nat)
  | 0, _, versions => versions
  | n + 1, ver_sum, versions =>
    let ver := size_add (size_add the_load_bias d.verneed) ver_sum
    verneed_loop cls mem the_load_bias d n
      (size_add ver_sum (cls.read_verneed mem ver).vn_next)
      (vernaux_loop cls mem the_load_bias d.dynamic_strtab ver (cls.read_verneed mem ver).vn_aux
        (cls.read_verneed mem ver).vn_cnt 0 versions)

/-- The map `versions` (lines 435-459): from `vna_other` to the address of the
version name, `0` (`nullptr`) where nothing was stored. -/
def build_versions (cls : ElfClass) (mem : Nat → Nat) (the_load_bias : Nat) (d : DynInfo) :
    Nat → Nat :=
  if d.ver then verneed_loop cls mem the_load_bias d d.verneednum 0 (fun _ => 0)
  else fun _ => 0

/-- Addresses `the_load_bias + table + entry_size * i` for `i < count`. -/
def entries (the_load_bias table entry_size count : Nat) : List Nat :=
  (List.range count).map
    (fun i => size_add (size_add the_load_bias table) (size_mul entry_size i))

/-- Number of entries `table_size / entry_size`; integer division by zero is undefined. -/
def entry_count (table_size entry_size : Nat) : Except Abort Nat :=
  if entry_size = 0 then .error (.undefined "division by zero")
  else .ok (table_size / entry_size)

/-- Assembly of the two queues `rela_relocs` and `rel_relocs` (lines 462-492). -/
def assemble (the_load_bias : Nat) (d : DynInfo) : Except Abort (List Nat × List Nat) := do
  let rela_relocs ←
    if d.rela then
      (entry_count d.rela_table_size d.rela_entry_size).map
        (entries the_load_bias d.rela_table_addr d.rela_entry_size)
    else pure []
  let rel_relocs ←
    if d.rel then
      (entry_count d.rel_table_size d.rel_entry_size).map
        (entries the_load_bias d.rel_table_addr d.rel_entry_size)
    else pure []
  if d.plt then
    if d.plt_reloc_type = DT_RELA then
      let count ← entry_count d.plt_reloc_table_size d.rela_entry_size
      pure (rela_relocs ++ entries the_load_bias d.plt_reloc_table_addr d.rela_entry_size count,
            rel_relocs)
    else if d.plt_reloc_type = DT_REL then
      let count ← entry_count d.plt_reloc_table_size d.rel_entry_size
      pure (rela_relocs,
            rel_relocs ++ entries the_load_bias d.plt_reloc_table_addr d.rel_entry_size count)
    else .error (.thrown "weird plt relocations type")
  else pure (rela_relocs, rel_relocs)

/-- Address of the symbol of a relocation (lines 501-503 and 568-570). -/
def sym_addr (cls : ElfClass) (the_load_bias : Nat) (d : DynInfo) (r_info : Nat) : Nat :=
  size_add (size_add the_load_bias d.dynamic_symtab)
    (size_mul d.dynamic_symtab_entry_size (cls.ELF_R_SYM r_info))

/-- Address of the name of a symbol (lines 504 and 571). -/
def sym_name_addr (cls : ElfClass) (mem : Nat → Nat) (the_load_bias : Nat) (d : DynInfo)
    (r_info : Nat) : Nat :=
  size_add (size_add the_load_bias d.dynamic_strtab)
    (size_t (cls.read_sym mem (sym_addr cls the_load_bias d r_info)).st_name)

/-- The 16-bit entry of the `versym` table for a relocation (lines 509-512 and 576-579). -/
def version_num (cls : ElfClass) (mem : Nat → Nat) (the_load_bias : Nat) (d : DynInfo)
    (r_info : Nat) : Nat :=
  cls.read_versym mem
    (size_add (size_add the_load_bias d.versym) (size_mul cls.sizeof_versym (cls.ELF_R_SYM r_info)))

/-- The pointer `version_name` (lines 507-522 and 574-589); `0` is `nullptr`. -/
def version_name (cls : ElfClass) (mem : Nat → Nat) (the_load_bias : Nat) (d : DynInfo)
    (versions : Nat → Nat) (r_info : Nat) : Nat :=
  if d.ver then
    if version_num cls mem the_load_bias d r_info = 0
        ∨ version_num cls mem the_load_bias d r_info = 1 then 0
    else versions (version_num cls mem the_load_bias d r_info)
  else 0

/-- The host query of lines 531-535 and 598-602: `dlsym` when `version_name` is
`nullptr`, `dlvsym` with the version name otherwise. -/
def lookup_event (cls : ElfClass) (sym_name : String) (version_name : Nat) (w : World) : Event :=
  if version_name = 0 then Event.dlsym sym_name
  else Event.dlvsym sym_name (cls.read_cstr w.mem version_name)

/-- Result of that query: the address found, `none` when `dlerror()` reports an error. -/
def host_lookup (h : Host) (cls : ElfClass) (sym_name : String) (version_name : Nat)
    (w : World) : Option Nat :=
  if version_name = 0 then h.dlsym w sym_name
  else h.dlvsym w sym_name (cls.read_cstr w.mem version_name)

/-- Computation of `relocation_value` (lines 525-549 and 592-616, the same text in
both loops), given the symbol name, the version-name pointer and `st_info`. -/
def resolve_value (h : Host) (cls : ElfClass) (sym_name : String) (version_name st_info : Nat)
    (w : World) : Except Abort Nat × World :=
  if sym_name ≠ "" then
    match host_lookup h cls sym_name version_name w with
    | some sym_val => (.ok sym_val, record w (lookup_event cls sym_name version_name w))
    | none =>
      if cls.ELF_ST_BIND st_info ≠ STB_WEAK then
        (.error (.thrown "relocation value not found, FAILED\n"),
         record w (lookup_event cls sym_name version_name w))
      else (.ok 0, record w (lookup_event cls sym_name version_name w))
  else (.ok 0, w)

/-- Sum `((addr) the_load_bias) + r_offset` in the width of `addr` (lines 552-553). -/
def reloc_offset (cls : ElfClass) (the_load_bias r_offset : Nat) : Nat :=
  (the_load_bias % cls.addr_mod + r_offset) % cls.addr_mod

/-- Body of the RELA loop (lines 497-558) for the queue element `curr_rela`. -/
def process_rela (h : Host) (cls : ElfClass) (the_load_bias : Nat) (d : DynInfo)
    (versions : Nat → Nat) (curr_rela : Nat) (w : World) : Except Abort Unit × World :=
  let r := cls.read_rela w.mem curr_rela
  let sym := sym_addr cls the_load_bias d r.r_info
  match resolve_value h cls (cls.read_cstr w.mem (sym_name_addr cls w.mem the_load_bias d r.r_info))
      (version_name cls w.mem the_load_bias d versions r.r_info)
      (cls.read_sym w.mem sym).st_info w with
  | (.error e, w1) => (.error e, w1)
  | (.ok relocation_value, w1) =>
    (.ok (),
     { record w1 (Event.relocate_rela (reloc_offset cls the_load_bias r.r_offset)
          (cls.ELF_R_TYPE r.r_info) relocation_value r.r_addend sym the_load_bias) with
       mem := h.relocate_rela w1 (reloc_offset cls the_load_bias r.r_offset)
          (cls.ELF_R_TYPE r.r_info) relocation_value r.r_addend sym the_load_bias })

/-- Body of the REL loop (lines 564-624) for the queue element `curr_rel`. -/
def process_rel (h : Host) (cls : ElfClass) (the_load_bias : Nat) (d : DynInfo)
    (versions : Nat → Nat) (curr_rel : Nat) (w : World) : Except Abort Unit × World :=
  let r := cls.read_rel w.mem curr_rel
  let sym := sym_addr cls the_load_bias d r.r_info
  match resolve_value h cls (cls.read_cstr w.mem (sym_name_addr cls w.mem the_load_bias d r.r_info))
      (version_name cls w.mem the_load_bias d versions r.r_info)
      (cls.read_sym w.mem sym).st_info w with
  | (.error e, w1) => (.error e, w1)
  | (.ok relocation_value, w1) =>
    (.ok (),
     { record w1 (Event.relocate_rel (reloc_offset cls the_load_bias r.r_offset)
          (cls.ELF_R_TYPE r.r_info) relocation_value sym the_load_bias) with
       mem := h.relocate_rel w1 (reloc_offset cls the_load_bias r.r_offset)
          (cls.ELF_R_TYPE r.r_info) relocation_value sym the_load_bias })

/-- Body of the closing loop (lines 630-632). -/
def close_handle (h : Host) (handle : Nat) (w : World) : Except Abort Unit × World :=
  if h.dlclose_ok w handle then
    (.ok (), { record w (Event.dlclose handle) with handles := w.handles.erase handle })
  else (.error (.thrown "error when dlclose()"), record w (Event.dlclose handle))

/-- Everything `do_relocations` does once the dynamic table has been walked
(lines 392-632). -/
def link (h : Host) (cls : ElfClass) (the_load_bias : Nat) (d : DynInfo) (w : World) :
    Except Abort Unit × World :=
  if !d.strtab then (.error (.thrown "no dynamic strtab"), w)
  else if !d.symtab then (.error (.thrown "no dynamic symbol table"), w)
  else
    match for_each (open_needed h (search_prefixes h d)) d.needed_files (w, []) with
    | (.error e, s) => (.error e, s.1)
    | (.ok _, s) =>
      match assemble the_load_bias d with
      | .error e => (.error e, s.1)
      | .ok (rela_relocs, rel_relocs) =>
        match for_each (process_rela h cls the_load_bias d
            (build_versions cls s.1.mem the_load_bias d)) rela_relocs s.1 with
        | (.error e, w2) => (.error e, w2)
        | (.ok _, w2) =>
          match for_each (process_rel h cls the_load_bias d
              (build_versions cls s.1.mem the_load_bias d)) rel_relocs w2 with
          | (.error e, w3) => (.error e, w3)
          | (.ok _, w3) => for_each (close_handle h) s.2 w3

/-- Member `do_relocations` (lines 181-653). The argument `fuel` bounds the number of
dynamic entries the walk may read. -/
def do_relocations (h : Host) (cls : ElfClass) (fuel : Nat) (elf : ElfFile)
    (the_load_bias : Nat) (w : World) : Except Abort Unit × World :=
  match find_dynamic elf (List.range (size_t elf.header.e_phnum)) none with
  | none => (.error (.undefined "uninitialised segment pointer"), w)
  | some segment =>
    if segment.p_type ≠ PT_DYNAMIC then (.ok (), w)
    else
      match scan_dynamic cls elf segment fuel 0 {} with
      | none => (.error .out_of_fuel, w)
      | some d => link h cls the_load_bias d w

/-! ## `allocate_stack_elf` and `load_and_run_elf` -/

/-- Constant `STACK_SIZE` (line 44). -/
def STACK_SIZE : Nat := 0x1000000 * 0x10

/-- Member `allocate_stack_elf` (lines 46-59), the default body; it does not read
its argument `elf`. -/
def allocate_stack_elf (h : Host) (_elf : ElfFile) (w : World) : Except Abort Stack × World :=
  let stack := map_random h STACK_SIZE w
  if stack.1 = MAP_ERROR then (.error (.thrown "failed to allocate stack"), stack.2)
  else
    let guarded := protect h stack.1 STACK_SIZE (PF_R ||| PF_W)
      { stack.2 with mem := memset stack.2.mem stack.1 0 STACK_SIZE }
    if guarded.1 = PROTECT_ERROR then
      (.error (.thrown "failed to change stack flags"), guarded.2)
    else (.ok ⟨stack.1, STACK_SIZE⟩, guarded.2)

/-- Locals `interp_load_min_addr`, `interp_load_bias`, `interp_entry_addr` and
`invoke_interp` of `load_and_run_elf` (lines 669-672). -/
structure InterpState where
  interp_load_min_addr : Nat := 0
  interp_load_bias : Nat := 0
  interp_entry_addr : Nat := 0
  invoke_interp : Bool := false
  deriving DecidableEq, Repr

/-- What the loop does at a `PT_INTERP` header (lines 681-690): open the interpreter
named at the header's file offset and load its segments. -/
def load_interp_at (h : Host) (elf : ElfFile) (i : Nat) (w : World) :
    Except Abort InterpState × World :=
  let interp_path := elf.get_string_at_raw_offset (segment_at elf i).p_offset
  match load_segments_elf h (h.open_elf interp_path) (record w (Event.open_elf interp_path)) with
  | (.error e, w1) => (.error e, w1)
  | (.ok (interp_load_bias, interp_load_min_addr), w1) =>
    (.ok { interp_load_min_addr := interp_load_min_addr
           interp_load_bias := interp_load_bias
           interp_entry_addr :=
             size_add interp_load_bias (size_t (h.open_elf interp_path).header.e_entry)
           invoke_interp := true }, w1)

/-- The loop that looks for `PT_INTERP` and loads the interpreter (lines 675-691). -/
def load_interp (h : Host) (elf : ElfFile) : List Nat → World → Except Abort InterpState × World
  | [], w => (.ok {}, w)
  | i :: rest, w =>
    if (segment_at elf i).p_type ≠ PT_INTERP then load_interp h elf rest w
    else load_interp_at h elf i w

/-- The branch on `explicit_use_interp` (lines 673-695). -/
def link_or_interp (h : Host) (cls : ElfClass) (fuel : Nat) (elf : ElfFile)
    (explicit_use_interp : Bool) (load_bias : Nat) (w : World) :
    Except Abort InterpState × World :=
  if explicit_use_interp then
    load_interp h elf (List.range (size_t elf.header.e_phnum)) w
  else
    match do_relocations h cls fuel elf load_bias w with
    | (.error e, w1) => (.error e, w1)
    | (.ok _, w1) => (.ok {}, w1)

/-- The tail of `load_and_run_elf` (lines 697-714): stack, trampoline, `exit`. -/
def run (h : Host) (elf : ElfFile) (entry_addr load_min_addr : Nat) (st : InterpState)
    (w : World) : Except Abort Unit × World :=
  match allocate_stack_elf h elf w with
  | (.error e, w1) => (.error e, w1)
  | (.ok stack, w1) =>
    let stack_entry_point :=
      (h.setup_stack w1 stack elf entry_addr st.interp_load_bias load_min_addr).1
    let w2 : World :=
      { record w1 (Event.setup_stack stack.addr stack.size entry_addr st.interp_load_bias
          load_min_addr) with
        mem := (h.setup_stack w1 stack elf entry_addr st.interp_load_bias load_min_addr).2 }
    (.ok (),
     record
       (record w2 (Event.jump_entry_elf
          (if st.invoke_interp then st.interp_entry_addr else entry_addr) stack_entry_point))
       Event.exit)

/-- Member `load_and_run_elf` (lines 657-715). -/
def load_and_run_elf (h : Host) (cls : ElfClass) (fuel : Nat) (elf : ElfFile)
    (explicit_use_interp : Bool) (w : World) : Except Abort Unit × World :=
  if !h.validate_elf elf then (.error (.thrown "elf file is not valid"), w)
  else
    match load_segments_elf h elf w with
    | (.error e, w1) => (.error e, w1)
    | (.ok (load_bias, load_min_addr), w1) =>
      match link_or_interp h cls fuel elf explicit_use_interp load_bias w1 with
      | (.error e, w2) => (.error e, w2)
      | (.ok st, w2) =>
        run h elf (size_add load_bias (size_t elf.header.e_entry)) load_min_addr st w2

/-! ## Predicates and reference definitions used in the statements -/

/-- Address `a` lies in the mapping that `load_segments_elf` creates for `segment`. -/
def covers (bias : Nat) (segment : Segment) (a : Nat) : Prop :=
  in_range a (adjusted_load_addr (raw_load_addr bias segment) segment)
    (adjusted_mapping_len (raw_load_addr bias segment) segment)

instance (bias : Nat) (segment : Segment) (a : Nat) : Decidable (covers bias segment a) := by
  unfold covers; infer_instance

/-- Address `a` is among the bytes that `load_segments_elf` stores for `segment`: the
copy of the file content or the zero fill after it. -/
def writes (bias : Nat) (segment : Segment) (a : Nat) : Prop :=
  in_range a (raw_load_addr bias segment) (size_t segment.p_filesz)
  ∨ (size_t segment.p_filesz < size_t segment.p_memsz
      ∧ in_range a (size_add (raw_load_addr bias segment) (size_t segment.p_filesz))
          (size_sub (size_t segment.p_memsz) (size_t segment.p_filesz)))

instance (bias : Nat) (segment : Segment) (a : Nat) : Decidable (writes bias segment a) := by
  unfold writes; infer_instance

/-- Calls to the host linker and to the relocation strategy. -/
def is_link_event : Event → Bool
  | .dlopen _ _ => true
  | .dlsym _ => true
  | .dlvsym _ _ => true
  | .dlclose _ => true
  | .relocate_rela _ _ _ _ _ _ => true
  | .relocate_rel _ _ _ _ _ => true
  | _ => false

/-- Calls to the four memory primitives. -/
def is_memory_event : Event → Bool
  | .map_fixed _ _ => true
  | .map_random _ => true
  | .unmap _ _ => true
  | .protect _ _ _ => true
  | _ => false

/-- World `w2` is reached from `w1` by making calls that all satisfy `P`. -/
def adds (P : Event → Prop) (w1 w2 : World) : Prop :=
  ∃ calls, w2.log = w1.log ++ calls ∧ ∀ e ∈ calls, P e

/-- The spec's `round_down(x, a)` on unbounded integers. -/
def round_down (x a : Nat) : Nat := x / a * a

/-- The spec's `round_up(x, a)` on unbounded integers. -/
def round_up (x a : Nat) : Nat := (x + a - 1) / a * a

/-- The spec's `aligned_start_i = round_down(p_vaddr_i, p_align_i)`. -/
def aligned_start (segment : Segment) : Nat :=
  round_down segment.p_vaddr segment.p_align

/-- The spec's `aligned_len_i = round_up(p_memsz_i + (p_vaddr_i - aligned_start_i), p_align_i)`. -/
def aligned_len (segment : Segment) : Nat :=
  round_up (segment.p_memsz + (segment.p_vaddr - aligned_start segment)) segment.p_align

/-! ## Concrete images and hosts -/

deriving instance DecidableEq for Except

/-- Header of type 0 (`PT_NULL`). -/
def null_segment : Segment := ⟨0, 0, 0, 0, 0, 0, 0⟩

/-- Image over a list of program headers (64-byte file header, 56-byte entries), the
bytes of the file and the dynamic table (16-byte entries, at file offset 0x200). -/
def image (e_type e_entry : Nat) (segments : List Segment) (bytes : List Nat)
    (dynamic : List Dyn) (strings : Nat → String) : ElfFile :=
  { header := ⟨e_type, e_entry, 64, 56, segments.length⟩
    get_program_header := fun off => segments.getD ((off - 64) / 56) null_segment
    file := fun k => bytes.getD k 0
    get_dyn_at_raw_offset := fun off => dynamic.getD ((off - 0x200) / 16) ⟨DT_NULL, 0⟩
    get_string_from_dynstr := strings
    get_string_at_raw_offset := strings }

/-- Host on which every primitive succeeds; `map_random` answers 0x10000, no library
opens and no symbol resolves. -/
def host_ok : Host :=
  { validate_elf := fun _ => true
    open_elf := fun _ => image ET_DYN 0 [] [] [] (fun _ => "")
    map_fixed_ok := fun _ _ _ => true
    map_random_addr := fun _ _ => 0x10000
    unmap_ok := fun _ _ _ => true
    protect_ok := fun _ _ _ _ => true
    dlopen := fun _ _ _ => 0
    dlsym := fun _ _ => none
    dlvsym := fun _ _ _ => none
    dlclose_ok := fun _ _ => true
    relocate_rela := fun w _ _ _ _ _ _ => w.mem
    relocate_rel := fun w _ _ _ _ _ => w.mem
    setup_stack := fun w stack _ _ _ _ => (stack.addr + stack.size - 0x100, w.mem)
    get_possible_search_prefixes := ["/lib/"] }

/-- Empty address space, nothing open, nothing called. -/
def world0 : World :=
  { mem := fun _ => 0, prot := fun _ => none, handles := [], log := [] }

/-- Two `PT_LOAD` headers whose aligned mappings share the page at 0x1000. -/
def overlap_image : ElfFile :=
  image ET_EXEC 0x1000
    [⟨PT_LOAD, PF_R ||| PF_X, 0, 0x1000, 2, 2, 0x1000⟩,
     ⟨PT_LOAD, PF_R ||| PF_W, 0x800, 0x1800, 1, 1, 0x1000⟩]
    [0x90, 0xC3] [] (fun _ => "")

/-- One `PT_LOAD` header at 0x400000 with 17 bytes of content and 3 bytes of BSS. -/
def static_image : ElfFile :=
  image ET_EXEC 0x400000
    [⟨PT_LOAD, PF_R ||| PF_X, 0, 0x400000, 17, 20, 0x1000⟩]
    [0x90, 0x90, 0x90, 0x90, 0x90, 0x90, 0x90, 0x90, 0x90, 0x90, 0x90, 0x90, 0x90, 0x90, 0x90,
     0x90, 0xC3] [] (fun _ => "")

/-- Shared object whose only program header is a `PT_NOTE` (type 4). -/
def note_only_image : ElfFile :=
  image ET_DYN 0 [⟨4, PF_R, 0x100, 0x100, 0x20, 0x20, 4⟩] [] [] (fun _ => "")

/-- Position-independent image with two `PT_LOAD` headers and a `PT_NOTE` between them. -/
def pie_image : ElfFile :=
  image ET_DYN 0x10
    [⟨PT_LOAD, PF_R ||| PF_X, 0, 0, 4, 4, 0x1000⟩,
     ⟨4, PF_R, 0x100, 0x100, 0x20, 0x20, 4⟩,
     ⟨PT_LOAD, PF_R ||| PF_W, 0x1000, 0x2000, 2, 0x1800, 0x1000⟩]
    [1, 2, 3, 4] [] (fun _ => "")

/-- Typed contents of a loaded image, by address, for `table_class`. -/
structure Tables where
  relas : List (Nat × Rela) := []
  rels : List (Nat × Rel) := []
  syms : List (Nat × Sym) := []
  versyms : List (Nat × Nat) := []
  verneeds : List (Nat × Verneed) := []
  vernauxs : List (Nat × Vernaux) := []
  cstrs : List (Nat × String) := []

/-- The 64-bit class (`ELF64_R_SYM`, `ELF64_R_TYPE`, `ELF64_ST_BIND`, 16-byte `dyn`,
2-byte `versym`) whose typed views answer from tables instead of decoding bytes. -/
def table_class (t : Tables) : ElfClass :=
  { addr_mod := 2 ^ 64
    sizeof_dyn := 16
    sizeof_versym := 2
    ELF_R_SYM := fun info => info / 2 ^ 32
    ELF_R_TYPE := fun info => info % 2 ^ 32
    ELF_ST_BIND := fun info => info / 16
    read_rela := fun _ a => (t.relas.lookup a).getD ⟨0, 0, 0⟩
    read_rel := fun _ a => (t.rels.lookup a).getD ⟨0, 0⟩
    read_sym := fun _ a => (t.syms.lookup a).getD ⟨0, 0⟩
    read_versym := fun _ a => (t.versyms.lookup a).getD 0
    read_verneed := fun _ a => (t.verneeds.lookup a).getD ⟨0, 0, 0⟩
    read_vernaux := fun _ a => (t.vernauxs.lookup a).getD ⟨0, 0, 0⟩
    read_cstr := fun _ a => (t.cstrs.lookup a).getD "" }

/-- Image loaded at bias 0x10000 with string table at 0x100, symbol table at 0x200
(24-byte entries), RELA table at 0x300 (24-byte entries), REL table at 0x380 (16-byte
entries), `versym` at 0x400 and `verneed` at 0x500. Symbol 1 is the global `stdout`
with version index 2, symbol 2 the weak `__foo`, symbol 3 the global `__bar`; version
index 2 is named `GLIBC_2.2.5`. -/
def linked_tables : Tables :=
  { syms := [(0x10218, ⟨1, 0x12⟩), (0x10230, ⟨8, 0x22⟩), (0x10248, ⟨14, 0x12⟩)]
    cstrs := [(0x10101, "stdout"), (0x10108, "__foo"), (0x1010e, "__bar"),
              (0x10120, "GLIBC_2.2.5")]
    relas := [(0x10300, ⟨0x800, 1 * 2 ^ 32 + 6, 0⟩), (0x10318, ⟨0x808, 2 * 2 ^ 32 + 7, 0⟩),
              (0x10330, ⟨0x810, 3 * 2 ^ 32 + 7, 0⟩)]
    rels := [(0x10380, ⟨0x818, 1 * 2 ^ 32 + 6⟩), (0x10390, ⟨0x820, 8⟩)]
    versyms := [(0x10402, 2), (0x10404, 1), (0x10406, 1)]
    verneeds := [(0x10500, ⟨1, 16, 0⟩)]
    vernauxs := [(0x10510, ⟨2, 0x20, 0⟩)] }

/-- Strings of the fixtures: two library names in the dynamic string table and the
interpreter path at file offset 0x40. -/
def fixture_strings (k : Nat) : String :=
  if k = 1 then "libc.so.6"
  else if k = 11 then "libm.so.6"
  else if k = 0x40 then "/lib64/ld-linux-x86-64.so.2"
  else ""

/-- Interpreter image: one `PT_LOAD` header, entry at 0x40. -/
def ld_image : ElfFile :=
  image ET_DYN 0x40 [⟨PT_LOAD, PF_R ||| PF_X, 0, 0, 8, 8, 0x1000⟩]
    [1, 2, 3, 4, 5, 6, 7, 8] [] (fun _ => "")

/-- Host with a C library: `/lib/libc.so.6` opens with handle 0x5000, `stdout`
resolves (to another address when asked for version `GLIBC_2.2.5`), `map_random`
answers a fresh multiple of 0x10000, the interpreter path opens `ld_image`, and the
relocation strategy stores the value at the offset. -/
def host_libc : Host :=
  { host_ok with
    open_elf := fun _ => ld_image
    map_random_addr := fun w _ => 0x10000 * (w.log.length + 1)
    dlopen := fun _ file _ => if file = "/lib/libc.so.6" then 0x5000 else 0
    dlsym := fun _ name => if name = "stdout" then some 0x7f00 else none
    dlvsym := fun _ name version =>
      if name = "stdout" ∧ version = "GLIBC_2.2.5" then some 0x7f10 else none
    relocate_rela := fun w off _ value _ _ _ => fun a => if a = off then value else w.mem a
    relocate_rel := fun w off _ value _ _ => fun a => if a = off then value else w.mem a }

/-- Shared object with one `PT_LOAD` and one `PT_DYNAMIC` header (dynamic table at file
offset 0x200), and a `PT_INTERP` header when `interp` is set. -/
def linked_image (dynamic : List Dyn) (interp : Bool) : ElfFile :=
  image ET_DYN 0x20
    ([⟨PT_LOAD, PF_R ||| PF_W, 0, 0, 0, 0x1000, 0x1000⟩,
      ⟨PT_DYNAMIC, PF_R ||| PF_W, 0x200, 0x200, 0x100, 0x100, 8⟩]
      ++ (if interp then [⟨PT_INTERP, PF_R, 0x40, 0x40, 0x1c, 0x1c, 1⟩] else []))
    [] dynamic fixture_strings

/-- Dynamic table needing `libc.so.6`, with two RELA entries (`stdout`, weak `__foo`). -/
def dynamic_plain : List Dyn :=
  [⟨DT_NEEDED, 1⟩, ⟨DT_STRTAB, 0x100⟩, ⟨DT_SYMTAB, 0x200⟩, ⟨DT_SYMENT, 24⟩,
   ⟨DT_RELA, 0x300⟩, ⟨DT_RELASZ, 48⟩, ⟨DT_RELAENT, 24⟩, ⟨DT_NULL, 0⟩]

/-- As `dynamic_plain`, with `DT_VERSYM` and a `verneed` list of one entry. -/
def dynamic_versioned : List Dyn :=
  [⟨DT_NEEDED, 1⟩, ⟨DT_STRTAB, 0x100⟩, ⟨DT_SYMTAB, 0x200⟩, ⟨DT_SYMENT, 24⟩,
   ⟨DT_RELA, 0x300⟩, ⟨DT_RELASZ, 48⟩, ⟨DT_RELAENT, 24⟩,
   ⟨DT_VERSYM, 0x400⟩, ⟨DT_VERNEED, 0x500⟩, ⟨DT_VERNEEDNUM, 1⟩, ⟨DT_NULL, 0⟩]

/-- As `dynamic_plain`, with `DT_VERSYM` but no `verneed` list. -/
def dynamic_versym_only : List Dyn :=
  [⟨DT_NEEDED, 1⟩, ⟨DT_STRTAB, 0x100⟩, ⟨DT_SYMTAB, 0x200⟩, ⟨DT_SYMENT, 24⟩,
   ⟨DT_RELA, 0x300⟩, ⟨DT_RELASZ, 48⟩, ⟨DT_RELAENT, 24⟩,
   ⟨DT_VERSYM, 0x400⟩, ⟨DT_NULL, 0⟩]

/-- Record that the dynamic walk produces for `dynamic_plain`, with room for the
third RELA entry (`__bar`, global and unresolved) and the two REL entries. -/
def linked_info : DynInfo :=
  { needed_files := ["libc.so.6"]
    strtab := true
    dynamic_strtab := 0x100
    symtab := true
    dynamic_symtab := 0x200
    dynamic_symtab_entry_size := 24
    rela := true
    rela_table_addr := 0x300
    rela_table_size := 72
    rela_entry_size := 24
    rel := true
    rel_table_addr := 0x380
    rel_table_size := 32
    rel_entry_size := 16 }

/-- As `linked_info`, with `DT_VERSYM` and a `verneed` list of one entry. -/
def versioned_info : DynInfo :=
  { linked_info with ver := true, versym := 0x400, verneed := 0x500, verneednum := 1 }

/-! ## Reference definitions for the dynamic walk -/

/-- The first `n` entries of the dynamic table of `segment`, in table order. -/
def dyn_table (cls : ElfClass) (elf : ElfFile) (segment : Segment) (n : Nat) : List Dyn :=
  (List.range n).map (dyn_at cls elf segment)

/-- The `switch` applied to a list of entries, first entry first. -/
def scan_table (elf : ElfFile) (table : List Dyn) (d : DynInfo) : DynInfo :=
  table.foldl (fun acc curr => scan_entry elf curr acc) d

/-- Tags whose value the walk stores as a number. -/
def value_tags : List Nat :=
  [DT_STRTAB, DT_SYMTAB, DT_SYMENT, DT_RELA, DT_RELASZ, DT_RELAENT, DT_REL, DT_RELSZ,
   DT_RELENT, DT_JMPREL, DT_PLTRELSZ, DT_PLTREL, DT_INIT, DT_FINI, DT_INIT_ARRAY,
   DT_INIT_ARRAYSZ, DT_FINI_ARRAY, DT_FINI_ARRAYSZ, DT_FLAGS, DT_FLAGS_1, DT_VERSYM,
   DT_VERNEED, DT_VERNEEDNUM]

/-- Tags for which the walk keeps a presence flag. -/
def flagged_tags : List Nat :=
  [DT_STRTAB, DT_SYMTAB, DT_RELA, DT_REL, DT_JMPREL, DT_INIT, DT_FINI, DT_INIT_ARRAY,
   DT_FINI_ARRAY, DT_VERSYM]

/-- Tags whose value the walk resolves to a string of the dynamic string table. -/
def string_tags : List Nat := [DT_RPATH, DT_RUNPATH]

/-- Tags that have a `case` in the `switch` (lines 262-387). -/
def is_recorded_tag (tag : Nat) : Bool :=
  decide (tag ∈ DT_NEEDED :: (value_tags ++ string_tags))

/-- The local variable in which the walk stores the value of a tag of `value_tags`. -/
def value_of (tag : Nat) (d : DynInfo) : Nat :=
  if tag = DT_STRTAB then d.dynamic_strtab
  else if tag = DT_SYMTAB then d.dynamic_symtab
  else if tag = DT_SYMENT then d.dynamic_symtab_entry_size
  else if tag = DT_RELA then d.rela_table_addr
  else if tag = DT_RELASZ then d.rela_table_size
  else if tag = DT_RELAENT then d.rela_entry_size
  else if tag = DT_REL then d.rel_table_addr
  else if tag = DT_RELSZ then d.rel_table_size
  else if tag = DT_RELENT then d.rel_entry_size
  else if tag = DT_JMPREL then d.plt_reloc_table_addr
  else if tag = DT_PLTRELSZ then d.plt_reloc_table_size
  else if tag = DT_PLTREL then d.plt_reloc_type
  else if tag = DT_INIT then d.init
  else if tag = DT_FINI then d.fini
  else if tag = DT_INIT_ARRAY then d.init_array
  else if tag = DT_INIT_ARRAYSZ then d.init_array_size
  else if tag = DT_FINI_ARRAY then d.fini_array
  else if tag = DT_FINI_ARRAYSZ then d.fini_array_size
  else if tag = DT_FLAGS then d.flags
  else if tag = DT_FLAGS_1 then d.flags_1
  else if tag = DT_VERSYM then d.versym
  else if tag = DT_VERNEED then d.verneed
  else if tag = DT_VERNEEDNUM then d.verneednum
  else 0

/-- The presence flag that the walk keeps for a tag of `flagged_tags`. -/
def flag_of (tag : Nat) (d : DynInfo) : Bool :=
  if tag = DT_STRTAB then d.strtab
  else if tag = DT_SYMTAB then d.symtab
  else if tag = DT_RELA then d.rela
  else if tag = DT_REL then d.rel
  else if tag = DT_JMPREL then d.plt
  else if tag = DT_INIT then d.init_func
  else if tag = DT_FINI then d.fini_func
  else if tag = DT_INIT_ARRAY then d.init_array_func
  else if tag = DT_FINI_ARRAY then d.fini_array_func
  else if tag = DT_VERSYM then d.ver
  else false

/-- The local variable in which the walk stores the string of a tag of `string_tags`. -/
def string_of (tag : Nat) (d : DynInfo) : String :=
  if tag = DT_RPATH then d.rpath
  else if tag = DT_RUNPATH then d.runpath
  else ""

/-- The table `dynamic_plain` with entries of unknown tags (`DT_GNU_HASH`, `DT_DEBUG`)
put between its entries, and with two more entries after its `DT_NULL`. -/
def dynamic_padded : List Dyn :=
  [⟨0x6ffffef5, 0x2a0⟩, ⟨DT_NEEDED, 1⟩, ⟨DT_STRTAB, 0x100⟩, ⟨21, 0⟩, ⟨DT_SYMTAB, 0x200⟩,
   ⟨DT_SYMENT, 24⟩, ⟨DT_RELA, 0x300⟩, ⟨21, 7⟩, ⟨DT_RELASZ, 48⟩, ⟨DT_RELAENT, 24⟩,
   ⟨DT_NULL, 0⟩, ⟨DT_STRTAB, 0x999⟩, ⟨DT_NEEDED, 11⟩]

/-- Dynamic table with repeated tags, and one more entry after its `DT_NULL`. -/
def dynamic_duplicates : List Dyn :=
  [⟨DT_STRTAB, 0x100⟩, ⟨DT_SYMTAB, 0x200⟩, ⟨DT_RPATH, 1⟩, ⟨DT_STRTAB, 0x180⟩, ⟨DT_RPATH, 11⟩,
   ⟨DT_RELAENT, 24⟩, ⟨DT_NULL, 0⟩, ⟨DT_STRTAB, 0x999⟩]

/-- Dynamic table with a needed library and a RELA table but no `DT_STRTAB`. -/
def dynamic_no_strtab : List Dyn :=
  [⟨DT_NEEDED, 1⟩, ⟨DT_SYMTAB, 0x200⟩, ⟨DT_SYMENT, 24⟩, ⟨DT_RELA, 0x300⟩, ⟨DT_RELASZ, 48⟩,
   ⟨DT_RELAENT, 24⟩, ⟨DT_NULL, 0⟩]

/-- Host whose `validate_elf` refuses every image. -/
def host_rejecting : Host :=
  { host_libc with validate_elf := fun _ => false }

/-- Host on which `map_random` succeeds and every `protect` fails. -/
def host_no_protect : Host :=
  { host_ok with protect_ok := fun _ _ _ _ => false }

/-! ## Reference definitions for the linking steps and the mapping loop -/

/-- Record of the walk of the dynamic table of program header `i` whose first `DT_NULL`
is entry `n`. -/
def walked (cls : ElfClass) (elf : ElfFile) (i n : Nat) : DynInfo :=
  scan_table elf (dyn_table cls elf (segment_at elf i) n) {}

/-- Some entry before entry `n` of the dynamic table of header `i` carries `tag`. -/
def has_tag (cls : ElfClass) (elf : ElfFile) (i n tag : Nat) : Prop :=
  ∃ e ∈ dyn_table cls elf (segment_at elf i) n, e.d_tag = tag

instance (cls : ElfClass) (elf : ElfFile) (i n tag : Nat) : Decidable (has_tag cls elf i n tag) := by
  unfold has_tag; infer_instance

/-- The `dlopen` call made for the library `needed` under the prefix `pre`. -/
def open_call (needed pre : String) : Event :=
  Event.dlopen (pre ++ needed) dlopen_mode

/-- World after `dlopen` has been called for `needed` under each prefix of the list in
turn, no call opening the library. -/
def attempts (needed : String) : List String → World → World
  | [], w => w
  | pre :: rest, w => attempts needed rest (record w (open_call needed pre))

/-- Whether `dlopen` answers `nullptr` for `needed` under every prefix of the list, the
prefixes being tried in turn from the world `w`. -/
def all_fail (h : Host) (needed : String) : List String → World → Bool
  | [], _ => true
  | pre :: rest, w =>
    decide (h.dlopen w (pre ++ needed) dlopen_mode = 0)
      && all_fail h needed rest (record w (open_call needed pre))

/-- Calls to `dlopen`. -/
def is_dlopen_event : Event → Bool
  | .dlopen _ _ => true
  | _ => false

/-- Calls to the relocation strategy, `relocate_rela` or `relocate_rel`. -/
def is_strategy_event : Event → Bool
  | .relocate_rela _ _ _ _ _ _ => true
  | .relocate_rel _ _ _ _ _ => true
  | _ => false

/-- A relocation item the engine processes: the address of a RELA entry or of a REL
entry. -/
inductive WorkItem where
  | rela (curr_rela : Nat)
  | rel (curr_rel : Nat)
  deriving DecidableEq, Repr

/-- The spec's items of one table: `table_size / entry_size` addresses
`bias + table + entry_size * i`, in ascending `i`, as machine addresses. -/
def table_items (bias table entry_size table_size : Nat) : List Nat :=
  (List.range (table_size / entry_size)).map
    (fun i => (bias + table + entry_size * i) % SIZE_MOD)

/-- The spec's ordered list of relocation items: the RELA table, the PLT table when its
type is `DT_RELA`, the REL table, the PLT table when its type is `DT_REL`. -/
def work_queue (bias : Nat) (d : DynInfo) : List WorkItem :=
  (if d.rela then
      (table_items bias d.rela_table_addr d.rela_entry_size d.rela_table_size).map WorkItem.rela
    else [])
  ++ (if d.plt = true ∧ d.plt_reloc_type = DT_RELA then
      (table_items bias d.plt_reloc_table_addr d.rela_entry_size d.plt_reloc_table_size).map
        WorkItem.rela
    else [])
  ++ (if d.rel then
      (table_items bias d.rel_table_addr d.rel_entry_size d.rel_table_size).map WorkItem.rel
    else [])
  ++ (if d.plt = true ∧ d.plt_reloc_type = DT_REL then
      (table_items bias d.plt_reloc_table_addr d.rel_entry_size d.plt_reloc_table_size).map
        WorkItem.rel
    else [])

/-- Processing of one item: the body of the RELA loop or of the REL loop. -/
def process_item (h : Host) (cls : ElfClass) (bias : Nat) (d : DynInfo) (versions : Nat → Nat) :
    WorkItem → World → Except Abort Unit × World
  | .rela curr_rela, w => process_rela h cls bias d versions curr_rela w
  | .rel curr_rel, w => process_rel h cls bias d versions curr_rel w

/-- The spec's `aligned_start = round_down(bias + p_vaddr, p_align)`. -/
def aligned_start_at (bias : Nat) (segment : Segment) : Nat :=
  round_down (bias + segment.p_vaddr) segment.p_align

/-- The spec's `aligned_len = round_up(p_memsz + (p_vaddr - (aligned_start - bias)),
p_align)`, on integers. -/
def aligned_len_at (bias : Nat) (segment : Segment) : Int :=
  ((segment.p_memsz : Int)
        + ((segment.p_vaddr : Int) - ((aligned_start_at bias segment : Int) - (bias : Int)))
      + (segment.p_align : Int) - 1)
    / (segment.p_align : Int) * (segment.p_align : Int)

/-- The calls the mapping loop makes at header `i` when both succeed: none unless the
header is `PT_LOAD`, else `map_fixed` and then `protect` on the same range. -/
def segment_calls (elf : ElfFile) (bias i : Nat) : List Event :=
  if (segment_at elf i).p_type = PT_LOAD then
    [Event.map_fixed
        (adjusted_load_addr (raw_load_addr bias (segment_at elf i)) (segment_at elf i))
        (adjusted_mapping_len (raw_load_addr bias (segment_at elf i)) (segment_at elf i)),
     Event.protect
        (adjusted_load_addr (raw_load_addr bias (segment_at elf i)) (segment_at elf i))
        (adjusted_mapping_len (raw_load_addr bias (segment_at elf i)) (segment_at elf i))
        (segment_at elf i).p_flags]
  else []

/-- The calls of `segment_calls` for a list of headers, in the order of the list. -/
def loop_calls (elf : ElfFile) (bias : Nat) : List Nat → List Event
  | [] => []
  | i :: rest => segment_calls elf bias i ++ loop_calls elf bias rest

/-- The two calls of a successful reservation (lines 97-113). -/
def reserve_calls (elf : ElfFile) (bias : Nat) : List Event :=
  if elf.header.e_type = ET_EXEC then
    [Event.map_fixed (plan elf).1 (size_sub (plan elf).2 (plan elf).1),
     Event.unmap (plan elf).1 (size_sub (plan elf).2 (plan elf).1)]
  else
    [Event.map_random (size_sub (plan elf).2 (plan elf).1),
     Event.unmap bias (size_sub (plan elf).2 (plan elf).1)]

/-- Record as `linked_info`, with a PLT table at 0x330 of 24 bytes whose type is
`DT_RELA`. -/
def plt_rela_info : DynInfo :=
  { linked_info with
    rela_table_size := 48, plt := true, plt_reloc_type := DT_RELA,
    plt_reloc_table_addr := 0x330, plt_reloc_table_size := 24 }

/-- Dynamic table with `DT_JMPREL` and no `DT_PLTREL`. -/
def dynamic_bad_plt : List Dyn :=
  [⟨DT_NEEDED, 1⟩, ⟨DT_STRTAB, 0x100⟩, ⟨DT_SYMTAB, 0x200⟩, ⟨DT_SYMENT, 24⟩,
   ⟨DT_RELA, 0x300⟩, ⟨DT_RELASZ, 48⟩, ⟨DT_RELAENT, 24⟩, ⟨DT_JMPREL, 0x330⟩,
   ⟨DT_PLTRELSZ, 24⟩, ⟨DT_NULL, 0⟩]

/-- As `dynamic_bad_plt`, needing `libm.so.6`, which `host_libc` lacks. -/
def dynamic_bad_plt_missing : List Dyn :=
  [⟨DT_NEEDED, 11⟩, ⟨DT_STRTAB, 0x100⟩, ⟨DT_SYMTAB, 0x200⟩, ⟨DT_SYMENT, 24⟩,
   ⟨DT_JMPREL, 0x330⟩, ⟨DT_PLTRELSZ, 24⟩, ⟨DT_NULL, 0⟩]

/-- Host as `host_libc` with the default prefixes `/usr/lib/` and then `/lib/`, the C
library opening under both (handles 0x6000 and 0x5000). -/
def host_two_prefixes : Host :=
  { host_libc with
    dlopen := fun _ file _ =>
      if file = "/usr/lib/libc.so.6" then 0x6000
      else if file = "/lib/libc.so.6" then 0x5000 else 0
    get_possible_search_prefixes := ["/usr/lib/", "/lib/"] }

/-- Record as `linked_info`, with `DT_RUNPATH` naming `/opt`. -/
def runpath_info : DynInfo :=
  { linked_info with runpath := "/opt" }

/-- Record as `linked_info`, needing `libm.so.6`, which no host of the fixtures has. -/
def missing_info : DynInfo :=
  { linked_info with needed_files := ["libm.so.6"], rpath := "/opt" }

/-- Dynamic table with no `DT_NEEDED`, `DT_RELA`, `DT_REL` or `DT_JMPREL` entry and no
`DT_STRTAB`. -/
def dynamic_no_work : List Dyn :=
  [⟨DT_SYMTAB, 0x200⟩, ⟨DT_SYMENT, 24⟩, ⟨DT_NULL, 0⟩]

/-- As `dynamic_no_work`, with `DT_STRTAB` in place of `DT_SYMTAB`. -/
def dynamic_no_work_no_symtab : List Dyn :=
  [⟨DT_STRTAB, 0x100⟩, ⟨DT_SYMENT, 24⟩, ⟨DT_NULL, 0⟩]

/-- Dynamic table with `DT_JMPREL`, `DT_PLTREL = DT_RELA` and no `DT_RELAENT`. -/
def dynamic_plt_no_relaent : List Dyn :=
  [⟨DT_STRTAB, 0x100⟩, ⟨DT_SYMTAB, 0x200⟩, ⟨DT_SYMENT, 24⟩, ⟨DT_JMPREL, 0x330⟩,
   ⟨DT_PLTRELSZ, 24⟩, ⟨DT_PLTREL, DT_RELA⟩, ⟨DT_NULL, 0⟩]

/-- A `PT_LOAD` header whose file size 0x2000 exceeds its memory size 1. -/
def oversized_segment : Segment := ⟨PT_LOAD, PF_R, 0, 0, 0x2000, 1, 0x1000⟩

/-! ## Reference definitions for the version map -/

/-- The keys `vna_other` that the inner loop of the version map stores, in the order it
visits the auxiliary entries; the first argument is the number of iterations left. -/
def vernaux_keys (cls : ElfClass) (mem : Nat → Nat) (ver aux : Nat) : Nat → Nat → List Nat
  | 0, _ => []
  | n + 1, vernaux_sum =>
    (cls.read_vernaux mem (size_add (size_add ver aux) vernaux_sum)).vna_other
      :: vernaux_keys cls mem ver aux n
          (size_add vernaux_sum
            (cls.read_vernaux mem (size_add (size_add ver aux) vernaux_sum)).vna_next)

/-- The keys that the outer loop of the version map stores; the first argument is the
number of iterations left. -/
def verneed_keys (cls : ElfClass) (mem : Nat → Nat) (the_load_bias : Nat) (d : DynInfo) :
    Nat → Nat → List Nat
  | 0, _ => []
  | n + 1, ver_sum =>
    vernaux_keys cls mem (size_add (size_add the_load_bias d.verneed) ver_sum)
        (cls.read_verneed mem (size_add (size_add the_load_bias d.verneed) ver_sum)).vn_aux
        (cls.read_verneed mem (size_add (size_add the_load_bias d.verneed) ver_sum)).vn_cnt 0
      ++ verneed_keys cls mem the_load_bias d n
          (size_add ver_sum
            (cls.read_verneed mem (size_add (size_add the_load_bias d.verneed) ver_sum)).vn_next)

/-- The values `vna_other` of the entries of the version map built from the `verneed`
list. -/
def version_keys (cls : ElfClass) (mem : Nat → Nat) (the_load_bias : Nat) (d : DynInfo) :
    List Nat :=
  if d.ver then verneed_keys cls mem the_load_bias d d.verneednum 0 else []

/-- Record as `linked_info`, with `DT_VERSYM` and no `verneed` list. -/
def versym_only_info : DynInfo :=
  { linked_info with ver := true, versym := 0x400 }

/-! ## `packer/obfuscation/obfuscation.h` -/

/-- A byte, the type `uint8_t`. -/
abbrev uint8_t : Type := Fin 256

/-- Modelled from the spec: the type `udata` of `utils/udata.h`, which is not part of the
source tree; `obfuscation.h` builds it from a buffer and a length and appends with `+=`,
so it is taken as a string of bytes. -/
abbrev udata : Type := List uint8_t

/-- The enumeration `obfuscation_type`, whose underlying type is `uint8_t` (lines 11-16). -/
abbrev obfuscation_type : Type := uint8_t

/-- Enumerator `NONE`. -/
def NONE : obfuscation_type := 0

/-- Enumerator `ENCRYPTION`. -/
def ENCRYPTION : obfuscation_type := 1

/-- Enumerator `COMPRESSION`. -/
def COMPRESSION : obfuscation_type := 2

/-- Enumerator `ENCODING`. -/
def ENCODING : obfuscation_type := 3

/-- The struct `obfuscation` (lines 18-21). -/
structure obfuscation where
  type : obfuscation_type
  data : udata
  deriving DecidableEq, Repr

/-- The functions `encode_data` and `decode_data`, declared outside the source tree and
taken as parameters. `encode_data data` is the bytes that `encode_data(data, curr)` stores
at `curr`, their number being the `int` it returns; `decode_data bytes`, for the bytes
found at `buff`, is the data that `decode_data(&data, buff)` stores and the integer it
returns. -/
structure DataCodec where
  encode_data : udata → List uint8_t
  decode_data : List uint8_t → udata × Int

/-- Largest `int` (32 bits). -/
def INT_MAX : Int := 2 ^ 31 - 1

/-- Conversion of an integer to `int`: the value modulo 2^32 in two's complement. -/
def to_int (x : Int) : Int := (x + 2 ^ 31) % 2 ^ 32 - 2 ^ 31

/-- The macro `BUFF_LEN` (line 35). -/
def BUFF_LEN : Nat := 10000

/-- The data of the terminator, built from the C string "none" (line 66). -/
def none_data : udata := [110, 111, 110, 101]

/-- Function `convert_to_obfuscation` (lines 23-32). The argument `src` is the bytes
found at the pointer `src`; the result is `*obf` and the `int` returned, `buff - src`.
Reading where no byte is given is undefined. -/
def convert_to_obfuscation (c : DataCodec) (src : List uint8_t) :
    Except Abort (obfuscation × Int) :=
  match src with
  | [] => .error (.undefined "read outside the bytes at src")
  | type :: buff =>
    .ok (⟨type, (c.decode_data buff).1⟩, to_int (1 + (c.decode_data buff).2))

/-- Function `convert_to_data(const obfuscation &)` (lines 34-45): the type byte and the
encoded data, written to a buffer of `BUFF_LEN` bytes; writing past the buffer is
undefined. -/
def convert_to_data (c : DataCodec) (obf : obfuscation) : Except Abort udata :=
  if 1 + (c.encode_data obf.data).length ≤ BUFF_LEN then
    .ok (obf.type :: c.encode_data obf.data)
  else .error (.undefined "write past the end of buff")

/-- The loop of `convert_to_obfuscations` (lines 50-56). The pointer `buff` is kept as its
offset `off` from `src`; the first argument bounds the number of iterations. -/
def parse_loop (c : DataCodec) (src : List uint8_t) :
    Nat → Int → List obfuscation → Except Abort (List obfuscation × Int)
  | 0, _, _ => .error .out_of_fuel
  | fuel + 1, off, list =>
    if off < 0 then .error (.undefined "read outside the bytes at src")
    else
      match convert_to_obfuscation c (src.drop off.toNat) with
      | .error e => .error e
      | .ok (next_obf, consumed) =>
        if next_obf.type = NONE then .ok (list, off + consumed)
        else parse_loop c src fuel (off + consumed) (list ++ [next_obf])

/-- Function `convert_to_obfuscations` (lines 47-59): the vector `*list` after the call
and the `int` returned, `buff - src` converted to `int`. -/
def convert_to_obfuscations (c : DataCodec) (fuel : Nat) (list : List obfuscation)
    (src : List uint8_t) : Except Abort (List obfuscation × Int) :=
  match parse_loop c src fuel 0 list with
  | .error e => .error e
  | .ok (list1, off) => .ok (list1, to_int off)

/-- The loop of `convert_to_data(const vector<obfuscation> &)` (lines 64-65). -/
def append_all (c : DataCodec) : List obfuscation → udata → Except Abort udata
  | [], res => .ok res
  | obf :: rest, res =>
    match convert_to_data c obf with
    | .error e => .error e
    | .ok bytes => append_all c rest (res ++ bytes)

/-- Function `convert_to_data(const vector<obfuscation> &)` (lines 61-69). -/
def convert_to_data_list (c : DataCodec) (list : List obfuscation) : Except Abort udata :=
  match append_all c list [] with
  | .error e => .error e
  | .ok res =>
    match convert_to_data c ⟨NONE, none_data⟩ with
    | .error e => .error e
    | .ok bytes => .ok (res ++ bytes)

/-- The bytes of one serialised obfuscation: its type and its encoded data. -/
def item_bytes (c : DataCodec) (obf : obfuscation) : List uint8_t :=
  obf.type :: c.encode_data obf.data

/-- The bytes of the items of a list, one after the other, without the terminator. -/
def serial (c : DataCodec) : List obfuscation → List uint8_t
  | [] => []
  | obf :: rest => item_bytes c obf ++ serial c rest

/-- The bytes of a serialised list: its items and the terminator, an obfuscation of type
`NONE` with the data `none_data`. -/
def list_bytes (c : DataCodec) (list : List obfuscation) : List uint8_t :=
  serial c list ++ item_bytes c ⟨NONE, none_data⟩

/-- Decoder of `pair_codec`: bytes `1, b` stand for the byte `b`, any other byte ends
the data. -/
def pair_decode : List uint8_t → udata × Int
  | mark :: b :: rest =>
    if mark = 1 then (b :: (pair_decode rest).1, (pair_decode rest).2 + 2) else ([], 1)
  | _ => ([], 1)

/-- A codec whose decoder inverts its encoder: each byte `b` is stored as `1, b` and the
data ends with a byte 0. -/
def pair_codec : DataCodec :=
  { encode_data := fun data => (data.map (fun b => [1, b])).foldr (· ++ ·) [0]
    decode_data := pair_decode }

/-- List with one `ENCRYPTION` with the key `k`, then one `ENCODING` without data. -/
def two_obfuscations : List obfuscation := [⟨ENCRYPTION, [107]⟩, ⟨ENCODING, []⟩]

/-- A list of 2^30 obfuscations of type `ENCRYPTION` without data. -/
def long_list : List obfuscation := List.replicate (2 ^ 30) ⟨ENCRYPTION, []⟩

/-- Position-independent image whose only `PT_LOAD` header starts at 0x1000, so that the
planned minimum is 0x1000. -/
def high_pie_image : ElfFile :=
  image ET_DYN 0x1000 [⟨PT_LOAD, PF_R ||| PF_X, 0, 0x1000, 4, 0x1000, 0x1000⟩]
    [1, 2, 3, 4] [] (fun _ => "")

/-! ## Lemmas -/

theorem size_mod_eq : SIZE_MOD = 18446744073709551616 := by norm_num [SIZE_MOD]

theorem size_t_lt (x : Nat) : size_t x < SIZE_MOD := by
  unfold size_t; exact Nat.mod_lt _ (by norm_num [SIZE_MOD])

theorem size_sub_add_cancel (raw k : Nat) (hk : k < SIZE_MOD) :
    size_sub (size_add raw k) raw = k := by
  unfold size_sub size_add
  rw [size_mod_eq] at *
  omega

theorem size_sub_add_add (raw f k : Nat) (hf : f ≤ k) (hk : k < SIZE_MOD) :
    size_sub (size_add raw k) (size_add raw f) = k - f := by
  unfold size_sub size_add
  rw [size_mod_eq] at *
  omega

theorem size_sub_add_add_lt (raw f k : Nat) (hf : k < f) (hk : f < SIZE_MOD) :
    size_sub (size_add raw k) (size_add raw f) = SIZE_MOD + k - f := by
  unfold size_sub size_add
  rw [size_mod_eq] at *
  omega

theorem size_sub_of_le (a b : Nat) (h : b ≤ a) (ha : a < SIZE_MOD) : size_sub a b = a - b := by
  unfold size_sub
  rw [size_mod_eq] at *
  omega

/-! ### Primitives -/

theorem map_fixed_of_ne (h : Host) (a l : Nat) (w : World)
    (hne : (map_fixed h a l w).1 ≠ MAP_ERROR) :
    map_fixed h a l w = (a, install (record w (Event.map_fixed a l)) a l) := by
  unfold map_fixed at hne ⊢
  split
  · rfl
  · rename_i hh; rw [if_neg hh] at hne; exact absurd rfl hne

theorem map_random_of_ne (h : Host) (l : Nat) (w : World)
    (hne : (map_random h l w).1 ≠ MAP_ERROR) :
    map_random h l w = (h.map_random_addr w l,
      install (record w (Event.map_random l)) (h.map_random_addr w l) l) := by
  unfold map_random at hne ⊢
  split
  · rename_i hh; rw [if_pos hh] at hne; exact absurd rfl hne
  · rfl

theorem unmap_of_ne (h : Host) (a l : Nat) (w : World)
    (hne : (unmap h a l w).1 ≠ UNMAP_ERROR) :
    unmap h a l w = (0, { record w (Event.unmap a l) with
      prot := fun x => if in_range x a l then none else w.prot x }) := by
  unfold unmap at hne ⊢
  split
  · rfl
  · rename_i hh; rw [if_neg hh] at hne; exact absurd rfl hne

theorem protect_of_ne (h : Host) (a l f : Nat) (w : World)
    (hne : (protect h a l f w).1 ≠ PROTECT_ERROR) :
    protect h a l f w = (0, { record w (Event.protect a l f) with
      prot := fun x => if in_range x a l then some f else w.prot x }) := by
  unfold protect at hne ⊢
  split
  · rfl
  · rename_i hh; rw [if_neg hh] at hne; exact absurd rfl hne

/-! ### Stores of one segment -/

theorem write_segment_prot (elf : ElfFile) (bias : Nat) (seg : Segment) (w : World) :
    (write_segment elf bias seg w).prot = w.prot := by
  unfold write_segment; dsimp only; split_ifs <;> rfl

theorem write_segment_log (elf : ElfFile) (bias : Nat) (seg : Segment) (w : World) :
    (write_segment elf bias seg w).log = w.log := by
  unfold write_segment; dsimp only; split_ifs <;> rfl

theorem write_segment_handles (elf : ElfFile) (bias : Nat) (seg : Segment) (w : World) :
    (write_segment elf bias seg w).handles = w.handles := by
  unfold write_segment; dsimp only; split_ifs <;> rfl

theorem memcpy_of_in (mem : Nat → Nat) (dst : Nat) (src : Nat → Nat) (n a : Nat)
    (h : in_range a dst n) : memcpy mem dst src n a = src (size_sub a dst) := by
  unfold memcpy; rw [if_pos h]

theorem memcpy_of_not_in (mem : Nat → Nat) (dst : Nat) (src : Nat → Nat) (n a : Nat)
    (h : ¬ in_range a dst n) : memcpy mem dst src n a = mem a := by
  unfold memcpy; rw [if_neg h]

theorem memset_of_in (mem : Nat → Nat) (dst c n a : Nat)
    (h : in_range a dst n) : memset mem dst c n a = c := by
  unfold memset; rw [if_pos h]

theorem memset_of_not_in (mem : Nat → Nat) (dst c n a : Nat)
    (h : ¬ in_range a dst n) : memset mem dst c n a = mem a := by
  unfold memset; rw [if_neg h]

theorem write_segment_mem_self (elf : ElfFile) (bias : Nat) (seg : Segment) (w : World)
    (k : Nat) (hk : k < size_t seg.p_memsz) :
    (write_segment elf bias seg w).mem (size_add (raw_load_addr bias seg) k)
      = if k < size_t seg.p_filesz then elf.file (size_t seg.p_offset + k) else 0 := by
  have hM := size_t_lt seg.p_memsz
  have hF := size_t_lt seg.p_filesz
  unfold write_segment
  dsimp only
  by_cases hkf : k < size_t seg.p_filesz
  · have h0 : size_t seg.p_filesz > 0 := by omega
    rw [if_pos h0, if_pos hkf]
    have hin : in_range (size_add (raw_load_addr bias seg) k) (raw_load_addr bias seg)
        (size_t seg.p_filesz) := by
      unfold in_range; rw [size_sub_add_cancel _ _ (by omega)]; exact hkf
    have hcopy : memcpy w.mem (raw_load_addr bias seg) (elf.get_offset (size_t seg.p_offset))
        (size_t seg.p_filesz) (size_add (raw_load_addr bias seg) k)
          = elf.file (size_t seg.p_offset + k) := by
      rw [memcpy_of_in _ _ _ _ _ hin, size_sub_add_cancel _ _ (by omega)]
      rfl
    split_ifs with h1
    · show memset _ _ _ _ _ = _
      have hout : ¬ in_range (size_add (raw_load_addr bias seg) k)
          (size_add (raw_load_addr bias seg) (size_t seg.p_filesz))
          (size_sub (size_t seg.p_memsz) (size_t seg.p_filesz)) := by
        unfold in_range
        rw [size_sub_add_add_lt _ _ _ hkf hF, size_sub_of_le _ _ (le_of_lt h1) hM]
        omega
      rw [memset_of_not_in _ _ _ _ _ hout]
      exact hcopy
    · exact hcopy
  · have hfm : size_t seg.p_filesz < size_t seg.p_memsz := by omega
    rw [if_pos hfm, if_neg hkf]
    show memset _ _ _ _ _ = _
    have hin : in_range (size_add (raw_load_addr bias seg) k)
        (size_add (raw_load_addr bias seg) (size_t seg.p_filesz))
        (size_sub (size_t seg.p_memsz) (size_t seg.p_filesz)) := by
      unfold in_range
      rw [size_sub_add_add _ _ _ (by omega) (by omega), size_sub_of_le _ _ (le_of_lt hfm) hM]
      omega
    rw [memset_of_in _ _ _ _ _ hin]

theorem write_segment_mem_other (elf : ElfFile) (bias : Nat) (seg : Segment) (w : World)
    (a : Nat) (ha : ¬ writes bias seg a) :
    (write_segment elf bias seg w).mem a = w.mem a := by
  unfold writes at ha
  push_neg at ha
  obtain ⟨h1, h2⟩ := ha
  unfold write_segment
  dsimp only
  have hcopy : memcpy w.mem (raw_load_addr bias seg) (elf.get_offset (size_t seg.p_offset))
      (size_t seg.p_filesz) a = w.mem a := by
    unfold memcpy; rw [if_neg h1]
  split_ifs with h3 h4
  · show memset _ _ _ _ _ = _
    unfold memset; rw [if_neg (h2 h3)]; exact hcopy
  · show memset _ _ _ _ _ = _
    unfold memset; rw [if_neg (h2 h3)]
  · exact hcopy
  · rfl

/-! ### One iteration of the mapping loop -/

theorem map_step_not_load (h : Host) (elf : ElfFile) (bias i : Nat) (s : World × Nat)
    (hty : (segment_at elf i).p_type ≠ PT_LOAD) : map_step h elf bias i s = (.ok (), s) := by
  simp [map_step, hty]

/-- World after a successful iteration on a `PT_LOAD` header. -/
theorem map_step_ok (h : Host) (elf : ElfFile) (bias i : Nat) (s s' : World × Nat)
    (hty : (segment_at elf i).p_type = PT_LOAD)
    (hok : map_step h elf bias i s = (.ok (), s')) :
    s'.1.mem = (write_segment elf bias (segment_at elf i)
        (install (record s.1 (Event.map_fixed
          (adjusted_load_addr (raw_load_addr bias (segment_at elf i)) (segment_at elf i))
          (adjusted_mapping_len (raw_load_addr bias (segment_at elf i)) (segment_at elf i))))
          (adjusted_load_addr (raw_load_addr bias (segment_at elf i)) (segment_at elf i))
          (adjusted_mapping_len (raw_load_addr bias (segment_at elf i)) (segment_at elf i)))).mem
    ∧ s'.1.prot = (fun x => if covers bias (segment_at elf i) x
        then some (segment_at elf i).p_flags else s.1.prot x)
    ∧ s'.1.handles = s.1.handles
    ∧ s'.1.log = s.1.log ++
        [Event.map_fixed
          (adjusted_load_addr (raw_load_addr bias (segment_at elf i)) (segment_at elf i))
          (adjusted_mapping_len (raw_load_addr bias (segment_at elf i)) (segment_at elf i)),
         Event.protect
          (adjusted_load_addr (raw_load_addr bias (segment_at elf i)) (segment_at elf i))
          (adjusted_mapping_len (raw_load_addr bias (segment_at elf i)) (segment_at elf i))
          (segment_at elf i).p_flags] := by
  unfold map_step at hok
  simp only [hty, ne_eq, not_true_eq_false, if_false] at hok
  split at hok
  · simp at hok
  · rename_i hmap
    rw [map_fixed_of_ne _ _ _ _ hmap] at hok
    split at hok
    · simp at hok
    · rename_i hprot
      rw [protect_of_ne _ _ _ _ _ hprot] at hok
      simp only [Prod.mk.injEq, true_and] at hok
      subst hok
      refine ⟨rfl, ?_, ?_, ?_⟩
      · funext x
        simp only [write_segment_prot, install, record, covers]
        split_ifs <;> rfl
      · simp only [record, write_segment_handles, install]
      · simp only [record, write_segment_log, install, List.append_assoc, List.singleton_append]


/-! ### Loops -/

theorem for_each_cons_ok {ι σ : Type} (body : ι → σ → Except Abort Unit × σ) (i : ι)
    (rest : List ι) (s s' : σ) (hok : for_each body (i :: rest) s = (.ok (), s')) :
    ∃ s1, body i s = (.ok (), s1) ∧ for_each body rest s1 = (.ok (), s') := by
  unfold for_each at hok
  rcases hb : body i s with ⟨r, s1⟩
  rw [hb] at hok
  cases r with
  | error e => simp at hok
  | ok u => exact ⟨s1, rfl, hok⟩

/-- A property kept by every successful iteration is kept by a successful loop. -/
theorem for_each_ok_induct {ι σ : Type} (body : ι → σ → Except Abort Unit × σ) (P : σ → Prop)
    (l : List ι) (hstep : ∀ i ∈ l, ∀ s s1, P s → body i s = (.ok (), s1) → P s1) :
    ∀ s s', P s → for_each body l s = (.ok (), s') → P s' := by
  induction l with
  | nil =>
    intro s s' hP hok
    simp only [for_each, Prod.mk.injEq, true_and] at hok
    exact hok ▸ hP
  | cons i rest ih =>
    intro s s' hP hok
    obtain ⟨s1, h1, h2⟩ := for_each_cons_ok body i rest s s' hok
    exact ih (fun j hj => hstep j (List.mem_cons_of_mem _ hj)) s1 s'
      (hstep i (List.mem_cons_self _ _) s s1 hP h1) h2

/-- A property kept by every iteration, whatever its outcome, is kept by the loop. -/
theorem for_each_induct {ι σ : Type} (body : ι → σ → Except Abort Unit × σ) (P : σ → Prop)
    (l : List ι) (hstep : ∀ i ∈ l, ∀ s, P s → P (body i s).2) :
    ∀ s, P s → P (for_each body l s).2 := by
  induction l with
  | nil => intro s hP; exact hP
  | cons i rest ih =>
    intro s hP
    have h1 := hstep i (List.mem_cons_self _ _) s hP
    unfold for_each
    rcases hb : body i s with ⟨r, s1⟩
    rw [hb] at h1
    cases r with
    | error e => exact h1
    | ok u => exact ih (fun j hj => hstep j (List.mem_cons_of_mem _ hj)) s1 h1

theorem map_step_mem_other (h : Host) (elf : ElfFile) (bias j : Nat) (s s1 : World × Nat)
    (a : Nat) (hok : map_step h elf bias j s = (.ok (), s1))
    (hfree : (segment_at elf j).p_type = PT_LOAD →
      ¬ covers bias (segment_at elf j) a ∧ ¬ writes bias (segment_at elf j) a) :
    s1.1.mem a = s.1.mem a := by
  by_cases hty : (segment_at elf j).p_type = PT_LOAD
  · obtain ⟨hmem, -, -, -⟩ := map_step_ok h elf bias j s s1 hty hok
    obtain ⟨hc, hw⟩ := hfree hty
    rw [hmem, write_segment_mem_other _ _ _ _ _ hw]
    unfold covers at hc
    simp only [install, record, if_neg hc]
  · rw [map_step_not_load h elf bias j s hty] at hok
    simp only [Prod.mk.injEq, true_and] at hok
    rw [← hok]

theorem map_step_prot_other (h : Host) (elf : ElfFile) (bias j : Nat) (s s1 : World × Nat)
    (a : Nat) (hok : map_step h elf bias j s = (.ok (), s1))
    (hfree : (segment_at elf j).p_type = PT_LOAD → ¬ covers bias (segment_at elf j) a) :
    s1.1.prot a = s.1.prot a := by
  by_cases hty : (segment_at elf j).p_type = PT_LOAD
  · obtain ⟨-, hprot, -, -⟩ := map_step_ok h elf bias j s s1 hty hok
    rw [hprot]
    simp only [if_neg (hfree hty)]
  · rw [map_step_not_load h elf bias j s hty] at hok
    simp only [Prod.mk.injEq, true_and] at hok
    rw [← hok]

/-- In an increasing run of the mapping loop, what iteration `i` leaves at an address
survives when no later iteration touches the address. -/
theorem map_loop_keeps (h : Host) (elf : ElfFile) (bias i : Nat) (Q : World → Prop)
    (touched : Nat → Prop)
    (hself : ∀ s s1, map_step h elf bias i s = (.ok (), s1) → Q s1.1)
    (hother : ∀ j s s1, ¬ touched j → Q s.1 → map_step h elf bias j s = (.ok (), s1) → Q s1.1) :
    ∀ l : List Nat, l.Pairwise (· < ·) → i ∈ l → (∀ j ∈ l, i < j → ¬ touched j) →
      ∀ s s', for_each (map_step h elf bias) l s = (.ok (), s') → Q s'.1 := by
  intro l
  induction l with
  | nil => intro _ hmem; simp at hmem
  | cons x rest ih =>
    intro hsorted hmem hfree s s' hok
    obtain ⟨s1, h1, h2⟩ := for_each_cons_ok _ x rest s s' hok
    rw [List.pairwise_cons] at hsorted
    by_cases hx : x = i
    · subst hx
      have hQ : Q s1.1 := hself s s1 h1
      exact for_each_ok_induct (map_step h elf bias) (fun t => Q t.1) rest
        (fun j hj t t1 hQt ht =>
          hother j t t1 (hfree j (List.mem_cons_of_mem _ hj) (hsorted.1 j hj)) hQt ht)
        s1 s' hQ h2
    · have hmem' : i ∈ rest := by
        rcases List.mem_cons.mp hmem with h0 | h0
        · exact absurd h0.symm hx
        · exact h0
      exact ih hsorted.2 hmem' (fun j hj => hfree j (List.mem_cons_of_mem _ hj)) s1 s' h2

/-- The second loop of a successful `load_segments_elf`. -/
theorem load_segments_elf_ok (h : Host) (elf : ElfFile) (w w' : World) (bias lma : Nat)
    (hload : load_segments_elf h elf w = (.ok (bias, lma), w')) :
    size_t elf.header.e_phnum ≠ 0 ∧
    ∃ w1, reserve h elf (plan elf).1 (size_sub (plan elf).2 (plan elf).1) w = (.ok bias, w1)
      ∧ for_each (map_step h elf bias) (List.range (size_t elf.header.e_phnum)) (w1, SIZE_MAX)
          = (.ok (), (w', lma)) := by
  unfold load_segments_elf at hload
  dsimp only at hload
  split at hload
  · simp at hload
  · rename_i hn
    refine ⟨hn, ?_⟩
    rcases hr : reserve h elf (plan elf).1 (size_sub (plan elf).2 (plan elf).1) w with ⟨r, w1⟩
    rw [hr] at hload
    cases r with
    | error e => simp at hload
    | ok b =>
      dsimp only at hload
      rcases hf : for_each (map_step h elf b) (List.range (size_t elf.header.e_phnum))
        (w1, SIZE_MAX) with ⟨r2, s2⟩
      rw [hf] at hload
      cases r2 with
      | error e => simp at hload
      | ok u =>
        simp only [Prod.mk.injEq, Except.ok.injEq] at hload
        obtain ⟨⟨hb, hl⟩, hw⟩ := hload
        subst hb
        refine ⟨w1, rfl, ?_⟩
        rw [hf, ← hl, ← hw]

theorem covers_arith (raw al m k : Nat) (hraw : raw < SIZE_MOD) (hal : 0 < al)
    (hno : m + 2 * al ≤ SIZE_MOD) (hk : k < m) :
    size_sub (size_add raw k) (ROUND_DOWN raw al)
      < ROUND_UP (size_add m (size_sub raw (ROUND_DOWN raw al))) al := by
  have hd : raw % al < al := Nat.mod_lt _ hal
  have hd' : raw % al ≤ raw := Nat.mod_le _ _
  unfold ROUND_DOWN ROUND_UP
  generalize raw % al = d at hd hd'
  have hlo : size_sub raw d = raw - d := size_sub_of_le _ _ hd' hraw
  have hdiff : size_sub raw (raw - d) = d := by
    unfold size_sub; rw [size_mod_eq] at *; omega
  have hx : size_add m d = m + d := by
    unfold size_add; rw [size_mod_eq] at *; omega
  have h1 : size_sub al 1 = al - 1 := by
    unfold size_sub; rw [size_mod_eq] at *; omega
  have hy : size_add (m + d) (al - 1) = m + d + al - 1 := by
    unfold size_add; rw [size_mod_eq] at *; omega
  rw [hlo, hdiff, hx, h1, hy]
  have hq : (m + d + al - 1) / al * al ≤ m + d + al - 1 := Nat.div_mul_le_self _ _
  have hq2 : m + d + al - 1 < (m + d + al - 1) / al * al + al := Nat.lt_div_mul_add hal
  unfold size_mul
  generalize (m + d + al - 1) / al * al = t at hq hq2
  unfold size_sub size_add
  rw [size_mod_eq] at *
  omega

theorem raw_load_addr_lt (bias : Nat) (seg : Segment) : raw_load_addr bias seg < SIZE_MOD := by
  unfold raw_load_addr size_add; exact Nat.mod_lt _ (by norm_num [SIZE_MOD])

theorem covers_self (bias : Nat) (seg : Segment) (k : Nat) (hal : 0 < size_t seg.p_align)
    (hno : size_t seg.p_memsz + 2 * size_t seg.p_align ≤ SIZE_MOD)
    (hk : k < size_t seg.p_memsz) :
    covers bias seg (size_add (raw_load_addr bias seg) k) := by
  unfold covers in_range adjusted_mapping_len adjusted_load_addr
  exact covers_arith _ _ _ _ (raw_load_addr_lt bias seg) hal hno hk

/-! ### Call log -/

@[simp] theorem record_log (w : World) (e : Event) : (record w e).log = w.log ++ [e] := rfl
@[simp] theorem record_mem (w : World) (e : Event) : (record w e).mem = w.mem := rfl
@[simp] theorem record_prot (w : World) (e : Event) : (record w e).prot = w.prot := rfl
@[simp] theorem record_handles (w : World) (e : Event) : (record w e).handles = w.handles := rfl
@[simp] theorem install_log (w : World) (a l : Nat) : (install w a l).log = w.log := rfl
@[simp] theorem install_handles (w : World) (a l : Nat) : (install w a l).handles = w.handles := rfl

theorem adds_refl (P : Event → Prop) (w : World) : adds P w w :=
  ⟨[], by simp, by simp⟩

theorem adds_trans {P : Event → Prop} {w1 w2 w3 : World} (h12 : adds P w1 w2)
    (h23 : adds P w2 w3) : adds P w1 w3 := by
  obtain ⟨c1, e1, p1⟩ := h12
  obtain ⟨c2, e2, p2⟩ := h23
  refine ⟨c1 ++ c2, by rw [e2, e1, List.append_assoc], ?_⟩
  intro e he
  rcases List.mem_append.mp he with h | h
  · exact p1 e h
  · exact p2 e h

theorem adds_mono {P Q : Event → Prop} {w1 w2 : World} (hPQ : ∀ e, P e → Q e)
    (h12 : adds P w1 w2) : adds Q w1 w2 := by
  obtain ⟨c, e1, p1⟩ := h12
  exact ⟨c, e1, fun e he => hPQ e (p1 e he)⟩

theorem adds_of_log {P : Event → Prop} {w1 w2 : World} (e : Event) (hP : P e)
    (hlog : w2.log = w1.log ++ [e]) : adds P w1 w2 :=
  ⟨[e], hlog, by simpa using hP⟩

theorem adds_of_log_eq {P : Event → Prop} {w1 w2 : World} (hlog : w2.log = w1.log) :
    adds P w1 w2 :=
  ⟨[], by simpa using hlog, by simp⟩

theorem map_fixed_log (h : Host) (a l : Nat) (w : World) :
    (map_fixed h a l w).2.log = w.log ++ [Event.map_fixed a l] := by
  unfold map_fixed; split <;> rfl

theorem map_random_log (h : Host) (l : Nat) (w : World) :
    (map_random h l w).2.log = w.log ++ [Event.map_random l] := by
  unfold map_random; split <;> rfl

theorem unmap_log (h : Host) (a l : Nat) (w : World) :
    (unmap h a l w).2.log = w.log ++ [Event.unmap a l] := by
  unfold unmap; split <;> rfl

theorem protect_log (h : Host) (a l f : Nat) (w : World) :
    (protect h a l f w).2.log = w.log ++ [Event.protect a l f] := by
  unfold protect; split <;> rfl

theorem map_fixed_handles (h : Host) (a l : Nat) (w : World) :
    (map_fixed h a l w).2.handles = w.handles := by
  unfold map_fixed; split <;> rfl

theorem map_random_handles (h : Host) (l : Nat) (w : World) :
    (map_random h l w).2.handles = w.handles := by
  unfold map_random; split <;> rfl

theorem unmap_handles (h : Host) (a l : Nat) (w : World) :
    (unmap h a l w).2.handles = w.handles := by
  unfold unmap; split <;> rfl

theorem protect_handles (h : Host) (a l f : Nat) (w : World) :
    (protect h a l f w).2.handles = w.handles := by
  unfold protect; split <;> rfl

theorem map_fixed_adds (h : Host) (a l : Nat) (w : World) :
    adds (fun e => is_memory_event e = true) w (map_fixed h a l w).2 :=
  ⟨[Event.map_fixed a l], map_fixed_log h a l w, by simp [is_memory_event]⟩

theorem map_random_adds (h : Host) (l : Nat) (w : World) :
    adds (fun e => is_memory_event e = true) w (map_random h l w).2 :=
  ⟨[Event.map_random l], map_random_log h l w, by simp [is_memory_event]⟩

theorem unmap_adds (h : Host) (a l : Nat) (w : World) :
    adds (fun e => is_memory_event e = true) w (unmap h a l w).2 :=
  ⟨[Event.unmap a l], unmap_log h a l w, by simp [is_memory_event]⟩

theorem protect_adds (h : Host) (a l f : Nat) (w : World) :
    adds (fun e => is_memory_event e = true) w (protect h a l f w).2 :=
  ⟨[Event.protect a l f], protect_log h a l f w, by simp [is_memory_event]⟩

theorem write_segment_adds (elf : ElfFile) (bias : Nat) (seg : Segment) (w : World) :
    adds (fun e => is_memory_event e = true) w (write_segment elf bias seg w) :=
  adds_of_log_eq (write_segment_log elf bias seg w)

theorem map_step_adds (h : Host) (elf : ElfFile) (bias i : Nat) (s : World × Nat) :
    adds (fun e => is_memory_event e = true) s.1 (map_step h elf bias i s).2.1 := by
  unfold map_step
  dsimp only
  split
  · exact adds_refl _ _
  · split
    · exact map_fixed_adds _ _ _ _
    · split
      · exact adds_trans (map_fixed_adds _ _ _ _)
          (adds_trans (write_segment_adds _ _ _ _) (protect_adds _ _ _ _ _))
      · exact adds_trans (map_fixed_adds _ _ _ _)
          (adds_trans (write_segment_adds _ _ _ _) (protect_adds _ _ _ _ _))

theorem map_loop_adds (h : Host) (elf : ElfFile) (bias : Nat) (l : List Nat) (s : World × Nat) :
    adds (fun e => is_memory_event e = true) s.1 (for_each (map_step h elf bias) l s).2.1 :=
  for_each_induct (map_step h elf bias)
    (fun t => adds (fun e => is_memory_event e = true) s.1 t.1) l
    (fun i _ t ht => adds_trans ht (map_step_adds h elf bias i t)) s (adds_refl _ _)

/-- The call that reserves the address range (lines 101 and 107). -/
theorem reserve_first (h : Host) (elf : ElfFile) (mn rg : Nat) (w : World) :
    ∃ calls, (reserve h elf mn rg w).2.log
      = w.log ++ (if elf.header.e_type = ET_EXEC then Event.map_fixed mn rg
                  else Event.map_random rg) :: calls
      ∧ ∀ e ∈ calls, is_memory_event e = true := by
  unfold reserve
  dsimp only
  split
  · split
    · exact ⟨[], by rw [map_fixed_log], by simp⟩
    · split
      · exact ⟨[Event.unmap (map_fixed h mn rg w).1 rg], by rw [unmap_log, map_fixed_log]; simp,
          by simp [is_memory_event]⟩
      · exact ⟨[Event.unmap (map_fixed h mn rg w).1 rg], by rw [unmap_log, map_fixed_log]; simp,
          by simp [is_memory_event]⟩
  · split
    · exact ⟨[], by rw [map_random_log], by simp⟩
    · split
      · exact ⟨[Event.unmap (map_random h rg w).1 rg], by rw [unmap_log, map_random_log]; simp,
          by simp [is_memory_event]⟩
      · exact ⟨[Event.unmap (map_random h rg w).1 rg], by rw [unmap_log, map_random_log]; simp,
          by simp [is_memory_event]⟩

theorem reserve_adds (h : Host) (elf : ElfFile) (mn rg : Nat) (w : World) :
    adds (fun e => is_memory_event e = true) w (reserve h elf mn rg w).2 := by
  obtain ⟨calls, hlog, hall⟩ := reserve_first h elf mn rg w
  refine ⟨_ :: calls, hlog, ?_⟩
  intro e he
  rcases List.mem_cons.mp he with h1 | h1
  · rw [h1]; split <;> rfl
  · exact hall e h1

theorem reserve_ok_exec (h : Host) (elf : ElfFile) (mn rg b : Nat) (w w1 : World)
    (hty : elf.header.e_type = ET_EXEC) (hok : reserve h elf mn rg w = (.ok b, w1)) :
    b = 0 ∧ w1.log = w.log ++ [Event.map_fixed mn rg, Event.unmap mn rg] := by
  unfold reserve at hok
  simp only [hty, if_true] at hok
  split at hok
  · simp at hok
  · rename_i hmap
    rw [map_fixed_of_ne _ _ _ _ hmap] at hok
    split at hok
    · simp at hok
    · simp only [Prod.mk.injEq, Except.ok.injEq] at hok
      refine ⟨hok.1.symm, ?_⟩
      rw [← hok.2, unmap_log]
      simp

theorem reserve_ok_dyn (h : Host) (elf : ElfFile) (mn rg b : Nat) (w w1 : World)
    (hty : elf.header.e_type ≠ ET_EXEC) (hok : reserve h elf mn rg w = (.ok b, w1)) :
    b = h.map_random_addr w rg
      ∧ w1.log = w.log ++ [Event.map_random rg, Event.unmap b rg] := by
  unfold reserve at hok
  simp only [hty, if_false] at hok
  split at hok
  · simp at hok
  · rename_i hmap
    rw [map_random_of_ne _ _ _ hmap] at hok
    split at hok
    · simp at hok
    · simp only [Prod.mk.injEq, Except.ok.injEq] at hok
      refine ⟨hok.1.symm, ?_⟩
      rw [← hok.2, unmap_log, ← hok.1]
      simp

theorem plan_segment (seg : Segment) (hal : 0 < seg.p_align)
    (hno : seg.p_vaddr + seg.p_memsz + seg.p_align < SIZE_MOD) :
    plan_lo seg = aligned_start seg ∧ plan_hi seg = aligned_start seg + aligned_len seg
      ∧ aligned_start seg + aligned_len seg < SIZE_MOD := by
  have hv : size_t seg.p_vaddr = seg.p_vaddr := by
    unfold size_t; rw [size_mod_eq] at *; omega
  have hm : size_t seg.p_memsz = seg.p_memsz := by
    unfold size_t; rw [size_mod_eq] at *; omega
  have ha : size_t seg.p_align = seg.p_align := by
    unfold size_t; rw [size_mod_eq] at *; omega
  unfold plan_hi plan_lo adjusted_mapping_len adjusted_load_addr aligned_len aligned_start
    ROUND_DOWN ROUND_UP round_down round_up
  rw [hv, hm, ha]
  have hd : seg.p_vaddr % seg.p_align < seg.p_align := Nat.mod_lt _ hal
  have hdm := Nat.div_add_mod seg.p_vaddr seg.p_align
  rw [Nat.mul_comm] at hdm
  generalize seg.p_vaddr % seg.p_align = d at hd hdm
  generalize seg.p_vaddr / seg.p_align * seg.p_align = lo at hdm
  have h1 : size_sub seg.p_vaddr d = lo := by
    unfold size_sub; rw [size_mod_eq] at *; omega
  have h2 : size_sub seg.p_vaddr lo = d := by
    unfold size_sub; rw [size_mod_eq] at *; omega
  have h3 : seg.p_vaddr - lo = d := by omega
  have h4 : size_add seg.p_memsz d = seg.p_memsz + d := by
    unfold size_add; rw [size_mod_eq] at *; omega
  have h5 : size_sub seg.p_align 1 = seg.p_align - 1 := by
    unfold size_sub; rw [size_mod_eq] at *; omega
  have h6 : size_add (seg.p_memsz + d) (seg.p_align - 1) = seg.p_memsz + d + seg.p_align - 1 := by
    unfold size_add; rw [size_mod_eq] at *; omega
  rw [h1, h2, h3, h4, h5, h6]
  have hq : (seg.p_memsz + d + seg.p_align - 1) / seg.p_align * seg.p_align
      ≤ seg.p_memsz + d + seg.p_align - 1 := Nat.div_mul_le_self _ _
  unfold size_mul size_add
  generalize (seg.p_memsz + d + seg.p_align - 1) / seg.p_align * seg.p_align = t at hq ⊢
  rw [size_mod_eq] at *
  refine ⟨rfl, ?_, ?_⟩ <;> omega

theorem plan_lo_le (seg : Segment) : plan_lo seg ≤ SIZE_MAX := by
  have h : plan_lo seg < SIZE_MOD := by
    unfold plan_lo adjusted_load_addr ROUND_DOWN size_sub
    exact Nat.mod_lt _ (by norm_num [SIZE_MOD])
  unfold SIZE_MAX; rw [size_mod_eq] at h; omega

/-- What the first loop computes from an accumulator: bounds and attainment. -/
theorem plan_fold (elf : ElfFile) (l : List Nat) :
    ∀ acc : Nat × Nat,
      ((l.foldl (plan_step elf) acc).1 ≤ acc.1
        ∧ ∀ i ∈ l, (segment_at elf i).p_type = PT_LOAD →
            (l.foldl (plan_step elf) acc).1 ≤ plan_lo (segment_at elf i))
      ∧ ((l.foldl (plan_step elf) acc).1 = acc.1
        ∨ ∃ i ∈ l, (segment_at elf i).p_type = PT_LOAD
            ∧ (l.foldl (plan_step elf) acc).1 = plan_lo (segment_at elf i))
      ∧ (acc.2 ≤ (l.foldl (plan_step elf) acc).2
        ∧ ∀ i ∈ l, (segment_at elf i).p_type = PT_LOAD →
            plan_hi (segment_at elf i) ≤ (l.foldl (plan_step elf) acc).2)
      ∧ ((l.foldl (plan_step elf) acc).2 = acc.2
        ∨ ∃ i ∈ l, (segment_at elf i).p_type = PT_LOAD
            ∧ (l.foldl (plan_step elf) acc).2 = plan_hi (segment_at elf i)) := by
  induction l with
  | nil => intro acc; simp
  | cons x rest ih =>
    intro acc
    rw [List.foldl_cons]
    obtain ⟨⟨a1, a2⟩, a3, ⟨a4, a5⟩, a6⟩ := ih (plan_step elf acc x)
    by_cases hx : (segment_at elf x).p_type = PT_LOAD
    · have hs1 : (plan_step elf acc x).1 ≤ acc.1
          ∧ (plan_step elf acc x).1 ≤ plan_lo (segment_at elf x)
          ∧ ((plan_step elf acc x).1 = acc.1
              ∨ (plan_step elf acc x).1 = plan_lo (segment_at elf x)) := by
        unfold plan_step
        simp only [hx, ne_eq, not_true_eq_false, if_false]
        split_ifs <;> omega
      have hs2 : acc.2 ≤ (plan_step elf acc x).2
          ∧ plan_hi (segment_at elf x) ≤ (plan_step elf acc x).2
          ∧ ((plan_step elf acc x).2 = acc.2
              ∨ (plan_step elf acc x).2 = plan_hi (segment_at elf x)) := by
        unfold plan_step
        simp only [hx, ne_eq, not_true_eq_false, if_false]
        split_ifs <;> omega
      refine ⟨⟨by omega, ?_⟩, ?_, ⟨by omega, ?_⟩, ?_⟩
      · intro i hi hty
        rcases List.mem_cons.mp hi with h0 | h0
        · subst h0; omega
        · exact a2 i h0 hty
      · rcases a3 with h0 | ⟨i, hi, hty, h0⟩
        · rcases hs1.2.2 with h1 | h1
          · left; omega
          · right; exact ⟨x, List.mem_cons_self _ _, hx, by omega⟩
        · right; exact ⟨i, List.mem_cons_of_mem _ hi, hty, h0⟩
      · intro i hi hty
        rcases List.mem_cons.mp hi with h0 | h0
        · subst h0; omega
        · exact a5 i h0 hty
      · rcases a6 with h0 | ⟨i, hi, hty, h0⟩
        · rcases hs2.2.2 with h1 | h1
          · left; omega
          · right; exact ⟨x, List.mem_cons_self _ _, hx, by omega⟩
        · right; exact ⟨i, List.mem_cons_of_mem _ hi, hty, h0⟩
    · have hstep : plan_step elf acc x = acc := by
        unfold plan_step; simp [hx]
      rw [hstep] at a1 a2 a3 a4 a5 a6 ⊢
      refine ⟨⟨a1, ?_⟩, ?_, ⟨a4, ?_⟩, ?_⟩
      · intro i hi hty
        rcases List.mem_cons.mp hi with h0 | h0
        · subst h0; exact absurd hty hx
        · exact a2 i h0 hty
      · rcases a3 with h0 | ⟨i, hi, hty, h0⟩
        · left; exact h0
        · right; exact ⟨i, List.mem_cons_of_mem _ hi, hty, h0⟩
      · intro i hi hty
        rcases List.mem_cons.mp hi with h0 | h0
        · subst h0; exact absurd hty hx
        · exact a5 i h0 hty
      · rcases a6 with h0 | ⟨i, hi, hty, h0⟩
        · left; exact h0
        · right; exact ⟨i, List.mem_cons_of_mem _ hi, hty, h0⟩

/-- The first loop reads only the `PT_LOAD` headers. -/
theorem plan_fold_congr (elf elf2 : ElfFile) (l : List Nat)
    (hsame : ∀ i ∈ l, (segment_at elf i).p_type = PT_LOAD ∨ (segment_at elf2 i).p_type = PT_LOAD →
      segment_at elf2 i = segment_at elf i) :
    ∀ acc, l.foldl (plan_step elf2) acc = l.foldl (plan_step elf) acc := by
  induction l with
  | nil => intro acc; rfl
  | cons x rest ih =>
    intro acc
    rw [List.foldl_cons, List.foldl_cons]
    have hstep : plan_step elf2 acc x = plan_step elf acc x := by
      by_cases h1 : (segment_at elf x).p_type = PT_LOAD ∨ (segment_at elf2 x).p_type = PT_LOAD
      · unfold plan_step
        rw [hsame x (List.mem_cons_self _ _) h1]
      · push_neg at h1
        unfold plan_step
        simp [h1.1, h1.2]
    rw [hstep]
    exact ih (fun i hi => hsame i (List.mem_cons_of_mem _ hi)) _

/-- The first call of `load_segments_elf` once there is a program header. -/
theorem load_segments_elf_first (h : Host) (elf : ElfFile) (w : World)
    (hn : size_t elf.header.e_phnum ≠ 0) :
    ∃ calls, (load_segments_elf h elf w).2.log
      = w.log ++ (if elf.header.e_type = ET_EXEC
          then Event.map_fixed (plan elf).1 (size_sub (plan elf).2 (plan elf).1)
          else Event.map_random (size_sub (plan elf).2 (plan elf).1)) :: calls := by
  obtain ⟨c1, hc1, -⟩ := reserve_first h elf (plan elf).1 (size_sub (plan elf).2 (plan elf).1) w
  unfold load_segments_elf
  simp only [hn, if_false]
  rcases hr : reserve h elf (plan elf).1 (size_sub (plan elf).2 (plan elf).1) w with ⟨r, w1⟩
  rw [hr] at hc1
  cases r with
  | error e => exact ⟨c1, hc1⟩
  | ok b =>
    dsimp only
    obtain ⟨c2, hc2, -⟩ := map_loop_adds h elf b (List.range (size_t elf.header.e_phnum))
      (w1, SIZE_MAX)
    rcases hf : for_each (map_step h elf b) (List.range (size_t elf.header.e_phnum))
      (w1, SIZE_MAX) with ⟨r2, s2⟩
    rw [hf] at hc2
    dsimp only at hc2 hc1
    cases r2 with
    | error e => exact ⟨c1 ++ c2, by dsimp only; rw [hc2, hc1]; simp⟩
    | ok u => exact ⟨c1 ++ c2, by dsimp only; rw [hc2, hc1]; simp⟩

/-! ### Relocation loop bodies -/

/-- With a non-empty name the first thing `resolve_value` does is the host query. -/
theorem resolve_value_log (h : Host) (cls : ElfClass) (sym_name : String)
    (vname st_info : Nat) (w : World) (hname : sym_name ≠ "") :
    (resolve_value h cls sym_name vname st_info w).2.log
      = w.log ++ [lookup_event cls sym_name vname w] := by
  unfold resolve_value
  rw [if_pos hname]
  split
  · rfl
  · split <;> rfl

/-- First call of a RELA iteration whose symbol has a name. -/
theorem process_rela_first (h : Host) (cls : ElfClass) (bias : Nat) (d : DynInfo)
    (versions : Nat → Nat) (item : Nat) (w : World)
    (hname : cls.read_cstr w.mem
      (sym_name_addr cls w.mem bias d (cls.read_rela w.mem item).r_info) ≠ "") :
    ∃ calls, (process_rela h cls bias d versions item w).2.log
      = w.log ++ lookup_event cls
          (cls.read_cstr w.mem (sym_name_addr cls w.mem bias d (cls.read_rela w.mem item).r_info))
          (version_name cls w.mem bias d versions (cls.read_rela w.mem item).r_info) w
        :: calls := by
  have hr := resolve_value_log h cls _
    (version_name cls w.mem bias d versions (cls.read_rela w.mem item).r_info)
    (cls.read_sym w.mem (sym_addr cls bias d (cls.read_rela w.mem item).r_info)).st_info w hname
  unfold process_rela
  dsimp only
  split
  · rename_i e w1 heq
    rw [heq] at hr
    exact ⟨[], hr⟩
  · rename_i v w1 heq
    rw [heq] at hr
    dsimp only at hr
    simp only [record_log, hr, List.append_assoc, List.singleton_append]
    exact ⟨_, rfl⟩

/-- First call of a REL iteration whose symbol has a name. -/
theorem process_rel_first (h : Host) (cls : ElfClass) (bias : Nat) (d : DynInfo)
    (versions : Nat → Nat) (item : Nat) (w : World)
    (hname : cls.read_cstr w.mem
      (sym_name_addr cls w.mem bias d (cls.read_rel w.mem item).r_info) ≠ "") :
    ∃ calls, (process_rel h cls bias d versions item w).2.log
      = w.log ++ lookup_event cls
          (cls.read_cstr w.mem (sym_name_addr cls w.mem bias d (cls.read_rel w.mem item).r_info))
          (version_name cls w.mem bias d versions (cls.read_rel w.mem item).r_info) w
        :: calls := by
  have hr := resolve_value_log h cls _
    (version_name cls w.mem bias d versions (cls.read_rel w.mem item).r_info)
    (cls.read_sym w.mem (sym_addr cls bias d (cls.read_rel w.mem item).r_info)).st_info w hname
  unfold process_rel
  dsimp only
  split
  · rename_i e w1 heq
    rw [heq] at hr
    exact ⟨[], hr⟩
  · rename_i v w1 heq
    rw [heq] at hr
    dsimp only at hr
    simp only [record_log, hr, List.append_assoc, List.singleton_append]
    exact ⟨_, rfl⟩

theorem version_name_unversioned (cls : ElfClass) (mem : Nat → Nat) (bias : Nat) (d : DynInfo)
    (versions : Nat → Nat) (r_info : Nat)
    (hv : d.ver = false ∨ version_num cls mem bias d r_info = 0
      ∨ version_num cls mem bias d r_info = 1) :
    version_name cls mem bias d versions r_info = 0 := by
  unfold version_name
  rcases hv with hv | hv
  · simp [hv]
  · split <;> rfl

theorem version_name_versioned (cls : ElfClass) (mem : Nat → Nat) (bias : Nat) (d : DynInfo)
    (versions : Nat → Nat) (r_info : Nat) (hver : d.ver = true)
    (h0 : version_num cls mem bias d r_info ≠ 0) (h1 : version_num cls mem bias d r_info ≠ 1) :
    version_name cls mem bias d versions r_info
      = versions (version_num cls mem bias d r_info) := by
  unfold version_name
  rw [if_pos hver, if_neg (by push_neg; exact ⟨h0, h1⟩)]

/-! ### Host-linker handles -/

theorem for_each_append {ι σ : Type} (body : ι → σ → Except Abort Unit × σ) (l1 l2 : List ι)
    (s : σ) :
    for_each body (l1 ++ l2) s
      = match for_each body l1 s with
        | (.ok _, s1) => for_each body l2 s1
        | (.error e, s1) => (.error e, s1) := by
  induction l1 generalizing s with
  | nil => simp [for_each]
  | cons x rest ih =>
    simp only [List.cons_append, for_each]
    rcases hb : body x s with ⟨r, s1⟩
    cases r with
    | error e => rfl
    | ok u => exact ih s1

/-- A loop stops at the first iteration that aborts. -/
theorem for_each_stops {ι σ : Type} (body : ι → σ → Except Abort Unit × σ) (pre post : List ι)
    (x : ι) (s s1 s2 : σ) (e : Abort) (hpre : for_each body pre s = (.ok (), s1))
    (hx : body x s1 = (.error e, s2)) :
    for_each body (pre ++ x :: post) s = (.error e, s2) := by
  rw [for_each_append, hpre]
  simp only [for_each, hx]

theorem is_memory_not_link (e : Event) (h : is_memory_event e = true) :
    is_link_event e = false := by
  cases e <;> simp_all [is_memory_event, is_link_event]

theorem load_segments_elf_adds (h : Host) (elf : ElfFile) (w : World) :
    adds (fun e => is_memory_event e = true) w (load_segments_elf h elf w).2 := by
  unfold load_segments_elf
  dsimp only
  split
  · exact adds_refl _ _
  · have h1 := reserve_adds h elf (plan elf).1 (size_sub (plan elf).2 (plan elf).1) w
    rcases hr : reserve h elf (plan elf).1 (size_sub (plan elf).2 (plan elf).1) w with ⟨r, w1⟩
    rw [hr] at h1
    cases r with
    | error e => exact h1
    | ok b =>
      dsimp only
      have h2 := map_loop_adds h elf b (List.range (size_t elf.header.e_phnum)) (w1, SIZE_MAX)
      rcases hf : for_each (map_step h elf b) (List.range (size_t elf.header.e_phnum))
        (w1, SIZE_MAX) with ⟨r2, s2⟩
      rw [hf] at h2
      cases r2 with
      | error e => exact adds_trans h1 h2
      | ok u => exact adds_trans h1 h2

theorem allocate_stack_elf_adds (h : Host) (elf : ElfFile) (w : World) :
    adds (fun e => is_memory_event e = true) w (allocate_stack_elf h elf w).2 := by
  unfold allocate_stack_elf
  dsimp only
  split
  · exact map_random_adds _ _ _
  · split
    · exact adds_trans (map_random_adds h STACK_SIZE w)
        (adds_trans (adds_of_log_eq rfl) (protect_adds _ _ _ _ _))
    · exact adds_trans (map_random_adds h STACK_SIZE w)
        (adds_trans (adds_of_log_eq rfl) (protect_adds _ _ _ _ _))

/-- After a successful stack allocation `run` returns, having called `setup_stack`,
the trampoline and `exit`, in this order. -/
theorem run_ok (h : Host) (elf : ElfFile) (entry lma : Nat) (st : InterpState) (w w1 : World)
    (stack : Stack) (hstack : allocate_stack_elf h elf w = (.ok stack, w1)) :
    (run h elf entry lma st w).1 = .ok ()
    ∧ (run h elf entry lma st w).2.log = w1.log ++
        [Event.setup_stack stack.addr stack.size entry st.interp_load_bias lma,
         Event.jump_entry_elf (if st.invoke_interp then st.interp_entry_addr else entry)
           (h.setup_stack w1 stack elf entry st.interp_load_bias lma).1,
         Event.exit] := by
  unfold run
  rw [hstack]
  simp

theorem run_error (h : Host) (elf : ElfFile) (entry lma : Nat) (st : InterpState) (w w1 : World)
    (e : Abort) (hstack : allocate_stack_elf h elf w = (.error e, w1)) :
    run h elf entry lma st w = (.error e, w1) := by
  unfold run
  rw [hstack]

theorem run_adds (h : Host) (elf : ElfFile) (entry lma : Nat) (st : InterpState) (w : World) :
    adds (fun e => is_link_event e = false) w (run h elf entry lma st w).2 := by
  have h1 : adds (fun e => is_link_event e = false) w (allocate_stack_elf h elf w).2 :=
    adds_mono is_memory_not_link (allocate_stack_elf_adds h elf w)
  rcases hs : allocate_stack_elf h elf w with ⟨r, w1⟩
  rw [hs] at h1
  cases r with
  | error e => rw [run_error h elf entry lma st w w1 e hs]; exact h1
  | ok stack =>
    refine adds_trans h1 ⟨_, (run_ok h elf entry lma st w w1 stack hs).2, ?_⟩
    intro e he
    simp only [List.mem_cons, List.mem_singleton, List.not_mem_nil, or_false] at he
    rcases he with he | he | he <;> rw [he] <;> rfl

theorem load_interp_at_adds (h : Host) (elf : ElfFile) (i : Nat) (w : World) :
    adds (fun e => is_link_event e = false) w (load_interp_at h elf i w).2 := by
  have h0 : adds (fun e => is_link_event e = false) w
      (record w (Event.open_elf (elf.get_string_at_raw_offset (segment_at elf i).p_offset))) :=
    ⟨[_], rfl, by simp [is_link_event]⟩
  have h1 := adds_trans h0 (adds_mono is_memory_not_link
    (load_segments_elf_adds h
      (h.open_elf (elf.get_string_at_raw_offset (segment_at elf i).p_offset))
      (record w (Event.open_elf (elf.get_string_at_raw_offset (segment_at elf i).p_offset)))))
  unfold load_interp_at
  dsimp only
  split
  · rename_i e w1 heq; rw [heq] at h1; exact h1
  · rename_i b l w1 heq; rw [heq] at h1; exact h1

theorem load_interp_adds (h : Host) (elf : ElfFile) (l : List Nat) (w : World) :
    adds (fun e => is_link_event e = false) w (load_interp h elf l w).2 := by
  induction l with
  | nil => exact adds_refl _ _
  | cons x rest ih =>
    unfold load_interp
    split
    · exact ih
    · exact load_interp_at_adds h elf x w

/-- Without a `PT_INTERP` header the loop leaves its locals and the world untouched. -/
theorem load_interp_none (h : Host) (elf : ElfFile) (l : List Nat) (w : World)
    (hno : ∀ i ∈ l, (segment_at elf i).p_type ≠ PT_INTERP) :
    load_interp h elf l w = (.ok {}, w) := by
  induction l with
  | nil => rfl
  | cons x rest ih =>
    unfold load_interp
    rw [if_pos (hno x (List.mem_cons_self _ _))]
    exact ih (fun i hi => hno i (List.mem_cons_of_mem _ hi))

/-- The loop stops at the first `PT_INTERP` header. -/
theorem load_interp_first (h : Host) (elf : ElfFile) (i : Nat) (w : World)
    (hty : (segment_at elf i).p_type = PT_INTERP) :
    ∀ l : List Nat, l.Pairwise (· < ·) → i ∈ l →
      (∀ j ∈ l, j < i → (segment_at elf j).p_type ≠ PT_INTERP) →
      load_interp h elf l w = load_interp_at h elf i w := by
  intro l
  induction l with
  | nil => intro _ hmem; simp at hmem
  | cons x rest ih =>
    intro hsorted hmem hbefore
    rw [List.pairwise_cons] at hsorted
    unfold load_interp
    by_cases hx : x = i
    · subst hx
      rw [if_neg (not_not.mpr hty)]
    · have hmem' : i ∈ rest := by
        rcases List.mem_cons.mp hmem with h0 | h0
        · exact absurd h0.symm hx
        · exact h0
      rw [if_pos (hbefore x (List.mem_cons_self _ _) (hsorted.1 i hmem'))]
      exact ih hsorted.2 hmem' (fun j hj => hbefore j (List.mem_cons_of_mem _ hj))

theorem find_dynamic_none (elf : ElfFile) (l : List Nat)
    (hno : ∀ i ∈ l, (segment_at elf i).p_type ≠ PT_DYNAMIC) :
    ∀ acc : Option Segment, (acc = none → l ≠ []) →
      (∀ s, acc = some s → s.p_type ≠ PT_DYNAMIC) →
      ∃ s, find_dynamic elf l acc = some s ∧ s.p_type ≠ PT_DYNAMIC := by
  induction l with
  | nil =>
    intro acc hacc hs
    cases acc with
    | none => exact absurd rfl (hacc rfl)
    | some s => exact ⟨s, rfl, hs s rfl⟩
  | cons x rest ih =>
    intro acc _ _
    unfold find_dynamic
    rw [if_neg (hno x (List.mem_cons_self _ _))]
    exact ih (fun i hi => hno i (List.mem_cons_of_mem _ hi)) _ (by simp)
      (fun s hs => by
        simp only [Option.some.injEq] at hs
        rw [← hs]
        exact hno x (List.mem_cons_self _ _))

/-- Without a `PT_DYNAMIC` header `do_relocations` returns at once. -/
theorem do_relocations_no_dynamic (h : Host) (cls : ElfClass) (fuel : Nat) (elf : ElfFile)
    (bias : Nat) (w : World) (hn : size_t elf.header.e_phnum ≠ 0)
    (hno : ∀ i, i < size_t elf.header.e_phnum → (segment_at elf i).p_type ≠ PT_DYNAMIC) :
    do_relocations h cls fuel elf bias w = (.ok (), w) := by
  obtain ⟨s, hs, hty⟩ := find_dynamic_none elf (List.range (size_t elf.header.e_phnum))
    (fun i hi => hno i (List.mem_range.mp hi)) none
    (fun _ => by
      intro hcon
      exact hn (by simpa using congrArg List.length hcon))
    (by simp)
  unfold do_relocations
  rw [hs]
  simp [hty]

/-! ### The dynamic walk: one entry -/

theorem scan_entry_dynamic_strtab (elf : ElfFile) (curr : Dyn) (d : DynInfo) :
    (scan_entry elf curr d).dynamic_strtab
      = if curr.d_tag = DT_STRTAB then size_t curr.d_val else d.dynamic_strtab := by
  unfold scan_entry
  simp only [apply_ite DynInfo.dynamic_strtab]
  by_cases h : curr.d_tag = DT_STRTAB
  · rw [if_pos h]
    simp [h,
      DT_NULL, DT_NEEDED, DT_PLTRELSZ, DT_STRTAB, DT_SYMTAB, DT_RELA, DT_RELASZ, DT_RELAENT,
      DT_SYMENT, DT_INIT, DT_FINI, DT_RPATH, DT_REL, DT_RELSZ, DT_RELENT, DT_PLTREL, DT_JMPREL,
      DT_INIT_ARRAY, DT_FINI_ARRAY, DT_INIT_ARRAYSZ, DT_FINI_ARRAYSZ, DT_RUNPATH, DT_FLAGS,
      DT_VERSYM, DT_FLAGS_1, DT_VERNEED, DT_VERNEEDNUM]
  · rw [if_neg h]
    simp only [h, if_false, ite_self]

theorem scan_entry_dynamic_symtab (elf : ElfFile) (curr : Dyn) (d : DynInfo) :
    (scan_entry elf curr d).dynamic_symtab
      = if curr.d_tag = DT_SYMTAB then size_t curr.d_val else d.dynamic_symtab := by
  unfold scan_entry
  simp only [apply_ite DynInfo.dynamic_symtab]
  by_cases h : curr.d_tag = DT_SYMTAB
  · rw [if_pos h]
    simp [h,
      DT_NULL, DT_NEEDED, DT_PLTRELSZ, DT_STRTAB, DT_SYMTAB, DT_RELA, DT_RELASZ, DT_RELAENT,
      DT_SYMENT, DT_INIT, DT_FINI, DT_RPATH, DT_REL, DT_RELSZ, DT_RELENT, DT_PLTREL, DT_JMPREL,
      DT_INIT_ARRAY, DT_FINI_ARRAY, DT_INIT_ARRAYSZ, DT_FINI_ARRAYSZ, DT_RUNPATH, DT_FLAGS,
      DT_VERSYM, DT_FLAGS_1, DT_VERNEED, DT_VERNEEDNUM]
  · rw [if_neg h]
    simp only [h, if_false, ite_self]

theorem scan_entry_dynamic_symtab_entry_size (elf : ElfFile) (curr : Dyn) (d : DynInfo) :
    (scan_entry elf curr d).dynamic_symtab_entry_size
      = if curr.d_tag = DT_SYMENT then size_t curr.d_val else d.dynamic_symtab_entry_size := by
  unfold scan_entry
  simp only [apply_ite DynInfo.dynamic_symtab_entry_size]
  by_cases h : curr.d_tag = DT_SYMENT
  · rw [if_pos h]
    simp [h,
      DT_NULL, DT_NEEDED, DT_PLTRELSZ, DT_STRTAB, DT_SYMTAB, DT_RELA, DT_RELASZ, DT_RELAENT,
      DT_SYMENT, DT_INIT, DT_FINI, DT_RPATH, DT_REL, DT_RELSZ, DT_RELENT, DT_PLTREL, DT_JMPREL,
      DT_INIT_ARRAY, DT_FINI_ARRAY, DT_INIT_ARRAYSZ, DT_FINI_ARRAYSZ, DT_RUNPATH, DT_FLAGS,
      DT_VERSYM, DT_FLAGS_1, DT_VERNEED, DT_VERNEEDNUM]
  · rw [if_neg h]
    simp only [h, if_false, ite_self]

theorem scan_entry_rela_table_addr (elf : ElfFile) (curr : Dyn) (d : DynInfo) :
    (scan_entry elf curr d).rela_table_addr
      = if curr.d_tag = DT_RELA then size_t curr.d_val else d.rela_table_addr := by
  unfold scan_entry
  simp only [apply_ite DynInfo.rela_table_addr]
  by_cases h : curr.d_tag = DT_RELA
  · rw [if_pos h]
    simp [h,
      DT_NULL, DT_NEEDED, DT_PLTRELSZ, DT_STRTAB, DT_SYMTAB, DT_RELA, DT_RELASZ, DT_RELAENT,
      DT_SYMENT, DT_INIT, DT_FINI, DT_RPATH, DT_REL, DT_RELSZ, DT_RELENT, DT_PLTREL, DT_JMPREL,
      DT_INIT_ARRAY, DT_FINI_ARRAY, DT_INIT_ARRAYSZ, DT_FINI_ARRAYSZ, DT_RUNPATH, DT_FLAGS,
      DT_VERSYM, DT_FLAGS_1, DT_VERNEED, DT_VERNEEDNUM]
  · rw [if_neg h]
    simp only [h, if_false, ite_self]

theorem scan_entry_rela_table_size (elf : ElfFile) (curr : Dyn) (d : DynInfo) :
    (scan_entry elf curr d).rela_table_size
      = if curr.d_tag = DT_RELASZ then size_t curr.d_val else d.rela_table_size := by
  unfold scan_entry
  simp only [apply_ite DynInfo.rela_table_size]
  by_cases h : curr.d_tag = DT_RELASZ
  · rw [if_pos h]
    simp [h,
      DT_NULL, DT_NEEDED, DT_PLTRELSZ, DT_STRTAB, DT_SYMTAB, DT_RELA, DT_RELASZ, DT_RELAENT,
      DT_SYMENT, DT_INIT, DT_FINI, DT_RPATH, DT_REL, DT_RELSZ, DT_RELENT, DT_PLTREL, DT_JMPREL,
      DT_INIT_ARRAY, DT_FINI_ARRAY, DT_INIT_ARRAYSZ, DT_FINI_ARRAYSZ, DT_RUNPATH, DT_FLAGS,
      DT_VERSYM, DT_FLAGS_1, DT_VERNEED, DT_VERNEEDNUM]
  · rw [if_neg h]
    simp only [h, if_false, ite_self]

theorem scan_entry_rela_entry_size (elf : ElfFile) (curr : Dyn) (d : DynInfo) :
    (scan_entry elf curr d).rela_entry_size
      = if curr.d_tag = DT_RELAENT then size_t curr.d_val else d.rela_entry_size := by
  unfold scan_entry
  simp only [apply_ite DynInfo.rela_entry_size]
  by_cases h : curr.d_tag = DT_RELAENT
  · rw [if_pos h]
    simp [h,
      DT_NULL, DT_NEEDED, DT_PLTRELSZ, DT_STRTAB, DT_SYMTAB, DT_RELA, DT_RELASZ, DT_RELAENT,
      DT_SYMENT, DT_INIT, DT_FINI, DT_RPATH, DT_REL, DT_RELSZ, DT_RELENT, DT_PLTREL, DT_JMPREL,
      DT_INIT_ARRAY, DT_FINI_ARRAY, DT_INIT_ARRAYSZ, DT_FINI_ARRAYSZ, DT_RUNPATH, DT_FLAGS,
      DT_VERSYM, DT_FLAGS_1, DT_VERNEED, DT_VERNEEDNUM]
  · rw [if_neg h]
    simp only [h, if_false, ite_self]

theorem scan_entry_rel_table_addr (elf : ElfFile) (curr : Dyn) (d : DynInfo) :
    (scan_entry elf curr d).rel_table_addr
      = if curr.d_tag = DT_REL then size_t curr.d_val else d.rel_table_addr := by
  unfold scan_entry
  simp only [apply_ite DynInfo.rel_table_addr]
  by_cases h : curr.d_tag = DT_REL
  · rw [if_pos h]
    simp [h,
      DT_NULL, DT_NEEDED, DT_PLTRELSZ, DT_STRTAB, DT_SYMTAB, DT_RELA, DT_RELASZ, DT_RELAENT,
      DT_SYMENT, DT_INIT, DT_FINI, DT_RPATH, DT_REL, DT_RELSZ, DT_RELENT, DT_PLTREL, DT_JMPREL,
      DT_INIT_ARRAY, DT_FINI_ARRAY, DT_INIT_ARRAYSZ, DT_FINI_ARRAYSZ, DT_RUNPATH, DT_FLAGS,
      DT_VERSYM, DT_FLAGS_1, DT_VERNEED, DT_VERNEEDNUM]
  · rw [if_neg h]
    simp only [h, if_false, ite_self]

theorem scan_entry_rel_table_size (elf : ElfFile) (curr : Dyn) (d : DynInfo) :
    (scan_entry elf curr d).rel_table_size
      = if curr.d_tag = DT_RELSZ then size_t curr.d_val else d.rel_table_size := by
  unfold scan_entry
  simp only [apply_ite DynInfo.rel_table_size]
  by_cases h : curr.d_tag = DT_RELSZ
  · rw [if_pos h]
    simp [h,
      DT_NULL, DT_NEEDED, DT_PLTRELSZ, DT_STRTAB, DT_SYMTAB, DT_RELA, DT_RELASZ, DT_RELAENT,
      DT_SYMENT, DT_INIT, DT_FINI, DT_RPATH, DT_REL, DT_RELSZ, DT_RELENT, DT_PLTREL, DT_JMPREL,
      DT_INIT_ARRAY, DT_FINI_ARRAY, DT_INIT_ARRAYSZ, DT_FINI_ARRAYSZ, DT_RUNPATH, DT_FLAGS,
      DT_VERSYM, DT_FLAGS_1, DT_VERNEED, DT_VERNEEDNUM]
  · rw [if_neg h]
    simp only [h, if_false, ite_self]

theorem scan_entry_rel_entry_size (elf : ElfFile) (curr : Dyn) (d : DynInfo) :
    (scan_entry elf curr d).rel_entry_size
      = if curr.d_tag = DT_RELENT then size_t curr.d_val else d.rel_entry_size := by
  unfold scan_entry
  simp only [apply_ite DynInfo.rel_entry_size]
  by_cases h : curr.d_tag = DT_RELENT
  · rw [if_pos h]
    simp [h,
      DT_NULL, DT_NEEDED, DT_PLTRELSZ, DT_STRTAB, DT_SYMTAB, DT_RELA, DT_RELASZ, DT_RELAENT,
      DT_SYMENT, DT_INIT, DT_FINI, DT_RPATH, DT_REL, DT_RELSZ, DT_RELENT, DT_PLTREL, DT_JMPREL,
      DT_INIT_ARRAY, DT_FINI_ARRAY, DT_INIT_ARRAYSZ, DT_FINI_ARRAYSZ, DT_RUNPATH, DT_FLAGS,
      DT_VERSYM, DT_FLAGS_1, DT_VERNEED, DT_VERNEEDNUM]
  · rw [if_neg h]
    simp only [h, if_false, ite_self]

theorem scan_entry_plt_reloc_table_addr (elf : ElfFile) (curr : Dyn) (d : DynInfo) :
    (scan_entry elf curr d).plt_reloc_table_addr
      = if curr.d_tag = DT_JMPREL then size_t curr.d_val else d.plt_reloc_table_addr := by
  unfold scan_entry
  simp only [apply_ite DynInfo.plt_reloc_table_addr]
  by_cases h : curr.d_tag = DT_JMPREL
  · rw [if_pos h]
    simp [h,
      DT_NULL, DT_NEEDED, DT_PLTRELSZ, DT_STRTAB, DT_SYMTAB, DT_RELA, DT_RELASZ, DT_RELAENT,
      DT_SYMENT, DT_INIT, DT_FINI, DT_RPATH, DT_REL, DT_RELSZ, DT_RELENT, DT_PLTREL, DT_JMPREL,
      DT_INIT_ARRAY, DT_FINI_ARRAY, DT_INIT_ARRAYSZ, DT_FINI_ARRAYSZ, DT_RUNPATH, DT_FLAGS,
      DT_VERSYM, DT_FLAGS_1, DT_VERNEED, DT_VERNEEDNUM]
  · rw [if_neg h]
    simp only [h, if_false, ite_self]

theorem scan_entry_plt_reloc_table_size (elf : ElfFile) (curr : Dyn) (d : DynInfo) :
    (scan_entry elf curr d).plt_reloc_table_size
      = if curr.d_tag = DT_PLTRELSZ then size_t curr.d_val else d.plt_reloc_table_size := by
  unfold scan_entry
  simp only [apply_ite DynInfo.plt_reloc_table_size]
  by_cases h : curr.d_tag = DT_PLTRELSZ
  · rw [if_pos h]
    simp [h,
      DT_NULL, DT_NEEDED, DT_PLTRELSZ, DT_STRTAB, DT_SYMTAB, DT_RELA, DT_RELASZ, DT_RELAENT,
      DT_SYMENT, DT_INIT, DT_FINI, DT_RPATH, DT_REL, DT_RELSZ, DT_RELENT, DT_PLTREL, DT_JMPREL,
      DT_INIT_ARRAY, DT_FINI_ARRAY, DT_INIT_ARRAYSZ, DT_FINI_ARRAYSZ, DT_RUNPATH, DT_FLAGS,
      DT_VERSYM, DT_FLAGS_1, DT_VERNEED, DT_VERNEEDNUM]
  · rw [if_neg h]
    simp only [h, if_false, ite_self]

theorem scan_entry_plt_reloc_type (elf : ElfFile) (curr : Dyn) (d : DynInfo) :
    (scan_entry elf curr d).plt_reloc_type
      = if curr.d_tag = DT_PLTREL then size_t curr.d_val else d.plt_reloc_type := by
  unfold scan_entry
  simp only [apply_ite DynInfo.plt_reloc_type]
  by_cases h : curr.d_tag = DT_PLTREL
  · rw [if_pos h]
    simp [h,
      DT_NULL, DT_NEEDED, DT_PLTRELSZ, DT_STRTAB, DT_SYMTAB, DT_RELA, DT_RELASZ, DT_RELAENT,
      DT_SYMENT, DT_INIT, DT_FINI, DT_RPATH, DT_REL, DT_RELSZ, DT_RELENT, DT_PLTREL, DT_JMPREL,
      DT_INIT_ARRAY, DT_FINI_ARRAY, DT_INIT_ARRAYSZ, DT_FINI_ARRAYSZ, DT_RUNPATH, DT_FLAGS,
      DT_VERSYM, DT_FLAGS_1, DT_VERNEED, DT_VERNEEDNUM]
  · rw [if_neg h]
    simp only [h, if_false, ite_self]

theorem scan_entry_init (elf : ElfFile) (curr : Dyn) (d : DynInfo) :
    (scan_entry elf curr d).init
      = if curr.d_tag = DT_INIT then size_t curr.d_val else d.init := by
  unfold scan_entry
  simp only [apply_ite DynInfo.init]
  by_cases h : curr.d_tag = DT_INIT
  · rw [if_pos h]
    simp [h,
      DT_NULL, DT_NEEDED, DT_PLTRELSZ, DT_STRTAB, DT_SYMTAB, DT_RELA, DT_RELASZ, DT_RELAENT,
      DT_SYMENT, DT_INIT, DT_FINI, DT_RPATH, DT_REL, DT_RELSZ, DT_RELENT, DT_PLTREL, DT_JMPREL,
      DT_INIT_ARRAY, DT_FINI_ARRAY, DT_INIT_ARRAYSZ, DT_FINI_ARRAYSZ, DT_RUNPATH, DT_FLAGS,
      DT_VERSYM, DT_FLAGS_1, DT_VERNEED, DT_VERNEEDNUM]
  · rw [if_neg h]
    simp only [h, if_false, ite_self]

theorem scan_entry_fini (elf : ElfFile) (curr : Dyn) (d : DynInfo) :
    (scan_entry elf curr d).fini
      = if curr.d_tag = DT_FINI then size_t curr.d_val else d.fini := by
  unfold scan_entry
  simp only [apply_ite DynInfo.fini]
  by_cases h : curr.d_tag = DT_FINI
  · rw [if_pos h]
    simp [h,
      DT_NULL, DT_NEEDED, DT_PLTRELSZ, DT_STRTAB, DT_SYMTAB, DT_RELA, DT_RELASZ, DT_RELAENT,
      DT_SYMENT, DT_INIT, DT_FINI, DT_RPATH, DT_REL, DT_RELSZ, DT_RELENT, DT_PLTREL, DT_JMPREL,
      DT_INIT_ARRAY, DT_FINI_ARRAY, DT_INIT_ARRAYSZ, DT_FINI_ARRAYSZ, DT_RUNPATH, DT_FLAGS,
      DT_VERSYM, DT_FLAGS_1, DT_VERNEED, DT_VERNEEDNUM]
  · rw [if_neg h]
    simp only [h, if_false, ite_self]

theorem scan_entry_init_array (elf : ElfFile) (curr : Dyn) (d : DynInfo) :
    (scan_entry elf curr d).init_array
      = if curr.d_tag = DT_INIT_ARRAY then size_t curr.d_val else d.init_array := by
  unfold scan_entry
  simp only [apply_ite DynInfo.init_array]
  by_cases h : curr.d_tag = DT_INIT_ARRAY
  · rw [if_pos h]
    simp [h,
      DT_NULL, DT_NEEDED, DT_PLTRELSZ, DT_STRTAB, DT_SYMTAB, DT_RELA, DT_RELASZ, DT_RELAENT,
      DT_SYMENT, DT_INIT, DT_FINI, DT_RPATH, DT_REL, DT_RELSZ, DT_RELENT, DT_PLTREL, DT_JMPREL,
      DT_INIT_ARRAY, DT_FINI_ARRAY, DT_INIT_ARRAYSZ, DT_FINI_ARRAYSZ, DT_RUNPATH, DT_FLAGS,
      DT_VERSYM, DT_FLAGS_1, DT_VERNEED, DT_VERNEEDNUM]
  · rw [if_neg h]
    simp only [h, if_false, ite_self]

theorem scan_entry_init_array_size (elf : ElfFile) (curr : Dyn) (d : DynInfo) :
    (scan_entry elf curr d).init_array_size
      = if curr.d_tag = DT_INIT_ARRAYSZ then size_t curr.d_val else d.init_array_size := by
  unfold scan_entry
  simp only [apply_ite DynInfo.init_array_size]
  by_cases h : curr.d_tag = DT_INIT_ARRAYSZ
  · rw [if_pos h]
    simp [h,
      DT_NULL, DT_NEEDED, DT_PLTRELSZ, DT_STRTAB, DT_SYMTAB, DT_RELA, DT_RELASZ, DT_RELAENT,
      DT_SYMENT, DT_INIT, DT_FINI, DT_RPATH, DT_REL, DT_RELSZ, DT_RELENT, DT_PLTREL, DT_JMPREL,
      DT_INIT_ARRAY, DT_FINI_ARRAY, DT_INIT_ARRAYSZ, DT_FINI_ARRAYSZ, DT_RUNPATH, DT_FLAGS,
      DT_VERSYM, DT_FLAGS_1, DT_VERNEED, DT_VERNEEDNUM]
  · rw [if_neg h]
    simp only [h, if_false, ite_self]

theorem scan_entry_fini_array (elf : ElfFile) (curr : Dyn) (d : DynInfo) :
    (scan_entry elf curr d).fini_array
      = if curr.d_tag = DT_FINI_ARRAY then size_t curr.d_val else d.fini_array := by
  unfold scan_entry
  simp only [apply_ite DynInfo.fini_array]
  by_cases h : curr.d_tag = DT_FINI_ARRAY
  · rw [if_pos h]
    simp [h,
      DT_NULL, DT_NEEDED, DT_PLTRELSZ, DT_STRTAB, DT_SYMTAB, DT_RELA, DT_RELASZ, DT_RELAENT,
      DT_SYMENT, DT_INIT, DT_FINI, DT_RPATH, DT_REL, DT_RELSZ, DT_RELENT, DT_PLTREL, DT_JMPREL,
      DT_INIT_ARRAY, DT_FINI_ARRAY, DT_INIT_ARRAYSZ, DT_FINI_ARRAYSZ, DT_RUNPATH, DT_FLAGS,
      DT_VERSYM, DT_FLAGS_1, DT_VERNEED, DT_VERNEEDNUM]
  · rw [if_neg h]
    simp only [h, if_false, ite_self]

theorem scan_entry_fini_array_size (elf : ElfFile) (curr : Dyn) (d : DynInfo) :
    (scan_entry elf curr d).fini_array_size
      = if curr.d_tag = DT_FINI_ARRAYSZ then size_t curr.d_val else d.fini_array_size := by
  unfold scan_entry
  simp only [apply_ite DynInfo.fini_array_size]
  by_cases h : curr.d_tag = DT_FINI_ARRAYSZ
  · rw [if_pos h]
    simp [h,
      DT_NULL, DT_NEEDED, DT_PLTRELSZ, DT_STRTAB, DT_SYMTAB, DT_RELA, DT_RELASZ, DT_RELAENT,
      DT_SYMENT, DT_INIT, DT_FINI, DT_RPATH, DT_REL, DT_RELSZ, DT_RELENT, DT_PLTREL, DT_JMPREL,
      DT_INIT_ARRAY, DT_FINI_ARRAY, DT_INIT_ARRAYSZ, DT_FINI_ARRAYSZ, DT_RUNPATH, DT_FLAGS,
      DT_VERSYM, DT_FLAGS_1, DT_VERNEED, DT_VERNEEDNUM]
  · rw [if_neg h]
    simp only [h, if_false, ite_self]

theorem scan_entry_flags (elf : ElfFile) (curr : Dyn) (d : DynInfo) :
    (scan_entry elf curr d).flags
      = if curr.d_tag = DT_FLAGS then size_t curr.d_val else d.flags := by
  unfold scan_entry
  simp only [apply_ite DynInfo.flags]
  by_cases h : curr.d_tag = DT_FLAGS
  · rw [if_pos h]
    simp [h,
      DT_NULL, DT_NEEDED, DT_PLTRELSZ, DT_STRTAB, DT_SYMTAB, DT_RELA, DT_RELASZ, DT_RELAENT,
      DT_SYMENT, DT_INIT, DT_FINI, DT_RPATH, DT_REL, DT_RELSZ, DT_RELENT, DT_PLTREL, DT_JMPREL,
      DT_INIT_ARRAY, DT_FINI_ARRAY, DT_INIT_ARRAYSZ, DT_FINI_ARRAYSZ, DT_RUNPATH, DT_FLAGS,
      DT_VERSYM, DT_FLAGS_1, DT_VERNEED, DT_VERNEEDNUM]
  · rw [if_neg h]
    simp only [h, if_false, ite_self]

theorem scan_entry_flags_1 (elf : ElfFile) (curr : Dyn) (d : DynInfo) :
    (scan_entry elf curr d).flags_1
      = if curr.d_tag = DT_FLAGS_1 then size_t curr.d_val else d.flags_1 := by
  unfold scan_entry
  simp only [apply_ite DynInfo.flags_1]
  by_cases h : curr.d_tag = DT_FLAGS_1
  · rw [if_pos h]
    simp [h,
      DT_NULL, DT_NEEDED, DT_PLTRELSZ, DT_STRTAB, DT_SYMTAB, DT_RELA, DT_RELASZ, DT_RELAENT,
      DT_SYMENT, DT_INIT, DT_FINI, DT_RPATH, DT_REL, DT_RELSZ, DT_RELENT, DT_PLTREL, DT_JMPREL,
      DT_INIT_ARRAY, DT_FINI_ARRAY, DT_INIT_ARRAYSZ, DT_FINI_ARRAYSZ, DT_RUNPATH, DT_FLAGS,
      DT_VERSYM, DT_FLAGS_1, DT_VERNEED, DT_VERNEEDNUM]
  · rw [if_neg h]
    simp only [h, if_false, ite_self]

theorem scan_entry_versym (elf : ElfFile) (curr : Dyn) (d : DynInfo) :
    (scan_entry elf curr d).versym
      = if curr.d_tag = DT_VERSYM then size_t curr.d_val else d.versym := by
  unfold scan_entry
  simp only [apply_ite DynInfo.versym]
  by_cases h : curr.d_tag = DT_VERSYM
  · rw [if_pos h]
    simp [h,
      DT_NULL, DT_NEEDED, DT_PLTRELSZ, DT_STRTAB, DT_SYMTAB, DT_RELA, DT_RELASZ, DT_RELAENT,
      DT_SYMENT, DT_INIT, DT_FINI, DT_RPATH, DT_REL, DT_RELSZ, DT_RELENT, DT_PLTREL, DT_JMPREL,
      DT_INIT_ARRAY, DT_FINI_ARRAY, DT_INIT_ARRAYSZ, DT_FINI_ARRAYSZ, DT_RUNPATH, DT_FLAGS,
      DT_VERSYM, DT_FLAGS_1, DT_VERNEED, DT_VERNEEDNUM]
  · rw [if_neg h]
    simp only [h, if_false, ite_self]

theorem scan_entry_verneed (elf : ElfFile) (curr : Dyn) (d : DynInfo) :
    (scan_entry elf curr d).verneed
      = if curr.d_tag = DT_VERNEED then size_t curr.d_val else d.verneed := by
  unfold scan_entry
  simp only [apply_ite DynInfo.verneed]
  by_cases h : curr.d_tag = DT_VERNEED
  · rw [if_pos h]
    simp [h,
      DT_NULL, DT_NEEDED, DT_PLTRELSZ, DT_STRTAB, DT_SYMTAB, DT_RELA, DT_RELASZ, DT_RELAENT,
      DT_SYMENT, DT_INIT, DT_FINI, DT_RPATH, DT_REL, DT_RELSZ, DT_RELENT, DT_PLTREL, DT_JMPREL,
      DT_INIT_ARRAY, DT_FINI_ARRAY, DT_INIT_ARRAYSZ, DT_FINI_ARRAYSZ, DT_RUNPATH, DT_FLAGS,
      DT_VERSYM, DT_FLAGS_1, DT_VERNEED, DT_VERNEEDNUM]
  · rw [if_neg h]
    simp only [h, if_false, ite_self]

theorem scan_entry_verneednum (elf : ElfFile) (curr : Dyn) (d : DynInfo) :
    (scan_entry elf curr d).verneednum
      = if curr.d_tag = DT_VERNEEDNUM then size_t curr.d_val else d.verneednum := by
  unfold scan_entry
  simp only [apply_ite DynInfo.verneednum]
  by_cases h : curr.d_tag = DT_VERNEEDNUM
  · rw [if_pos h]
    simp [h,
      DT_NULL, DT_NEEDED, DT_PLTRELSZ, DT_STRTAB, DT_SYMTAB, DT_RELA, DT_RELASZ, DT_RELAENT,
      DT_SYMENT, DT_INIT, DT_FINI, DT_RPATH, DT_REL, DT_RELSZ, DT_RELENT, DT_PLTREL, DT_JMPREL,
      DT_INIT_ARRAY, DT_FINI_ARRAY, DT_INIT_ARRAYSZ, DT_FINI_ARRAYSZ, DT_RUNPATH, DT_FLAGS,
      DT_VERSYM, DT_FLAGS_1, DT_VERNEED, DT_VERNEEDNUM]
  · rw [if_neg h]
    simp only [h, if_false, ite_self]

theorem scan_entry_strtab (elf : ElfFile) (curr : Dyn) (d : DynInfo) :
    (scan_entry elf curr d).strtab
      = if curr.d_tag = DT_STRTAB then true else d.strtab := by
  unfold scan_entry
  simp only [apply_ite DynInfo.strtab]
  by_cases h : curr.d_tag = DT_STRTAB
  · rw [if_pos h]
    simp [h,
      DT_NULL, DT_NEEDED, DT_PLTRELSZ, DT_STRTAB, DT_SYMTAB, DT_RELA, DT_RELASZ, DT_RELAENT,
      DT_SYMENT, DT_INIT, DT_FINI, DT_RPATH, DT_REL, DT_RELSZ, DT_RELENT, DT_PLTREL, DT_JMPREL,
      DT_INIT_ARRAY, DT_FINI_ARRAY, DT_INIT_ARRAYSZ, DT_FINI_ARRAYSZ, DT_RUNPATH, DT_FLAGS,
      DT_VERSYM, DT_FLAGS_1, DT_VERNEED, DT_VERNEEDNUM]
  · rw [if_neg h]
    simp only [h, if_false, ite_self]

theorem scan_entry_symtab (elf : ElfFile) (curr : Dyn) (d : DynInfo) :
    (scan_entry elf curr d).symtab
      = if curr.d_tag = DT_SYMTAB then true else d.symtab := by
  unfold scan_entry
  simp only [apply_ite DynInfo.symtab]
  by_cases h : curr.d_tag = DT_SYMTAB
  · rw [if_pos h]
    simp [h,
      DT_NULL, DT_NEEDED, DT_PLTRELSZ, DT_STRTAB, DT_SYMTAB, DT_RELA, DT_RELASZ, DT_RELAENT,
      DT_SYMENT, DT_INIT, DT_FINI, DT_RPATH, DT_REL, DT_RELSZ, DT_RELENT, DT_PLTREL, DT_JMPREL,
      DT_INIT_ARRAY, DT_FINI_ARRAY, DT_INIT_ARRAYSZ, DT_FINI_ARRAYSZ, DT_RUNPATH, DT_FLAGS,
      DT_VERSYM, DT_FLAGS_1, DT_VERNEED, DT_VERNEEDNUM]
  · rw [if_neg h]
    simp only [h, if_false, ite_self]

theorem scan_entry_rela (elf : ElfFile) (curr : Dyn) (d : DynInfo) :
    (scan_entry elf curr d).rela
      = if curr.d_tag = DT_RELA then true else d.rela := by
  unfold scan_entry
  simp only [apply_ite DynInfo.rela]
  by_cases h : curr.d_tag = DT_RELA
  · rw [if_pos h]
    simp [h,
      DT_NULL, DT_NEEDED, DT_PLTRELSZ, DT_STRTAB, DT_SYMTAB, DT_RELA, DT_RELASZ, DT_RELAENT,
      DT_SYMENT, DT_INIT, DT_FINI, DT_RPATH, DT_REL, DT_RELSZ, DT_RELENT, DT_PLTREL, DT_JMPREL,
      DT_INIT_ARRAY, DT_FINI_ARRAY, DT_INIT_ARRAYSZ, DT_FINI_ARRAYSZ, DT_RUNPATH, DT_FLAGS,
      DT_VERSYM, DT_FLAGS_1, DT_VERNEED, DT_VERNEEDNUM]
  · rw [if_neg h]
    simp only [h, if_false, ite_self]

theorem scan_entry_rel (elf : ElfFile) (curr : Dyn) (d : DynInfo) :
    (scan_entry elf curr d).rel
      = if curr.d_tag = DT_REL then true else d.rel := by
  unfold scan_entry
  simp only [apply_ite DynInfo.rel]
  by_cases h : curr.d_tag = DT_REL
  · rw [if_pos h]
    simp [h,
      DT_NULL, DT_NEEDED, DT_PLTRELSZ, DT_STRTAB, DT_SYMTAB, DT_RELA, DT_RELASZ, DT_RELAENT,
      DT_SYMENT, DT_INIT, DT_FINI, DT_RPATH, DT_REL, DT_RELSZ, DT_RELENT, DT_PLTREL, DT_JMPREL,
      DT_INIT_ARRAY, DT_FINI_ARRAY, DT_INIT_ARRAYSZ, DT_FINI_ARRAYSZ, DT_RUNPATH, DT_FLAGS,
      DT_VERSYM, DT_FLAGS_1, DT_VERNEED, DT_VERNEEDNUM]
  · rw [if_neg h]
    simp only [h, if_false, ite_self]

theorem scan_entry_plt (elf : ElfFile) (curr : Dyn) (d : DynInfo) :
    (scan_entry elf curr d).plt
      = if curr.d_tag = DT_JMPREL then true else d.plt := by
  unfold scan_entry
  simp only [apply_ite DynInfo.plt]
  by_cases h : curr.d_tag = DT_JMPREL
  · rw [if_pos h]
    simp [h,
      DT_NULL, DT_NEEDED, DT_PLTRELSZ, DT_STRTAB, DT_SYMTAB, DT_RELA, DT_RELASZ, DT_RELAENT,
      DT_SYMENT, DT_INIT, DT_FINI, DT_RPATH, DT_REL, DT_RELSZ, DT_RELENT, DT_PLTREL, DT_JMPREL,
      DT_INIT_ARRAY, DT_FINI_ARRAY, DT_INIT_ARRAYSZ, DT_FINI_ARRAYSZ, DT_RUNPATH, DT_FLAGS,
      DT_VERSYM, DT_FLAGS_1, DT_VERNEED, DT_VERNEEDNUM]
  · rw [if_neg h]
    simp only [h, if_false, ite_self]

theorem scan_entry_init_func (elf : ElfFile) (curr : Dyn) (d : DynInfo) :
    (scan_entry elf curr d).init_func
      = if curr.d_tag = DT_INIT then true else d.init_func := by
  unfold scan_entry
  simp only [apply_ite DynInfo.init_func]
  by_cases h : curr.d_tag = DT_INIT
  · rw [if_pos h]
    simp [h,
      DT_NULL, DT_NEEDED, DT_PLTRELSZ, DT_STRTAB, DT_SYMTAB, DT_RELA, DT_RELASZ, DT_RELAENT,
      DT_SYMENT, DT_INIT, DT_FINI, DT_RPATH, DT_REL, DT_RELSZ, DT_RELENT, DT_PLTREL, DT_JMPREL,
      DT_INIT_ARRAY, DT_FINI_ARRAY, DT_INIT_ARRAYSZ, DT_FINI_ARRAYSZ, DT_RUNPATH, DT_FLAGS,
      DT_VERSYM, DT_FLAGS_1, DT_VERNEED, DT_VERNEEDNUM]
  · rw [if_neg h]
    simp only [h, if_false, ite_self]

theorem scan_entry_fini_func (elf : ElfFile) (curr : Dyn) (d : DynInfo) :
    (scan_entry elf curr d).fini_func
      = if curr.d_tag = DT_FINI then true else d.fini_func := by
  unfold scan_entry
  simp only [apply_ite DynInfo.fini_func]
  by_cases h : curr.d_tag = DT_FINI
  · rw [if_pos h]
    simp [h,
      DT_NULL, DT_NEEDED, DT_PLTRELSZ, DT_STRTAB, DT_SYMTAB, DT_RELA, DT_RELASZ, DT_RELAENT,
      DT_SYMENT, DT_INIT, DT_FINI, DT_RPATH, DT_REL, DT_RELSZ, DT_RELENT, DT_PLTREL, DT_JMPREL,
      DT_INIT_ARRAY, DT_FINI_ARRAY, DT_INIT_ARRAYSZ, DT_FINI_ARRAYSZ, DT_RUNPATH, DT_FLAGS,
      DT_VERSYM, DT_FLAGS_1, DT_VERNEED, DT_VERNEEDNUM]
  · rw [if_neg h]
    simp only [h, if_false, ite_self]

theorem scan_entry_init_array_func (elf : ElfFile) (curr : Dyn) (d : DynInfo) :
    (scan_entry elf curr d).init_array_func
      = if curr.d_tag = DT_INIT_ARRAY then true else d.init_array_func := by
  unfold scan_entry
  simp only [apply_ite DynInfo.init_array_func]
  by_cases h : curr.d_tag = DT_INIT_ARRAY
  · rw [if_pos h]
    simp [h,
      DT_NULL, DT_NEEDED, DT_PLTRELSZ, DT_STRTAB, DT_SYMTAB, DT_RELA, DT_RELASZ, DT_RELAENT,
      DT_SYMENT, DT_INIT, DT_FINI, DT_RPATH, DT_REL, DT_RELSZ, DT_RELENT, DT_PLTREL, DT_JMPREL,
      DT_INIT_ARRAY, DT_FINI_ARRAY, DT_INIT_ARRAYSZ, DT_FINI_ARRAYSZ, DT_RUNPATH, DT_FLAGS,
      DT_VERSYM, DT_FLAGS_1, DT_VERNEED, DT_VERNEEDNUM]
  · rw [if_neg h]
    simp only [h, if_false, ite_self]

theorem scan_entry_fini_array_func (elf : ElfFile) (curr : Dyn) (d : DynInfo) :
    (scan_entry elf curr d).fini_array_func
      = if curr.d_tag = DT_FINI_ARRAY then true else d.fini_array_func := by
  unfold scan_entry
  simp only [apply_ite DynInfo.fini_array_func]
  by_cases h : curr.d_tag = DT_FINI_ARRAY
  · rw [if_pos h]
    simp [h,
      DT_NULL, DT_NEEDED, DT_PLTRELSZ, DT_STRTAB, DT_SYMTAB, DT_RELA, DT_RELASZ, DT_RELAENT,
      DT_SYMENT, DT_INIT, DT_FINI, DT_RPATH, DT_REL, DT_RELSZ, DT_RELENT, DT_PLTREL, DT_JMPREL,
      DT_INIT_ARRAY, DT_FINI_ARRAY, DT_INIT_ARRAYSZ, DT_FINI_ARRAYSZ, DT_RUNPATH, DT_FLAGS,
      DT_VERSYM, DT_FLAGS_1, DT_VERNEED, DT_VERNEEDNUM]
  · rw [if_neg h]
    simp only [h, if_false, ite_self]

theorem scan_entry_ver (elf : ElfFile) (curr : Dyn) (d : DynInfo) :
    (scan_entry elf curr d).ver
      = if curr.d_tag = DT_VERSYM then true else d.ver := by
  unfold scan_entry
  simp only [apply_ite DynInfo.ver]
  by_cases h : curr.d_tag = DT_VERSYM
  · rw [if_pos h]
    simp [h,
      DT_NULL, DT_NEEDED, DT_PLTRELSZ, DT_STRTAB, DT_SYMTAB, DT_RELA, DT_RELASZ, DT_RELAENT,
      DT_SYMENT, DT_INIT, DT_FINI, DT_RPATH, DT_REL, DT_RELSZ, DT_RELENT, DT_PLTREL, DT_JMPREL,
      DT_INIT_ARRAY, DT_FINI_ARRAY, DT_INIT_ARRAYSZ, DT_FINI_ARRAYSZ, DT_RUNPATH, DT_FLAGS,
      DT_VERSYM, DT_FLAGS_1, DT_VERNEED, DT_VERNEEDNUM]
  · rw [if_neg h]
    simp only [h, if_false, ite_self]

theorem scan_entry_rpath (elf : ElfFile) (curr : Dyn) (d : DynInfo) :
    (scan_entry elf curr d).rpath
      = if curr.d_tag = DT_RPATH then elf.get_string_from_dynstr (size_t curr.d_val) else d.rpath := by
  unfold scan_entry
  simp only [apply_ite DynInfo.rpath]
  by_cases h : curr.d_tag = DT_RPATH
  · rw [if_pos h]
    simp [h,
      DT_NULL, DT_NEEDED, DT_PLTRELSZ, DT_STRTAB, DT_SYMTAB, DT_RELA, DT_RELASZ, DT_RELAENT,
      DT_SYMENT, DT_INIT, DT_FINI, DT_RPATH, DT_REL, DT_RELSZ, DT_RELENT, DT_PLTREL, DT_JMPREL,
      DT_INIT_ARRAY, DT_FINI_ARRAY, DT_INIT_ARRAYSZ, DT_FINI_ARRAYSZ, DT_RUNPATH, DT_FLAGS,
      DT_VERSYM, DT_FLAGS_1, DT_VERNEED, DT_VERNEEDNUM]
  · rw [if_neg h]
    simp only [h, if_false, ite_self]

theorem scan_entry_runpath (elf : ElfFile) (curr : Dyn) (d : DynInfo) :
    (scan_entry elf curr d).runpath
      = if curr.d_tag = DT_RUNPATH then elf.get_string_from_dynstr (size_t curr.d_val) else d.runpath := by
  unfold scan_entry
  simp only [apply_ite DynInfo.runpath]
  by_cases h : curr.d_tag = DT_RUNPATH
  · rw [if_pos h]
    simp [h,
      DT_NULL, DT_NEEDED, DT_PLTRELSZ, DT_STRTAB, DT_SYMTAB, DT_RELA, DT_RELASZ, DT_RELAENT,
      DT_SYMENT, DT_INIT, DT_FINI, DT_RPATH, DT_REL, DT_RELSZ, DT_RELENT, DT_PLTREL, DT_JMPREL,
      DT_INIT_ARRAY, DT_FINI_ARRAY, DT_INIT_ARRAYSZ, DT_FINI_ARRAYSZ, DT_RUNPATH, DT_FLAGS,
      DT_VERSYM, DT_FLAGS_1, DT_VERNEED, DT_VERNEEDNUM]
  · rw [if_neg h]
    simp only [h, if_false, ite_self]

theorem scan_entry_needed_files (elf : ElfFile) (curr : Dyn) (d : DynInfo) :
    (scan_entry elf curr d).needed_files
      = if curr.d_tag = DT_NEEDED then d.needed_files ++ [elf.get_string_from_dynstr (size_t curr.d_val)] else d.needed_files := by
  unfold scan_entry
  simp only [apply_ite DynInfo.needed_files]
  by_cases h : curr.d_tag = DT_NEEDED
  · rw [if_pos h]
    simp [h,
      DT_NULL, DT_NEEDED, DT_PLTRELSZ, DT_STRTAB, DT_SYMTAB, DT_RELA, DT_RELASZ, DT_RELAENT,
      DT_SYMENT, DT_INIT, DT_FINI, DT_RPATH, DT_REL, DT_RELSZ, DT_RELENT, DT_PLTREL, DT_JMPREL,
      DT_INIT_ARRAY, DT_FINI_ARRAY, DT_INIT_ARRAYSZ, DT_FINI_ARRAYSZ, DT_RUNPATH, DT_FLAGS,
      DT_VERSYM, DT_FLAGS_1, DT_VERNEED, DT_VERNEEDNUM]
  · rw [if_neg h]
    simp only [h, if_false, ite_self]

/-- Effect of one entry on the stored value of a tag. -/
theorem scan_entry_value (elf : ElfFile) (curr : Dyn) (d : DynInfo) (tag : Nat)
    (htag : tag ∈ value_tags) :
    value_of tag (scan_entry elf curr d)
      = if curr.d_tag = tag then size_t curr.d_val else value_of tag d := by
  simp only [value_tags, List.mem_cons, List.mem_singleton, List.not_mem_nil, or_false] at htag
  rcases htag with h | h | h | h | h | h | h | h | h | h | h | h | h | h | h | h | h | h | h | h | h | h | h
  · subst h; exact scan_entry_dynamic_strtab elf curr d
  · subst h; exact scan_entry_dynamic_symtab elf curr d
  · subst h; exact scan_entry_dynamic_symtab_entry_size elf curr d
  · subst h; exact scan_entry_rela_table_addr elf curr d
  · subst h; exact scan_entry_rela_table_size elf curr d
  · subst h; exact scan_entry_rela_entry_size elf curr d
  · subst h; exact scan_entry_rel_table_addr elf curr d
  · subst h; exact scan_entry_rel_table_size elf curr d
  · subst h; exact scan_entry_rel_entry_size elf curr d
  · subst h; exact scan_entry_plt_reloc_table_addr elf curr d
  · subst h; exact scan_entry_plt_reloc_table_size elf curr d
  · subst h; exact scan_entry_plt_reloc_type elf curr d
  · subst h; exact scan_entry_init elf curr d
  · subst h; exact scan_entry_fini elf curr d
  · subst h; exact scan_entry_init_array elf curr d
  · subst h; exact scan_entry_init_array_size elf curr d
  · subst h; exact scan_entry_fini_array elf curr d
  · subst h; exact scan_entry_fini_array_size elf curr d
  · subst h; exact scan_entry_flags elf curr d
  · subst h; exact scan_entry_flags_1 elf curr d
  · subst h; exact scan_entry_versym elf curr d
  · subst h; exact scan_entry_verneed elf curr d
  · subst h; exact scan_entry_verneednum elf curr d

/-- Effect of one entry on the presence flag of a tag. -/
theorem scan_entry_flag (elf : ElfFile) (curr : Dyn) (d : DynInfo) (tag : Nat)
    (htag : tag ∈ flagged_tags) :
    flag_of tag (scan_entry elf curr d) = if curr.d_tag = tag then true else flag_of tag d := by
  simp only [flagged_tags, List.mem_cons, List.mem_singleton, List.not_mem_nil, or_false] at htag
  rcases htag with h | h | h | h | h | h | h | h | h | h
  · subst h; exact scan_entry_strtab elf curr d
  · subst h; exact scan_entry_symtab elf curr d
  · subst h; exact scan_entry_rela elf curr d
  · subst h; exact scan_entry_rel elf curr d
  · subst h; exact scan_entry_plt elf curr d
  · subst h; exact scan_entry_init_func elf curr d
  · subst h; exact scan_entry_fini_func elf curr d
  · subst h; exact scan_entry_init_array_func elf curr d
  · subst h; exact scan_entry_fini_array_func elf curr d
  · subst h; exact scan_entry_ver elf curr d

/-- Effect of one entry on the stored string of a tag. -/
theorem scan_entry_string (elf : ElfFile) (curr : Dyn) (d : DynInfo) (tag : Nat)
    (htag : tag ∈ string_tags) :
    string_of tag (scan_entry elf curr d)
      = if curr.d_tag = tag then elf.get_string_from_dynstr (size_t curr.d_val)
        else string_of tag d := by
  simp only [string_tags, List.mem_cons, List.mem_singleton, List.not_mem_nil, or_false] at htag
  rcases htag with h | h
  · subst h; exact scan_entry_rpath elf curr d
  · subst h; exact scan_entry_runpath elf curr d

/-- An entry whose tag has no `case` leaves every local variable as it is. -/
theorem scan_entry_unrecorded (elf : ElfFile) (curr : Dyn) (d : DynInfo)
    (hun : is_recorded_tag curr.d_tag = false) : scan_entry elf curr d = d := by
  simp only [is_recorded_tag, value_tags, string_tags, List.cons_append, List.nil_append,
    List.mem_cons, List.mem_singleton, List.not_mem_nil, or_false, decide_eq_false_iff_not,
    not_or] at hun
  unfold scan_entry
  simp only [hun, if_false]

/-! ### The dynamic walk: a table -/

theorem scan_table_cons (elf : ElfFile) (curr : Dyn) (rest : List Dyn) (d : DynInfo) :
    scan_table elf (curr :: rest) d = scan_table elf rest (scan_entry elf curr d) := rfl

/-- Stored value of a tag after a table: that of the last entry with the tag. -/
theorem scan_table_value (elf : ElfFile) (tag : Nat) (htag : tag ∈ value_tags)
    (table : List Dyn) :
    ∀ d, value_of tag (scan_table elf table d)
      = ((table.filter (fun e => decide (e.d_tag = tag))).getLast?.map
          (fun e => size_t e.d_val)).getD (value_of tag d) := by
  induction table with
  | nil => intro d; rfl
  | cons e rest ih =>
    intro d
    rw [scan_table_cons, ih, scan_entry_value elf e d tag htag]
    by_cases he : e.d_tag = tag
    · rw [if_pos he, List.filter_cons_of_pos (by simpa using he)]
      cases hf : rest.filter (fun e => decide (e.d_tag = tag)) with
      | nil => simp
      | cons b l =>
        obtain ⟨x, hx⟩ : ∃ x, (b :: l).getLast? = some x := by
          cases hl : (b :: l).getLast? with
          | none => simp at hl
          | some x => exact ⟨x, rfl⟩
        simp [hx]
    · rw [if_neg he, List.filter_cons_of_neg (by simpa using he)]

/-- Presence flag of a tag after a table: set when some entry has the tag. -/
theorem scan_table_flag (elf : ElfFile) (tag : Nat) (htag : tag ∈ flagged_tags)
    (table : List Dyn) :
    ∀ d, flag_of tag (scan_table elf table d)
      = (flag_of tag d || table.any (fun e => decide (e.d_tag = tag))) := by
  induction table with
  | nil => intro d; simp [scan_table]
  | cons e rest ih =>
    intro d
    rw [scan_table_cons, ih, scan_entry_flag elf e d tag htag]
    by_cases he : e.d_tag = tag
    · simp [he]
    · simp [he]

/-- Stored string of a tag after a table: that of the last entry with the tag. -/
theorem scan_table_string (elf : ElfFile) (tag : Nat) (htag : tag ∈ string_tags)
    (table : List Dyn) :
    ∀ d, string_of tag (scan_table elf table d)
      = ((table.filter (fun e => decide (e.d_tag = tag))).getLast?.map
          (fun e => elf.get_string_from_dynstr (size_t e.d_val))).getD (string_of tag d) := by
  induction table with
  | nil => intro d; rfl
  | cons e rest ih =>
    intro d
    rw [scan_table_cons, ih, scan_entry_string elf e d tag htag]
    by_cases he : e.d_tag = tag
    · rw [if_pos he, List.filter_cons_of_pos (by simpa using he)]
      cases hf : rest.filter (fun e => decide (e.d_tag = tag)) with
      | nil => simp
      | cons b l =>
        obtain ⟨x, hx⟩ : ∃ x, (b :: l).getLast? = some x := by
          cases hl : (b :: l).getLast? with
          | none => simp at hl
          | some x => exact ⟨x, rfl⟩
        simp [hx]
    · rw [if_neg he, List.filter_cons_of_neg (by simpa using he)]

/-- The needed names after a table: one per `DT_NEEDED` entry, in table order. -/
theorem scan_table_needed (elf : ElfFile) (table : List Dyn) :
    ∀ d, (scan_table elf table d).needed_files
      = d.needed_files ++ (table.filter (fun e => decide (e.d_tag = DT_NEEDED))).map
          (fun e => elf.get_string_from_dynstr (size_t e.d_val)) := by
  induction table with
  | nil => intro d; simp [scan_table]
  | cons e rest ih =>
    intro d
    rw [scan_table_cons, ih, scan_entry_needed_files]
    by_cases he : e.d_tag = DT_NEEDED
    · rw [if_pos he, List.filter_cons_of_pos (by simpa using he)]
      simp
    · rw [if_neg he, List.filter_cons_of_neg (by simpa using he)]

/-- Entries whose tag has no `case` can be dropped from a table. -/
theorem scan_table_filter (elf : ElfFile) (table : List Dyn) :
    ∀ d, scan_table elf table d
      = scan_table elf (table.filter (fun e => is_recorded_tag e.d_tag)) d := by
  induction table with
  | nil => intro d; rfl
  | cons e rest ih =>
    intro d
    by_cases he : is_recorded_tag e.d_tag = true
    · rw [List.filter_cons]
      simp only [he, if_true]
      rw [scan_table_cons, scan_table_cons, ih]
    · rw [List.filter_cons]
      simp only [he, Bool.false_eq_true, if_false]
      rw [scan_table_cons, scan_entry_unrecorded elf e d (by simpa using he), ih]

/-- The walk from entry `i` with enough fuel returns the `switch` applied to the
entries before the first `DT_NULL`. -/
theorem scan_dynamic_from (cls : ElfClass) (elf : ElfFile) (segment : Segment) (n : Nat) :
    ∀ (i fuel : Nat) (d : DynInfo), i + n < SIZE_MOD →
      (∀ k, k < n → (dyn_at cls elf segment (i + k)).d_tag ≠ DT_NULL) →
      (dyn_at cls elf segment (i + n)).d_tag = DT_NULL → n < fuel →
      scan_dynamic cls elf segment fuel i d
        = some (scan_table elf ((List.range n).map (fun k => dyn_at cls elf segment (i + k))) d) := by
  induction n with
  | zero =>
    intro i fuel d _ _ hnull hfuel
    obtain ⟨f, rfl⟩ : ∃ f, fuel = f + 1 := ⟨fuel - 1, by omega⟩
    unfold scan_dynamic
    rw [if_pos (by simpa using hnull)]
    rfl
  | succ n ih =>
    intro i fuel d hi hbefore hnull hfuel
    obtain ⟨f, rfl⟩ : ∃ f, fuel = f + 1 := ⟨fuel - 1, by omega⟩
    unfold scan_dynamic
    rw [if_neg (by simpa using hbefore 0 (by omega))]
    have hstep : size_add i 1 = i + 1 := by
      unfold size_add; rw [size_mod_eq] at *; omega
    rw [hstep, ih (i + 1) f _ (by omega)
      (fun k hk => by have := hbefore (k + 1) (by omega); rwa [show i + 1 + k = i + (k + 1) by omega])
      (by rwa [show i + 1 + n = i + (n + 1) by omega]) (by omega)]
    rw [List.range_succ_eq_map, List.map_cons, scan_table_cons, List.map_map]
    congr 2
    apply List.map_congr_left
    intro k _
    simp only [Function.comp, Nat.add_zero]
    rw [show i + 1 + k = i + (k + 1) by omega]

/-- The walk from the first entry. -/
theorem scan_dynamic_table (cls : ElfClass) (elf : ElfFile) (segment : Segment) (n fuel : Nat)
    (d : DynInfo) (hn : n < SIZE_MOD)
    (hbefore : ∀ k, k < n → (dyn_at cls elf segment k).d_tag ≠ DT_NULL)
    (hnull : (dyn_at cls elf segment n).d_tag = DT_NULL) (hfuel : n < fuel) :
    scan_dynamic cls elf segment fuel 0 d = some (scan_table elf (dyn_table cls elf segment n) d) := by
  have h := scan_dynamic_from cls elf segment n 0 fuel d (by omega)
    (fun k hk => by rw [Nat.zero_add]; exact hbefore k hk) (by rw [Nat.zero_add]; exact hnull)
    hfuel
  rw [h]
  unfold dyn_table
  simp only [Nat.zero_add]

/-! ### The dynamic walk inside `do_relocations` -/

theorem value_of_default (tag : Nat) : value_of tag {} = 0 := by
  unfold value_of
  simp only [ite_self]

theorem flag_of_default (tag : Nat) : flag_of tag {} = false := by
  unfold flag_of
  simp only [ite_self]

theorem string_of_default (tag : Nat) : string_of tag {} = "" := by
  unfold string_of
  simp only [ite_self]

/-- The search stops at the first `PT_DYNAMIC` header. -/
theorem find_dynamic_first (elf : ElfFile) (i : Nat)
    (hty : (segment_at elf i).p_type = PT_DYNAMIC) :
    ∀ l : List Nat, l.Pairwise (· < ·) → i ∈ l →
      (∀ j ∈ l, j < i → (segment_at elf j).p_type ≠ PT_DYNAMIC) →
      ∀ acc, find_dynamic elf l acc = some (segment_at elf i) := by
  intro l
  induction l with
  | nil => intro _ hmem; simp at hmem
  | cons x rest ih =>
    intro hsorted hmem hbefore acc
    rw [List.pairwise_cons] at hsorted
    unfold find_dynamic
    by_cases hx : x = i
    · subst hx
      rw [if_pos hty]
    · have hmem' : i ∈ rest := by
        rcases List.mem_cons.mp hmem with h0 | h0
        · exact absurd h0.symm hx
        · exact h0
      rw [if_neg (hbefore x (List.mem_cons_self _ _) (hsorted.1 i hmem'))]
      exact ih hsorted.2 hmem' (fun j hj => hbefore j (List.mem_cons_of_mem _ hj)) _

/-- With a `PT_DYNAMIC` header and a `DT_NULL` within the fuel, `do_relocations` is
the linking steps on the record of the entries before the first `DT_NULL`. -/
theorem do_relocations_eq_link (h : Host) (cls : ElfClass) (fuel : Nat) (elf : ElfFile)
    (bias : Nat) (w : World) (i n : Nat) (hi : i < size_t elf.header.e_phnum)
    (hty : (segment_at elf i).p_type = PT_DYNAMIC)
    (hfirst : ∀ j, j < i → (segment_at elf j).p_type ≠ PT_DYNAMIC)
    (hn : n < SIZE_MOD)
    (hbefore : ∀ k, k < n → (dyn_at cls elf (segment_at elf i) k).d_tag ≠ DT_NULL)
    (hnull : (dyn_at cls elf (segment_at elf i) n).d_tag = DT_NULL) (hfuel : n < fuel) :
    do_relocations h cls fuel elf bias w
      = link h cls bias (scan_table elf (dyn_table cls elf (segment_at elf i) n) {}) w := by
  unfold do_relocations
  rw [find_dynamic_first elf i hty _ (List.pairwise_lt_range _) (List.mem_range.mpr hi)
    (fun j _ hj => hfirst j hj) none]
  simp only [hty, ne_eq, not_true_eq_false, if_false,
    scan_dynamic_table cls elf (segment_at elf i) n fuel {} hn hbefore hnull hfuel]

/-! ### Opening the needed libraries -/

theorem attempts_log (needed : String) (l : List String) :
    ∀ w, (attempts needed l w).log = w.log ++ l.map (open_call needed) := by
  induction l with
  | nil => intro w; simp [attempts]
  | cons pre rest ih =>
    intro w
    unfold attempts
    rw [ih, record_log]
    simp

theorem attempts_handles (needed : String) (l : List String) :
    ∀ w, (attempts needed l w).handles = w.handles := by
  induction l with
  | nil => intro w; rfl
  | cons pre rest ih =>
    intro w
    unfold attempts
    rw [ih, record_handles]

/-- When every prefix fails, all of them have been tried and nothing is kept. -/
theorem try_prefixes_all_fail (h : Host) (needed : String) (l : List String) :
    ∀ w, all_fail h needed l w = true → try_prefixes h needed l w = (none, attempts needed l w) := by
  induction l with
  | nil => intro w _; rfl
  | cons pre rest ih =>
    intro w hall
    unfold all_fail at hall
    rw [Bool.and_eq_true, decide_eq_true_eq] at hall
    unfold try_prefixes attempts
    rw [if_neg (not_not.mpr hall.1)]
    exact ih _ hall.2

/-- The first prefix that opens the library ends the search: its handle is kept and the
prefixes after it are not tried. -/
theorem try_prefixes_first (h : Host) (needed : String) (p : String) (post : List String)
    (pre : List String) :
    ∀ w, all_fail h needed pre w = true →
      h.dlopen (attempts needed pre w) (p ++ needed) dlopen_mode ≠ 0 →
      try_prefixes h needed (pre ++ p :: post) w
        = (some (h.dlopen (attempts needed pre w) (p ++ needed) dlopen_mode),
           { record (attempts needed pre w) (open_call needed p) with
             handles := (attempts needed pre w).handles
               ++ [h.dlopen (attempts needed pre w) (p ++ needed) dlopen_mode] }) := by
  induction pre with
  | nil =>
    intro w _ hopen
    simp only [List.nil_append, attempts] at hopen ⊢
    unfold try_prefixes
    rw [if_pos hopen]
    rfl
  | cons q rest ih =>
    intro w hall hopen
    unfold all_fail at hall
    rw [Bool.and_eq_true, decide_eq_true_eq] at hall
    simp only [List.cons_append, attempts] at hopen ⊢
    unfold try_prefixes
    rw [if_neg (not_not.mpr hall.1)]
    exact ih _ hall.2 hopen

theorem try_prefixes_adds (h : Host) (needed : String) (l : List String) :
    ∀ w, adds (fun e => is_dlopen_event e = true) w (try_prefixes h needed l w).2 := by
  induction l with
  | nil => intro w; exact adds_refl _ _
  | cons pre rest ih =>
    intro w
    unfold try_prefixes
    split
    · exact adds_of_log (Event.dlopen (pre ++ needed) dlopen_mode) rfl rfl
    · exact adds_trans (adds_of_log (Event.dlopen (pre ++ needed) dlopen_mode) rfl rfl) (ih _)

theorem open_needed_adds (h : Host) (prefixes : List String) (needed : String)
    (s : World × List Nat) :
    adds (fun e => is_dlopen_event e = true) s.1 (open_needed h prefixes needed s).2.1 := by
  have ht := try_prefixes_adds h needed prefixes s.1
  unfold open_needed
  rcases hr : try_prefixes h needed prefixes s.1 with ⟨r, w1⟩
  rw [hr] at ht
  cases r <;> exact ht

theorem open_loop_adds (h : Host) (prefixes : List String) (l : List String)
    (s : World × List Nat) :
    adds (fun e => is_dlopen_event e = true) s.1
      (for_each (open_needed h prefixes) l s).2.1 :=
  for_each_induct (open_needed h prefixes)
    (fun t => adds (fun e => is_dlopen_event e = true) s.1 t.1) l
    (fun x _ t ht => adds_trans ht (open_needed_adds h prefixes x t)) s (adds_refl _ _)

/-- An abort of a loop is the abort of one of its iterations. -/
theorem for_each_error {ι σ : Type} (body : ι → σ → Except Abort Unit × σ) (l : List ι) :
    ∀ (s : σ) (e : Abort), (for_each body l s).1 = .error e →
      ∃ x ∈ l, ∃ s1, (body x s1).1 = .error e := by
  induction l with
  | nil => intro s e herr; simp [for_each] at herr
  | cons x rest ih =>
    intro s e herr
    unfold for_each at herr
    rcases hb : body x s with ⟨r, s1⟩
    rw [hb] at herr
    cases r with
    | error e1 =>
      simp only [Except.error.injEq] at herr
      exact ⟨x, List.mem_cons_self _ _, s, by rw [hb, herr]⟩
    | ok u =>
      obtain ⟨y, hy, s2, h2⟩ := ih s1 e herr
      exact ⟨y, List.mem_cons_of_mem _ hy, s2, h2⟩

theorem open_needed_error (h : Host) (prefixes : List String) (needed : String)
    (s : World × List Nat) (e : Abort) (herr : (open_needed h prefixes needed s).1 = .error e) :
    e = .thrown "can't open/find a certain library using dlopen()" := by
  unfold open_needed at herr
  rcases hr : try_prefixes h needed prefixes s.1 with ⟨r, w1⟩
  rw [hr] at herr
  cases r with
  | none => simp only [Except.error.injEq] at herr; exact herr.symm
  | some hd => simp at herr

theorem resolve_value_error (h : Host) (cls : ElfClass) (sym_name : String)
    (vname st_info : Nat) (w : World) (e : Abort)
    (herr : (resolve_value h cls sym_name vname st_info w).1 = .error e) :
    e = .thrown "relocation value not found, FAILED\n" := by
  unfold resolve_value at herr
  split at herr
  · split at herr
    · simp at herr
    · split at herr
      · simp only [Except.error.injEq] at herr; exact herr.symm
      · simp at herr
  · simp at herr

theorem process_rela_error (h : Host) (cls : ElfClass) (bias : Nat) (d : DynInfo)
    (versions : Nat → Nat) (item : Nat) (w : World) (e : Abort)
    (herr : (process_rela h cls bias d versions item w).1 = .error e) :
    e = .thrown "relocation value not found, FAILED\n" := by
  have hr := resolve_value_error h cls
    (cls.read_cstr w.mem (sym_name_addr cls w.mem bias d (cls.read_rela w.mem item).r_info))
    (version_name cls w.mem bias d versions (cls.read_rela w.mem item).r_info)
    (cls.read_sym w.mem (sym_addr cls bias d (cls.read_rela w.mem item).r_info)).st_info w
  unfold process_rela at herr
  dsimp only at herr
  rcases hv : resolve_value h cls
    (cls.read_cstr w.mem (sym_name_addr cls w.mem bias d (cls.read_rela w.mem item).r_info))
    (version_name cls w.mem bias d versions (cls.read_rela w.mem item).r_info)
    (cls.read_sym w.mem (sym_addr cls bias d (cls.read_rela w.mem item).r_info)).st_info w
    with ⟨r, w1⟩
  rw [hv] at herr hr
  cases r with
  | error e1 =>
    simp only [Except.error.injEq] at herr
    exact hr e (by rw [herr])
  | ok v => simp at herr

theorem process_rel_error (h : Host) (cls : ElfClass) (bias : Nat) (d : DynInfo)
    (versions : Nat → Nat) (item : Nat) (w : World) (e : Abort)
    (herr : (process_rel h cls bias d versions item w).1 = .error e) :
    e = .thrown "relocation value not found, FAILED\n" := by
  have hr := resolve_value_error h cls
    (cls.read_cstr w.mem (sym_name_addr cls w.mem bias d (cls.read_rel w.mem item).r_info))
    (version_name cls w.mem bias d versions (cls.read_rel w.mem item).r_info)
    (cls.read_sym w.mem (sym_addr cls bias d (cls.read_rel w.mem item).r_info)).st_info w
  unfold process_rel at herr
  dsimp only at herr
  rcases hv : resolve_value h cls
    (cls.read_cstr w.mem (sym_name_addr cls w.mem bias d (cls.read_rel w.mem item).r_info))
    (version_name cls w.mem bias d versions (cls.read_rel w.mem item).r_info)
    (cls.read_sym w.mem (sym_addr cls bias d (cls.read_rel w.mem item).r_info)).st_info w
    with ⟨r, w1⟩
  rw [hv] at herr hr
  cases r with
  | error e1 =>
    simp only [Except.error.injEq] at herr
    exact hr e (by rw [herr])
  | ok v => simp at herr

theorem close_handle_error (h : Host) (x : Nat) (w : World) (e : Abort)
    (herr : (close_handle h x w).1 = .error e) : e = .thrown "error when dlclose()" := by
  unfold close_handle at herr
  split at herr
  · simp at herr
  · simp only [Except.error.injEq] at herr; exact herr.symm

/-! ### The queue assembly inside `link` -/

theorem walked_flag (cls : ElfClass) (elf : ElfFile) (i n tag : Nat) (htag : tag ∈ flagged_tags) :
    flag_of tag (walked cls elf i n) = true ↔ has_tag cls elf i n tag := by
  unfold walked has_tag
  rw [scan_table_flag elf tag htag, flag_of_default]
  simp

theorem entry_count_bad (a b : Nat) :
    entry_count a b ≠ .error (.thrown "weird plt relocations type") := by
  unfold entry_count
  split <;> simp

/-- The assembly throws for the PLT type exactly when no division before the check is by
zero, `plt` is set and the type is neither `DT_RELA` nor `DT_REL`. -/
theorem assemble_bad_plt_iff (bias : Nat) (d : DynInfo) :
    assemble bias d = .error (.thrown "weird plt relocations type")
      ↔ (d.rela = true → d.rela_entry_size ≠ 0) ∧ (d.rel = true → d.rel_entry_size ≠ 0)
        ∧ d.plt = true ∧ d.plt_reloc_type ≠ DT_RELA ∧ d.plt_reloc_type ≠ DT_REL := by
  have hne : DT_REL ≠ DT_RELA := by decide
  unfold assemble entry_count
  cases hrela : d.rela <;> cases hrel : d.rel <;> cases hplt : d.plt <;>
    by_cases h1 : d.rela_entry_size = 0 <;> by_cases h2 : d.rel_entry_size = 0 <;>
    by_cases h3 : d.plt_reloc_type = DT_RELA <;> by_cases h4 : d.plt_reloc_type = DT_REL <;>
    simp [hrela, hrel, hplt, h1, h2, h3, h4, hne, hne.symm, bind, Except.bind, Except.map, pure, Except.pure]

/-- The linking steps throw for the PLT type exactly when they reach the assembly and
the assembly throws; the world is then the one the opening loop left. -/
theorem link_bad_plt_iff (h : Host) (cls : ElfClass) (bias : Nat) (d : DynInfo) (w : World) :
    (link h cls bias d w).1 = .error (.thrown "weird plt relocations type")
      ↔ d.strtab = true ∧ d.symtab = true
        ∧ (for_each (open_needed h (search_prefixes h d)) d.needed_files (w, [])).1 = .ok ()
        ∧ assemble bias d = .error (.thrown "weird plt relocations type") := by
  unfold link
  cases hs : d.strtab
  · simp
  cases hy : d.symtab
  · simp
  simp only [Bool.not_true, Bool.false_eq_true, if_false, true_and]
  have hopen := for_each_error (open_needed h (search_prefixes h d)) d.needed_files (w, [])
  rcases ho : for_each (open_needed h (search_prefixes h d)) d.needed_files (w, []) with ⟨r, s⟩
  rw [ho] at hopen
  cases r with
  | error e =>
    simp only [false_and, iff_false, reduceCtorEq]
    intro hbad
    obtain ⟨x, -, s1, hx⟩ := hopen _ hbad
    have := open_needed_error h _ x s1 _ hx
    simp at this
  | ok u =>
    simp only [true_and]
    rcases ha : assemble bias d with e | ⟨relas, rels⟩
    · simp
    · simp only [reduceCtorEq, iff_false]
      have hrela := for_each_error
        (process_rela h cls bias d (build_versions cls s.1.mem bias d)) relas s.1
      rcases h1 : for_each (process_rela h cls bias d (build_versions cls s.1.mem bias d))
        relas s.1 with ⟨r1, w2⟩
      rw [h1] at hrela
      cases r1 with
      | error e =>
        intro hbad
        obtain ⟨x, -, s1, hx⟩ := hrela _ hbad
        have := process_rela_error h cls bias d _ x s1 _ hx
        simp at this
      | ok u1 =>
        dsimp only
        have hrel := for_each_error
          (process_rel h cls bias d (build_versions cls s.1.mem bias d)) rels w2
        rcases h2 : for_each (process_rel h cls bias d (build_versions cls s.1.mem bias d))
          rels w2 with ⟨r2, w3⟩
        rw [h2] at hrel
        cases r2 with
        | error e =>
          intro hbad
          obtain ⟨x, -, s1, hx⟩ := hrel _ hbad
          have := process_rel_error h cls bias d _ x s1 _ hx
          simp at this
        | ok u2 =>
          intro hbad
          obtain ⟨x, -, s1, hx⟩ := for_each_error (close_handle h) s.2 w3 _ hbad
          have := close_handle_error h x s1 _ hx
          simp at this

/-- When the linking steps throw for the PLT type, only `dlopen` has been called. -/
theorem link_bad_plt_adds (h : Host) (cls : ElfClass) (bias : Nat) (d : DynInfo) (w : World)
    (hbad : (link h cls bias d w).1 = .error (.thrown "weird plt relocations type")) :
    adds (fun e => is_dlopen_event e = true) w (link h cls bias d w).2 := by
  obtain ⟨hs, hy, hopen, hasm⟩ := (link_bad_plt_iff h cls bias d w).mp hbad
  have hadds := open_loop_adds h (search_prefixes h d) d.needed_files (w, [])
  unfold link
  simp only [hs, hy, Bool.not_true, Bool.false_eq_true, if_false]
  rcases ho : for_each (open_needed h (search_prefixes h d)) d.needed_files (w, []) with ⟨r, s⟩
  rw [ho] at hopen hadds
  cases r with
  | error e => simp at hopen
  | ok u =>
    simp only [hasm]
    exact hadds

/-! ### The work queue -/

theorem entries_eq_table_items (bias table entry_size table_size : Nat) :
    entries bias table entry_size (table_size / entry_size)
      = table_items bias table entry_size table_size := by
  unfold entries table_items
  apply List.map_congr_left
  intro i _
  unfold size_add size_mul
  rw [Nat.add_mod_mod, Nat.mod_add_mod]

/-- A successful assembly yields the four groups in the order of `work_queue`. -/
theorem assemble_ok_queue (bias : Nat) (d : DynInfo) (relas rels : List Nat)
    (hq : assemble bias d = .ok (relas, rels)) :
    relas.map WorkItem.rela ++ rels.map WorkItem.rel = work_queue bias d := by
  have hne : DT_REL ≠ DT_RELA := by decide
  have hent := entries_eq_table_items bias
  unfold assemble entry_count at hq
  unfold work_queue
  cases hrela : d.rela <;> cases hrel : d.rel <;> cases hplt : d.plt <;>
    by_cases h1 : d.rela_entry_size = 0 <;> by_cases h2 : d.rel_entry_size = 0 <;>
    by_cases h3 : d.plt_reloc_type = DT_RELA <;> by_cases h4 : d.plt_reloc_type = DT_REL <;>
    simp [hrela, hrel, hplt, h1, h2, h3, h4, hne, hne.symm, bind, Except.bind, Except.map,
      pure, Except.pure, hent] at hq ⊢ <;>
    (obtain ⟨hq1, hq2⟩ := hq; subst hq1 hq2; simp [hent, table_items])

theorem for_each_rela_items (h : Host) (cls : ElfClass) (bias : Nat) (d : DynInfo)
    (versions : Nat → Nat) (l : List Nat) :
    ∀ w, for_each (process_item h cls bias d versions) (l.map WorkItem.rela) w
      = for_each (process_rela h cls bias d versions) l w := by
  induction l with
  | nil => intro w; rfl
  | cons x rest ih =>
    intro w
    simp only [List.map_cons, for_each, process_item]
    rcases process_rela h cls bias d versions x w with ⟨r, w1⟩
    cases r with
    | error e => rfl
    | ok u => exact ih w1

theorem for_each_rel_items (h : Host) (cls : ElfClass) (bias : Nat) (d : DynInfo)
    (versions : Nat → Nat) (l : List Nat) :
    ∀ w, for_each (process_item h cls bias d versions) (l.map WorkItem.rel) w
      = for_each (process_rel h cls bias d versions) l w := by
  induction l with
  | nil => intro w; rfl
  | cons x rest ih =>
    intro w
    simp only [List.map_cons, for_each, process_item]
    rcases process_rel h cls bias d versions x w with ⟨r, w1⟩
    cases r with
    | error e => rfl
    | ok u => exact ih w1

/-! ### Strategy calls -/

theorem lookup_event_not_strategy (cls : ElfClass) (sym_name : String) (vname : Nat) (w : World) :
    is_strategy_event (lookup_event cls sym_name vname w) = false := by
  unfold lookup_event
  split <;> rfl

/-- The value resolution calls the host linker at most, never the strategy. -/
theorem resolve_value_adds (h : Host) (cls : ElfClass) (sym_name : String)
    (vname st_info : Nat) (w : World) :
    adds (fun e => is_strategy_event e = false) w
      (resolve_value h cls sym_name vname st_info w).2 := by
  have hl := lookup_event_not_strategy cls sym_name vname w
  unfold resolve_value
  split
  · split
    · exact adds_of_log _ hl rfl
    · split
      · exact adds_of_log _ hl rfl
      · exact adds_of_log _ hl rfl
  · exact adds_refl _ _

theorem sym_addr_eq (cls : ElfClass) (bias : Nat) (d : DynInfo) (r_info : Nat) :
    sym_addr cls bias d r_info
      = (bias + d.dynamic_symtab + d.dynamic_symtab_entry_size * cls.ELF_R_SYM r_info)
          % SIZE_MOD := by
  unfold sym_addr size_add size_mul
  rw [Nat.add_mod_mod, Nat.mod_add_mod]

theorem reloc_offset_eq (cls : ElfClass) (bias r_offset : Nat)
    (hno : bias + r_offset < cls.addr_mod) :
    reloc_offset cls bias r_offset = bias + r_offset := by
  unfold reloc_offset
  rw [Nat.mod_eq_of_lt (by omega : bias < cls.addr_mod), Nat.mod_eq_of_lt hno]

/-! ### Calls of the mapping loop -/

theorem map_loop_log (h : Host) (elf : ElfFile) (bias : Nat) (l : List Nat) :
    ∀ s s', for_each (map_step h elf bias) l s = (.ok (), s') →
      s'.1.log = s.1.log ++ loop_calls elf bias l := by
  induction l with
  | nil =>
    intro s s' hok
    simp only [for_each, Prod.mk.injEq, true_and] at hok
    rw [← hok]
    simp [loop_calls]
  | cons i rest ih =>
    intro s s' hok
    obtain ⟨s1, h1, h2⟩ := for_each_cons_ok _ i rest s s' hok
    rw [ih s1 s' h2, show loop_calls elf bias (i :: rest)
      = segment_calls elf bias i ++ loop_calls elf bias rest from rfl]
    unfold segment_calls
    by_cases hty : (segment_at elf i).p_type = PT_LOAD
    · rw [(map_step_ok h elf bias i s s1 hty h1).2.2.2, if_pos hty, List.append_assoc]
    · rw [map_step_not_load h elf bias i s hty] at h1
      simp only [Prod.mk.injEq, true_and] at h1
      rw [← h1, if_neg hty, List.nil_append]

theorem reserve_ok_calls (h : Host) (elf : ElfFile) (b : Nat) (w w1 : World)
    (hok : reserve h elf (plan elf).1 (size_sub (plan elf).2 (plan elf).1) w = (.ok b, w1)) :
    w1.log = w.log ++ reserve_calls elf b := by
  unfold reserve_calls
  by_cases hty : elf.header.e_type = ET_EXEC
  · rw [if_pos hty]
    exact (reserve_ok_exec h elf _ _ b w w1 hty hok).2
  · rw [if_neg hty]
    exact (reserve_ok_dyn h elf _ _ b w w1 hty hok).2

/-- The calls of a successful load: the reservation, then the loop over the headers. -/
theorem load_segments_elf_log (h : Host) (elf : ElfFile) (w w' : World) (bias lma : Nat)
    (hload : load_segments_elf h elf w = (.ok (bias, lma), w')) :
    w'.log = w.log ++ reserve_calls elf bias
      ++ loop_calls elf bias (List.range (size_t elf.header.e_phnum)) := by
  obtain ⟨-, w1, hres, hloop⟩ := load_segments_elf_ok h elf w w' bias lma hload
  have h2 := map_loop_log h elf bias _ (w1, SIZE_MAX) (w', lma) hloop
  rw [h2, reserve_ok_calls h elf bias w w1 hres]

/-- Without overflow the address and length of a mapping are the spec's `aligned_start`
and `aligned_len`. -/
theorem adjusted_eq_aligned (bias : Nat) (seg : Segment) (hal : 0 < seg.p_align)
    (hno : bias + seg.p_vaddr + seg.p_memsz + seg.p_align < SIZE_MOD) :
    adjusted_load_addr (raw_load_addr bias seg) seg = aligned_start_at bias seg
    ∧ ((adjusted_mapping_len (raw_load_addr bias seg) seg : Nat) : Int)
        = aligned_len_at bias seg := by
  have hb : size_t bias = bias := by
    unfold size_t; rw [size_mod_eq] at *; omega
  have hv : size_t seg.p_vaddr = seg.p_vaddr := by
    unfold size_t; rw [size_mod_eq] at *; omega
  have hm : size_t seg.p_memsz = seg.p_memsz := by
    unfold size_t; rw [size_mod_eq] at *; omega
  have ha : size_t seg.p_align = seg.p_align := by
    unfold size_t; rw [size_mod_eq] at *; omega
  have hraw : raw_load_addr bias seg = bias + seg.p_vaddr := by
    unfold raw_load_addr size_add; rw [hb, hv, size_mod_eq] at *; omega
  unfold adjusted_mapping_len adjusted_load_addr aligned_len_at aligned_start_at
    ROUND_DOWN ROUND_UP round_down
  rw [hraw, hm, ha]
  have hd : (bias + seg.p_vaddr) % seg.p_align < seg.p_align := Nat.mod_lt _ hal
  have hdm := Nat.div_add_mod (bias + seg.p_vaddr) seg.p_align
  rw [Nat.mul_comm] at hdm
  generalize (bias + seg.p_vaddr) % seg.p_align = d at hd hdm
  generalize (bias + seg.p_vaddr) / seg.p_align * seg.p_align = lo at hdm
  have h1 : size_sub (bias + seg.p_vaddr) d = lo := by
    unfold size_sub; rw [size_mod_eq] at *; omega
  have h2 : size_sub (bias + seg.p_vaddr) lo = d := by
    unfold size_sub; rw [size_mod_eq] at *; omega
  have h4 : size_add seg.p_memsz d = seg.p_memsz + d := by
    unfold size_add; rw [size_mod_eq] at *; omega
  have h5 : size_sub seg.p_align 1 = seg.p_align - 1 := by
    unfold size_sub; rw [size_mod_eq] at *; omega
  have h6 : size_add (seg.p_memsz + d) (seg.p_align - 1) = seg.p_memsz + d + seg.p_align - 1 := by
    unfold size_add; rw [size_mod_eq] at *; omega
  rw [h1, h2, h4, h5, h6]
  refine ⟨rfl, ?_⟩
  have hq : (seg.p_memsz + d + seg.p_align - 1) / seg.p_align * seg.p_align
      ≤ seg.p_memsz + d + seg.p_align - 1 := Nat.div_mul_le_self _ _
  have hmul : size_mul ((seg.p_memsz + d + seg.p_align - 1) / seg.p_align) seg.p_align
      = (seg.p_memsz + d + seg.p_align - 1) / seg.p_align * seg.p_align := by
    unfold size_mul
    generalize (seg.p_memsz + d + seg.p_align - 1) / seg.p_align * seg.p_align = t at hq ⊢
    rw [size_mod_eq] at *
    omega
  rw [hmul]
  have hinner : (seg.p_memsz : Int) + ((seg.p_vaddr : Int) - ((lo : Int) - (bias : Int)))
      + (seg.p_align : Int) - 1 = ((seg.p_memsz + d + seg.p_align - 1 : Nat) : Int) := by
    omega
  rw [hinner, Nat.cast_mul, Int.natCast_div]

/-! ### The required tables and the divisions of the assembly -/

theorem link_missing_strtab (h : Host) (cls : ElfClass) (bias : Nat) (d : DynInfo) (w : World)
    (hs : d.strtab = false) :
    link h cls bias d w = (.error (.thrown "no dynamic strtab"), w) := by
  unfold link
  simp [hs]

theorem link_missing_symtab (h : Host) (cls : ElfClass) (bias : Nat) (d : DynInfo) (w : World)
    (hs : d.strtab = true) (hy : d.symtab = false) :
    link h cls bias d w = (.error (.thrown "no dynamic symbol table"), w) := by
  unfold link
  simp [hs, hy]

theorem walked_value_absent (cls : ElfClass) (elf : ElfFile) (i n tag : Nat)
    (htag : tag ∈ value_tags) (habsent : ¬ has_tag cls elf i n tag) :
    value_of tag (walked cls elf i n) = 0 := by
  unfold walked
  unfold has_tag at habsent
  rw [scan_table_value elf tag htag, value_of_default]
  have hnil : (dyn_table cls elf (segment_at elf i) n).filter (fun e => decide (e.d_tag = tag))
      = [] := by
    rw [List.filter_eq_nil_iff]
    intro e he hdec
    exact habsent ⟨e, he, of_decide_eq_true hdec⟩
  rw [hnil]
  rfl

/-- The assembly divides by zero exactly when an entry size it divides by is zero. -/
theorem assemble_division_iff (bias : Nat) (d : DynInfo) :
    assemble bias d = .error (.undefined "division by zero")
      ↔ ((d.rela = true ∨ (d.plt = true ∧ d.plt_reloc_type = DT_RELA)) ∧ d.rela_entry_size = 0)
        ∨ ((d.rel = true ∨ (d.plt = true ∧ d.plt_reloc_type = DT_REL)) ∧ d.rel_entry_size = 0) := by
  have hne : DT_REL ≠ DT_RELA := by decide
  unfold assemble entry_count
  cases hrela : d.rela <;> cases hrel : d.rel <;> cases hplt : d.plt <;>
    by_cases h1 : d.rela_entry_size = 0 <;> by_cases h2 : d.rel_entry_size = 0 <;>
    by_cases h3 : d.plt_reloc_type = DT_RELA <;> by_cases h4 : d.plt_reloc_type = DT_REL <;>
    simp [hrela, hrel, hplt, h1, h2, h3, h4, hne, hne.symm, bind, Except.bind, Except.map,
      pure, Except.pure]

/-- The assembly returns the queues, throws for the PLT type, or divides by zero. -/
theorem assemble_outcomes (bias : Nat) (d : DynInfo) :
    (∃ q, assemble bias d = .ok q)
      ∨ assemble bias d = .error (.thrown "weird plt relocations type")
      ∨ assemble bias d = .error (.undefined "division by zero") := by
  have hne : DT_REL ≠ DT_RELA := by decide
  unfold assemble entry_count
  cases hrela : d.rela <;> cases hrel : d.rel <;> cases hplt : d.plt <;>
    by_cases h1 : d.rela_entry_size = 0 <;> by_cases h2 : d.rel_entry_size = 0 <;>
    by_cases h3 : d.plt_reloc_type = DT_RELA <;> by_cases h4 : d.plt_reloc_type = DT_REL <;>
    simp [hrela, hrel, hplt, h1, h2, h3, h4, hne, hne.symm, bind, Except.bind, Except.map,
      pure, Except.pure]

/-! ### A mapping and the bytes stored for its segment -/

/-- Without overflow the mapping of a segment starts at or below the segment and ends at
or above its end. -/
theorem adjusted_bounds (bias : Nat) (seg : Segment) (hal : 0 < seg.p_align)
    (hno : bias + seg.p_vaddr + seg.p_memsz + seg.p_align < SIZE_MOD) :
    raw_load_addr bias seg = bias + seg.p_vaddr
    ∧ adjusted_load_addr (raw_load_addr bias seg) seg ≤ bias + seg.p_vaddr
    ∧ bias + seg.p_vaddr + seg.p_memsz
        ≤ adjusted_load_addr (raw_load_addr bias seg) seg
          + adjusted_mapping_len (raw_load_addr bias seg) seg
    ∧ adjusted_load_addr (raw_load_addr bias seg) seg
          + adjusted_mapping_len (raw_load_addr bias seg) seg < SIZE_MOD := by
  have hb : size_t bias = bias := by
    unfold size_t; rw [size_mod_eq] at *; omega
  have hv : size_t seg.p_vaddr = seg.p_vaddr := by
    unfold size_t; rw [size_mod_eq] at *; omega
  have hm : size_t seg.p_memsz = seg.p_memsz := by
    unfold size_t; rw [size_mod_eq] at *; omega
  have ha : size_t seg.p_align = seg.p_align := by
    unfold size_t; rw [size_mod_eq] at *; omega
  have hraw : raw_load_addr bias seg = bias + seg.p_vaddr := by
    unfold raw_load_addr size_add; rw [hb, hv, size_mod_eq] at *; omega
  refine ⟨hraw, ?_⟩
  unfold adjusted_mapping_len adjusted_load_addr ROUND_DOWN ROUND_UP
  rw [hraw, hm, ha]
  have hd : (bias + seg.p_vaddr) % seg.p_align < seg.p_align := Nat.mod_lt _ hal
  have hdle : (bias + seg.p_vaddr) % seg.p_align ≤ bias + seg.p_vaddr := Nat.mod_le _ _
  generalize (bias + seg.p_vaddr) % seg.p_align = d at hd hdle
  have h1 : size_sub (bias + seg.p_vaddr) d = bias + seg.p_vaddr - d := by
    unfold size_sub; rw [size_mod_eq] at *; omega
  have h2 : size_sub (bias + seg.p_vaddr) (bias + seg.p_vaddr - d) = d := by
    unfold size_sub; rw [size_mod_eq] at *; omega
  have h4 : size_add seg.p_memsz d = seg.p_memsz + d := by
    unfold size_add; rw [size_mod_eq] at *; omega
  have h5 : size_sub seg.p_align 1 = seg.p_align - 1 := by
    unfold size_sub; rw [size_mod_eq] at *; omega
  have h6 : size_add (seg.p_memsz + d) (seg.p_align - 1) = seg.p_memsz + d + seg.p_align - 1 := by
    unfold size_add; rw [size_mod_eq] at *; omega
  rw [h1, h2, h4, h5, h6]
  have hq : (seg.p_memsz + d + seg.p_align - 1) / seg.p_align * seg.p_align
      ≤ seg.p_memsz + d + seg.p_align - 1 := Nat.div_mul_le_self _ _
  have hq2 : seg.p_memsz + d + seg.p_align - 1
      < (seg.p_memsz + d + seg.p_align - 1) / seg.p_align * seg.p_align + seg.p_align :=
    Nat.lt_div_mul_add hal
  unfold size_mul
  generalize (seg.p_memsz + d + seg.p_align - 1) / seg.p_align * seg.p_align = t at hq hq2 ⊢
  rw [size_mod_eq] at *
  omega

/-- Without overflow, and with a file size within the memory size, a byte stored for a
segment lies between the start and the end of the segment. -/
theorem writes_range (bias : Nat) (seg : Segment) (a : Nat)
    (hfm : seg.p_filesz ≤ seg.p_memsz)
    (hno : bias + seg.p_vaddr + seg.p_memsz < SIZE_MOD) (ha : a < SIZE_MOD)
    (hw : writes bias seg a) :
    bias + seg.p_vaddr ≤ a ∧ a < bias + seg.p_vaddr + seg.p_memsz := by
  unfold writes in_range raw_load_addr size_sub size_add size_t at hw
  rw [size_mod_eq] at *
  omega

/-! ### The version map -/

theorem vernaux_loop_other (cls : ElfClass) (mem : Nat → Nat) (bias strtab ver aux v : Nat) :
    ∀ (n vernaux_sum : Nat) (versions : Nat → Nat),
      v ∉ vernaux_keys cls mem ver aux n vernaux_sum →
      vernaux_loop cls mem bias strtab ver aux n vernaux_sum versions v = versions v := by
  intro n
  induction n with
  | zero => intro _ versions _; rfl
  | succ n ih =>
    intro vernaux_sum versions hkey
    unfold vernaux_keys at hkey
    rw [List.mem_cons, not_or] at hkey
    unfold vernaux_loop
    dsimp only
    rw [ih _ _ hkey.2]
    unfold versions_set
    rw [if_neg hkey.1]

theorem verneed_loop_other (cls : ElfClass) (mem : Nat → Nat) (bias : Nat) (d : DynInfo)
    (v : Nat) :
    ∀ (n ver_sum : Nat) (versions : Nat → Nat),
      v ∉ verneed_keys cls mem bias d n ver_sum →
      verneed_loop cls mem bias d n ver_sum versions v = versions v := by
  intro n
  induction n with
  | zero => intro _ versions _; rfl
  | succ n ih =>
    intro ver_sum versions hkey
    unfold verneed_keys at hkey
    rw [List.mem_append, not_or] at hkey
    unfold verneed_loop
    dsimp only
    rw [ih _ _ hkey.2]
    exact vernaux_loop_other cls mem bias _ _ _ v _ _ versions hkey.1

/-- The version map holds no name (`nullptr`) for a value that is not a key of it. -/
theorem build_versions_other (cls : ElfClass) (mem : Nat → Nat) (bias : Nat) (d : DynInfo)
    (v : Nat) (hkey : v ∉ version_keys cls mem bias d) :
    build_versions cls mem bias d v = 0 := by
  unfold version_keys at hkey
  unfold build_versions
  cases hver : d.ver
  · simp
  · rw [hver] at hkey
    simp only [if_true] at hkey ⊢
    exact verneed_loop_other cls mem bias d v _ _ _ hkey

/-! ### Serialised obfuscation lists -/

theorem to_int_of_range (x : Int) (h0 : 0 ≤ x) (h1 : x ≤ INT_MAX) : to_int x = x := by
  unfold to_int
  unfold INT_MAX at h1
  omega

theorem append_all_ok (c : DataCodec) (list : List obfuscation) :
    ∀ res, (∀ obf ∈ list, 1 + (c.encode_data obf.data).length ≤ BUFF_LEN) →
      append_all c list res = .ok (res ++ serial c list) := by
  induction list with
  | nil => intro res _; simp [append_all, serial]
  | cons obf rest ih =>
    intro res hfit
    unfold append_all convert_to_data
    rw [if_pos (hfit obf (List.mem_cons_self _ _))]
    dsimp only
    rw [ih _ (fun o ho => hfit o (List.mem_cons_of_mem _ ho))]
    simp [serial, item_bytes]

/-- When every item and the terminator fit the buffer, the serialisation is the bytes
of `list_bytes`. -/
theorem convert_to_data_list_ok (c : DataCodec) (list : List obfuscation)
    (hfit : ∀ obf ∈ list, 1 + (c.encode_data obf.data).length ≤ BUFF_LEN)
    (hterm : 1 + (c.encode_data none_data).length ≤ BUFF_LEN) :
    convert_to_data_list c list = .ok (list_bytes c list) := by
  unfold convert_to_data_list
  rw [append_all_ok c list [] hfit]
  unfold convert_to_data
  dsimp only
  rw [if_pos hterm]
  rfl

theorem item_bytes_length (c : DataCodec) (obf : obfuscation) :
    (item_bytes c obf).length = 1 + (c.encode_data obf.data).length := by
  unfold item_bytes
  rw [List.length_cons, Nat.add_comm]

/-- Parsing one serialised item gives the item back and its number of bytes. -/
theorem convert_to_obfuscation_item (c : DataCodec)
    (hinv : ∀ data rest, c.decode_data (c.encode_data data ++ rest)
      = (data, ((c.encode_data data).length : Int)))
    (obf : obfuscation) (rest : List uint8_t)
    (hfit : 1 + (c.encode_data obf.data).length ≤ BUFF_LEN) :
    convert_to_obfuscation c (item_bytes c obf ++ rest)
      = .ok (obf, ((item_bytes c obf).length : Int)) := by
  unfold convert_to_obfuscation item_bytes
  simp only [List.cons_append, hinv]
  have hint : to_int (1 + ((c.encode_data obf.data).length : Int))
      = ((c.encode_data obf.data).length : Int) + 1 := by
    rw [to_int_of_range _ (by omega) (by unfold INT_MAX; unfold BUFF_LEN at hfit; omega)]
    omega
  rw [hint]
  simp

/-- The loop on the bytes of a serialised list, started at the first item. -/
theorem parse_loop_serial (c : DataCodec)
    (hinv : ∀ data rest, c.decode_data (c.encode_data data ++ rest)
      = (data, ((c.encode_data data).length : Int)))
    (hterm : 1 + (c.encode_data none_data).length ≤ BUFF_LEN) (tail : List uint8_t)
    (list : List obfuscation) :
    ∀ (pre : List uint8_t) (init : List obfuscation) (fuel : Nat),
      (∀ obf ∈ list, 1 + (c.encode_data obf.data).length ≤ BUFF_LEN) →
      (∀ obf ∈ list, obf.type ≠ NONE) → list.length < fuel →
      parse_loop c (pre ++ (list_bytes c list ++ tail)) fuel (pre.length : Int) init
        = .ok (init ++ list, ((pre.length + (list_bytes c list).length : Nat) : Int)) := by
  induction list with
  | nil =>
    intro pre init fuel _ _ hfuel
    obtain ⟨f, rfl⟩ : ∃ f, fuel = f + 1 := ⟨fuel - 1, by simp at hfuel; omega⟩
    unfold parse_loop
    rw [if_neg (by omega), Int.toNat_ofNat, List.drop_left]
    simp only [list_bytes, serial, List.nil_append]
    rw [convert_to_obfuscation_item c hinv _ tail hterm]
    simp [NONE]
  | cons obf rest ih =>
    intro pre init fuel hfit hnone hfuel
    obtain ⟨f, rfl⟩ : ∃ f, fuel = f + 1 := ⟨fuel - 1, by simp at hfuel; omega⟩
    have hsrc : pre ++ (list_bytes c (obf :: rest) ++ tail)
        = (pre ++ item_bytes c obf) ++ (list_bytes c rest ++ tail) := by
      simp [list_bytes, serial, List.append_assoc]
    have hlen : (list_bytes c (obf :: rest)).length
        = (item_bytes c obf).length + (list_bytes c rest).length := by
      simp [list_bytes, serial, List.append_assoc]
    unfold parse_loop
    rw [if_neg (by omega), Int.toNat_ofNat]
    have hdrop : (pre ++ (list_bytes c (obf :: rest) ++ tail)).drop pre.length
        = item_bytes c obf ++ (list_bytes c rest ++ tail) := by
      rw [List.drop_left]
      simp [list_bytes, serial, List.append_assoc]
    rw [hdrop, convert_to_obfuscation_item c hinv obf _ (hfit obf (List.mem_cons_self _ _))]
    simp only [if_neg (hnone obf (List.mem_cons_self _ _))]
    have hoff : (pre.length : Int) + ((item_bytes c obf).length : Int)
        = ((pre ++ item_bytes c obf).length : Int) := by
      rw [List.length_append]; push_cast; rfl
    rw [hoff, hsrc, ih (pre ++ item_bytes c obf) (init ++ [obf]) f
      (fun o ho => hfit o (List.mem_cons_of_mem _ ho))
      (fun o ho => hnone o (List.mem_cons_of_mem _ ho)) (by simp at hfuel; omega)]
    rw [hlen, List.length_append, List.append_assoc]
    simp [Nat.add_assoc]

/-- Parsing the bytes of a serialised list appends its items and returns the number of
bytes converted to `int`. -/
theorem convert_to_obfuscations_serial (c : DataCodec)
    (hinv : ∀ data rest, c.decode_data (c.encode_data data ++ rest)
      = (data, ((c.encode_data data).length : Int)))
    (list init : List obfuscation) (tail : List uint8_t) (fuel : Nat)
    (hfit : ∀ obf ∈ list, 1 + (c.encode_data obf.data).length ≤ BUFF_LEN)
    (hterm : 1 + (c.encode_data none_data).length ≤ BUFF_LEN)
    (hnone : ∀ obf ∈ list, obf.type ≠ NONE) (hfuel : list.length < fuel) :
    convert_to_obfuscations c fuel init (list_bytes c list ++ tail)
      = .ok (init ++ list, to_int ((list_bytes c list).length : Int)) := by
  have hloop := parse_loop_serial c hinv hterm tail list [] init fuel hfit hnone hfuel
  simp only [List.nil_append, List.length_nil, Nat.zero_add, Nat.cast_zero] at hloop
  unfold convert_to_obfuscations
  rw [hloop]

theorem pair_codec_inverts (data : udata) (rest : List uint8_t) :
    pair_codec.decode_data (pair_codec.encode_data data ++ rest)
      = (data, ((pair_codec.encode_data data).length : Int)) := by
  induction data with
  | nil =>
    cases rest with
    | nil => simp [pair_codec, pair_decode]
    | cons b r => simp [pair_codec, pair_decode]
  | cons x d ih =>
    simp only [pair_codec, List.map_cons, List.foldr_cons] at ih ⊢
    simp only [List.cons_append, List.nil_append, pair_decode, if_true, List.length_cons,
      List.append_eq]
    rw [ih]
    refine Prod.ext rfl ?_
    show ((List.foldr (fun x1 x2 => x1 ++ x2) [0] (List.map (fun b => [1, b]) d)).length : Int) + 2
      = ((_ + 1 + 1 : Nat) : Int)
    push_cast
    ring

theorem serial_replicate_length (c : DataCodec) (obf : obfuscation) (n : Nat) :
    (serial c (List.replicate n obf)).length = n * (item_bytes c obf).length := by
  induction n with
  | zero => simp [serial]
  | succ n ih =>
    rw [List.replicate_succ]
    unfold serial
    rw [List.length_append, ih]
    ring

/-! ### The mappings and the reserved window -/

/-- The value of `*load_min_addr` after a successful iteration on a `PT_LOAD` header. -/
theorem map_step_ok_min (h : Host) (elf : ElfFile) (bias i : Nat) (s s' : World × Nat)
    (hty : (segment_at elf i).p_type = PT_LOAD)
    (hok : map_step h elf bias i s = (.ok (), s')) :
    s'.2 = if s.2 = SIZE_MAX
        ∨ adjusted_load_addr (raw_load_addr bias (segment_at elf i)) (segment_at elf i) < s.2
      then adjusted_load_addr (raw_load_addr bias (segment_at elf i)) (segment_at elf i)
      else s.2 := by
  unfold map_step at hok
  simp only [hty, ne_eq, not_true_eq_false, if_false] at hok
  split at hok
  · simp at hok
  · split at hok
    · simp at hok
    · simp only [Prod.mk.injEq, true_and] at hok
      rw [← hok]

theorem adjusted_load_addr_le (raw : Nat) (seg : Segment) :
    adjusted_load_addr raw seg ≤ SIZE_MAX := by
  have h : adjusted_load_addr raw seg < SIZE_MOD := by
    unfold adjusted_load_addr ROUND_DOWN size_sub
    exact Nat.mod_lt _ (by norm_num [SIZE_MOD])
  unfold SIZE_MAX; rw [size_mod_eq] at h; omega

/-- What the mapping loop leaves in `*load_min_addr`: a lower bound of the starts of the
mappings it made, attained unless the value is the one it started from. -/
theorem map_loop_min (h : Host) (elf : ElfFile) (bias : Nat) (l : List Nat) :
    ∀ s s', for_each (map_step h elf bias) l s = (.ok (), s') →
      (∀ i ∈ l, (segment_at elf i).p_type = PT_LOAD →
        s'.2 ≤ adjusted_load_addr (raw_load_addr bias (segment_at elf i)) (segment_at elf i))
      ∧ (s'.2 = s.2 ∨ ∃ i ∈ l, (segment_at elf i).p_type = PT_LOAD
          ∧ s'.2 = adjusted_load_addr (raw_load_addr bias (segment_at elf i))
              (segment_at elf i))
      ∧ s'.2 ≤ s.2 := by
  induction l with
  | nil =>
    intro s s' hok
    simp only [for_each, Prod.mk.injEq, true_and] at hok
    rw [← hok]
    simp
  | cons x rest ih =>
    intro s s' hok
    obtain ⟨s1, h1, h2⟩ := for_each_cons_ok _ x rest s s' hok
    obtain ⟨a1, a2, a3⟩ := ih s1 s' h2
    by_cases hx : (segment_at elf x).p_type = PT_LOAD
    · have hmin := map_step_ok_min h elf bias x s s1 hx h1
      have hle := adjusted_load_addr_le (raw_load_addr bias (segment_at elf x)) (segment_at elf x)
      have hs1 : s1.2 ≤ s.2
          ∧ s1.2 ≤ adjusted_load_addr (raw_load_addr bias (segment_at elf x)) (segment_at elf x)
          ∧ (s1.2 = s.2 ∨ s1.2
              = adjusted_load_addr (raw_load_addr bias (segment_at elf x)) (segment_at elf x)) := by
        rw [hmin]
        split_ifs with hc
        · rcases hc with hc | hc <;> omega
        · push_neg at hc
          omega
      refine ⟨?_, ?_, by omega⟩
      · intro i hi hty
        rcases List.mem_cons.mp hi with h0 | h0
        · subst h0; omega
        · exact a1 i h0 hty
      · rcases a2 with h0 | ⟨i, hi, hty, h0⟩
        · rcases hs1.2.2 with h3 | h3
          · left; omega
          · right; exact ⟨x, List.mem_cons_self _ _, hx, by omega⟩
        · right; exact ⟨i, List.mem_cons_of_mem _ hi, hty, h0⟩
    · rw [map_step_not_load h elf bias x s hx] at h1
      simp only [Prod.mk.injEq, true_and] at h1
      rw [← h1] at a2 a3
      refine ⟨?_, ?_, a3⟩
      · intro i hi hty
        rcases List.mem_cons.mp hi with h0 | h0
        · subst h0; exact absurd hty hx
        · exact a1 i h0 hty
      · rcases a2 with h0 | ⟨i, hi, hty, h0⟩
        · left; exact h0
        · right; exact ⟨i, List.mem_cons_of_mem _ hi, hty, h0⟩

/-- With a bias that is a multiple of the alignment, and without overflow, the mapping
of a segment is the planned one moved by the bias. -/
theorem adjusted_shift (bias : Nat) (seg : Segment) (hal : 0 < seg.p_align)
    (hdvd : seg.p_align ∣ bias)
    (hno : bias + seg.p_vaddr + seg.p_memsz + seg.p_align < SIZE_MOD) :
    adjusted_load_addr (raw_load_addr bias seg) seg = bias + plan_lo seg
    ∧ adjusted_load_addr (raw_load_addr bias seg) seg
        + adjusted_mapping_len (raw_load_addr bias seg) seg = bias + plan_hi seg := by
  have hb : size_t bias = bias := by
    unfold size_t; rw [size_mod_eq] at *; omega
  have hv : size_t seg.p_vaddr = seg.p_vaddr := by
    unfold size_t; rw [size_mod_eq] at *; omega
  have hm : size_t seg.p_memsz = seg.p_memsz := by
    unfold size_t; rw [size_mod_eq] at *; omega
  have ha : size_t seg.p_align = seg.p_align := by
    unfold size_t; rw [size_mod_eq] at *; omega
  have hraw : raw_load_addr bias seg = bias + seg.p_vaddr := by
    unfold raw_load_addr size_add; rw [hb, hv, size_mod_eq] at *; omega
  have hmod : (bias + seg.p_vaddr) % seg.p_align = seg.p_vaddr % seg.p_align := by
    obtain ⟨k, hk⟩ := hdvd
    rw [hk, Nat.mul_add_mod]
  unfold plan_hi plan_lo adjusted_mapping_len adjusted_load_addr ROUND_DOWN ROUND_UP
  rw [hraw, hv, hm, ha, hmod]
  have hd : seg.p_vaddr % seg.p_align < seg.p_align := Nat.mod_lt _ hal
  have hdle : seg.p_vaddr % seg.p_align ≤ seg.p_vaddr := Nat.mod_le _ _
  generalize seg.p_vaddr % seg.p_align = d at hd hdle
  have h1 : size_sub (bias + seg.p_vaddr) d = bias + seg.p_vaddr - d := by
    unfold size_sub; rw [size_mod_eq] at *; omega
  have h1' : size_sub seg.p_vaddr d = seg.p_vaddr - d := by
    unfold size_sub; rw [size_mod_eq] at *; omega
  have h2 : size_sub (bias + seg.p_vaddr) (bias + seg.p_vaddr - d) = d := by
    unfold size_sub; rw [size_mod_eq] at *; omega
  have h2' : size_sub seg.p_vaddr (seg.p_vaddr - d) = d := by
    unfold size_sub; rw [size_mod_eq] at *; omega
  have h4 : size_add seg.p_memsz d = seg.p_memsz + d := by
    unfold size_add; rw [size_mod_eq] at *; omega
  have h5 : size_sub seg.p_align 1 = seg.p_align - 1 := by
    unfold size_sub; rw [size_mod_eq] at *; omega
  have h6 : size_add (seg.p_memsz + d) (seg.p_align - 1) = seg.p_memsz + d + seg.p_align - 1 := by
    unfold size_add; rw [size_mod_eq] at *; omega
  rw [h1, h1', h2, h2', h4, h5, h6]
  have hq : (seg.p_memsz + d + seg.p_align - 1) / seg.p_align * seg.p_align
      ≤ seg.p_memsz + d + seg.p_align - 1 := Nat.div_mul_le_self _ _
  unfold size_mul size_add
  generalize (seg.p_memsz + d + seg.p_align - 1) / seg.p_align * seg.p_align = t at hq ⊢
  rw [size_mod_eq] at *
  refine ⟨?_, ?_⟩ <;> omega

/-- For an image with a `PT_LOAD` header, a bias that is a multiple of every alignment
and no overflow: `*load_min_addr` is `bias + min` and every mapping lies in the window
of `range` bytes at `bias + min`. -/
theorem mappings_inside_window (h : Host) (elf : ElfFile) (w w' : World) (bias lma : Nat)
    (hload : load_segments_elf h elf w = (.ok (bias, lma), w'))
    (hex : ∃ i, i < size_t elf.header.e_phnum ∧ (segment_at elf i).p_type = PT_LOAD)
    (hwf : ∀ i, i < size_t elf.header.e_phnum → (segment_at elf i).p_type = PT_LOAD →
      0 < (segment_at elf i).p_align ∧ (segment_at elf i).p_align ∣ bias
      ∧ bias + (segment_at elf i).p_vaddr + (segment_at elf i).p_memsz
          + (segment_at elf i).p_align < SIZE_MOD) :
    lma = bias + (plan elf).1
    ∧ ∀ i, i < size_t elf.header.e_phnum → (segment_at elf i).p_type = PT_LOAD →
        bias + (plan elf).1
          ≤ adjusted_load_addr (raw_load_addr bias (segment_at elf i)) (segment_at elf i)
        ∧ adjusted_load_addr (raw_load_addr bias (segment_at elf i)) (segment_at elf i)
            + adjusted_mapping_len (raw_load_addr bias (segment_at elf i)) (segment_at elf i)
          ≤ bias + (plan elf).1 + size_sub (plan elf).2 (plan elf).1 := by
  obtain ⟨i0, hi0, hty0⟩ := hex
  obtain ⟨-, w1, -, hloop⟩ := load_segments_elf_ok h elf w w' bias lma hload
  obtain ⟨m1, m2, -⟩ := map_loop_min h elf bias _ (w1, SIZE_MAX) (w', lma) hloop
  obtain ⟨⟨-, b2⟩, b3, ⟨-, b5⟩, b6⟩ :=
    plan_fold elf (List.range (size_t elf.header.e_phnum)) (SIZE_MAX, 0)
  have hplan : plan elf
      = (List.range (size_t elf.header.e_phnum)).foldl (plan_step elf) (SIZE_MAX, 0) := rfl
  rw [← hplan] at b2 b3 b5 b6
  dsimp only at m1 m2 b3 b6
  have hshift := fun i hi hty =>
    adjusted_shift bias (segment_at elf i) (hwf i hi hty).1 (hwf i hi hty).2.1 (hwf i hi hty).2.2
  have hlo0 := plan_lo_le (segment_at elf i0)
  have hmax : (plan elf).2 < SIZE_MOD ∧ (plan elf).1 ≤ (plan elf).2 := by
    have hge := b5 i0 (List.mem_range.mpr hi0) hty0
    have hle := b2 i0 (List.mem_range.mpr hi0) hty0
    have hs0 := hshift i0 hi0 hty0
    have hb0 := adjusted_bounds bias (segment_at elf i0) (hwf i0 hi0 hty0).1
      (hwf i0 hi0 hty0).2.2
    rcases b6 with h0 | ⟨j, hj, htyj, h0⟩
    · omega
    · have hsj := hshift j (List.mem_range.mp hj) htyj
      have hbj := adjusted_bounds bias (segment_at elf j) (hwf j (List.mem_range.mp hj) htyj).1
        (hwf j (List.mem_range.mp hj) htyj).2.2
      omega
  have hsub : size_sub (plan elf).2 (plan elf).1 = (plan elf).2 - (plan elf).1 :=
    size_sub_of_le _ _ hmax.2 hmax.1
  refine ⟨?_, ?_⟩
  · -- the minimum kept by the loop is the planned minimum moved by the bias
    have hupper : ∀ j, j < size_t elf.header.e_phnum → (segment_at elf j).p_type = PT_LOAD →
        lma ≤ bias + plan_lo (segment_at elf j) := by
      intro j hj htyj
      rw [← (hshift j hj htyj).1]
      exact m1 j (List.mem_range.mpr hj) htyj
    have hlower : bias + (plan elf).1 ≤ lma := by
      rcases m2 with h0 | ⟨j, hj, htyj, h0⟩
      · have hp := b2 i0 (List.mem_range.mpr hi0) hty0
        have hs0 := (hshift i0 hi0 hty0).1
        have hb0 := (adjusted_bounds bias (segment_at elf i0) (hwf i0 hi0 hty0).1
          (hwf i0 hi0 hty0).2.2).2.1
        have hw0 := (hwf i0 hi0 hty0).2.2
        rw [h0]
        unfold SIZE_MAX
        rw [size_mod_eq] at hw0
        omega
      · rw [h0, (hshift j (List.mem_range.mp hj) htyj).1]
        have := b2 j hj htyj
        omega
    have hattain : lma ≤ bias + (plan elf).1 := by
      rcases b3 with h0 | ⟨j, hj, htyj, h0⟩
      · have := hupper i0 hi0 hty0
        have := b2 i0 (List.mem_range.mpr hi0) hty0
        omega
      · rw [h0]
        exact hupper j (List.mem_range.mp hj) htyj
    omega
  · intro i hi hty
    have hs := hshift i hi hty
    have h1 := b2 i (List.mem_range.mpr hi) hty
    have h2 := b5 i (List.mem_range.mpr hi) hty
    rw [hsub]
    omega

/-! ### Handles on the exits before the closing loop -/

/-- C1 (amended): after `load_segments_elf` succeeds, for a `PT_LOAD` header `i` and
`k < p_memsz`, if no later `PT_LOAD` header's mapping or stored bytes cover the
address `bias + p_vaddr + k`, the byte there is the file byte at `p_offset + k` when
`k < p_filesz` and 0 otherwise. -/
theorem segment_image_is_file_then_zeros (h : Host) (elf : ElfFile) (w w' : World)
    (bias load_min_addr : Nat)
    (hload : load_segments_elf h elf w = (.ok (bias, load_min_addr), w'))
    (i : Nat) (hi : i < size_t elf.header.e_phnum)
    (hty : (segment_at elf i).p_type = PT_LOAD)
    (k : Nat) (hk : k < size_t (segment_at elf i).p_memsz)
    (hlater : ∀ j, j < size_t elf.header.e_phnum → i < j →
      (segment_at elf j).p_type = PT_LOAD →
        ¬ covers bias (segment_at elf j) (size_add (raw_load_addr bias (segment_at elf i)) k)
        ∧ ¬ writes bias (segment_at elf j) (size_add (raw_load_addr bias (segment_at elf i)) k)) :
    w'.mem (size_add (raw_load_addr bias (segment_at elf i)) k)
      = if k < size_t (segment_at elf i).p_filesz
        then elf.file (size_t (segment_at elf i).p_offset + k) else 0 := by
  obtain ⟨-, w1, -, hloop⟩ := load_segments_elf_ok h elf w w' bias load_min_addr hload
  refine map_loop_keeps h elf bias i
    (fun t => t.mem (size_add (raw_load_addr bias (segment_at elf i)) k)
      = if k < size_t (segment_at elf i).p_filesz
        then elf.file (size_t (segment_at elf i).p_offset + k) else 0)
    (fun j => (segment_at elf j).p_type = PT_LOAD ∧
        ¬ (¬ covers bias (segment_at elf j) (size_add (raw_load_addr bias (segment_at elf i)) k)
        ∧ ¬ writes bias (segment_at elf j) (size_add (raw_load_addr bias (segment_at elf i)) k)))
    ?_ ?_ (List.range (size_t elf.header.e_phnum)) (List.pairwise_lt_range _)
    (List.mem_range.mpr hi) ?_ (w1, SIZE_MAX) (w', load_min_addr) hloop
  · intro s s1 hs
    obtain ⟨hmem, -, -, -⟩ := map_step_ok h elf bias i s s1 hty hs
    rw [hmem]
    exact write_segment_mem_self elf bias (segment_at elf i) _ k hk
  · intro j s s1 hfree hQ hs
    rw [map_step_mem_other h elf bias j s s1 _ hs ?_]
    · exact hQ
    · intro hj
      by_contra hcon
      exact hfree ⟨hj, hcon⟩
  · intro j hj hij hcon
    exact hcon.2 (hlater j (List.mem_range.mp hj) hij hcon.1)

/-- Witness for C1 (amended): byte 1 of the first segment of `pie_image`, whose later
`PT_LOAD` header maps other pages. -/
theorem segment_image_is_file_then_zeros_witness :
    load_segments_elf host_ok pie_image world0
      = (.ok (0x10000, 0x10000), (load_segments_elf host_ok pie_image world0).2)
    ∧ (load_segments_elf host_ok pie_image world0).2.mem
        (size_add (raw_load_addr 0x10000 (segment_at pie_image 0)) 1) = 2 :=
  ⟨Prod.ext (by decide) rfl,
   segment_image_is_file_then_zeros host_ok pie_image world0 _ 0x10000 0x10000
     (Prod.ext (by decide) rfl) 0 (by decide) (by decide) 1 (by decide) (by decide)⟩

/-- Counterexample to C1 as stated: in `overlap_image` the second `PT_LOAD` header is
mapped over the page of the first, so after a successful load the first byte of the
first segment is 0 although the file byte is 0x90. -/
theorem later_mapping_erases_segment_image :
    (load_segments_elf host_ok overlap_image world0).1 = .ok (0, 0x1000)
    ∧ (segment_at overlap_image 0).p_type = PT_LOAD
    ∧ 0 < (segment_at overlap_image 0).p_filesz
    ∧ (segment_at overlap_image 0).p_filesz ≤ (segment_at overlap_image 0).p_memsz
    ∧ overlap_image.file ((segment_at overlap_image 0).p_offset + 0) = 0x90
    ∧ (load_segments_elf host_ok overlap_image world0).2.mem
        (0 + (segment_at overlap_image 0).p_vaddr + 0) = 0
    ∧ (load_segments_elf host_ok overlap_image world0).2.mem
        (0 + (segment_at overlap_image 0).p_vaddr + 0)
        ≠ overlap_image.file ((segment_at overlap_image 0).p_offset + 0) := by
  decide

/-- C2 (amended): after `load_segments_elf` succeeds, for a `PT_LOAD` header `i` with
`p_align ≥ 1` whose aligned length does not overflow (`p_memsz + 2 * p_align ≤ 2^64`)
and `k < p_memsz`, if no later `PT_LOAD` header's mapping covers the address
`bias + p_vaddr + k`, the address is mapped and its final protection is exactly the
header's `p_flags` (so it is readable when `p_flags` contains `PF_R`). -/
theorem segment_final_protection (h : Host) (elf : ElfFile) (w w' : World)
    (bias load_min_addr : Nat)
    (hload : load_segments_elf h elf w = (.ok (bias, load_min_addr), w'))
    (i : Nat) (hi : i < size_t elf.header.e_phnum)
    (hty : (segment_at elf i).p_type = PT_LOAD)
    (halign : 0 < size_t (segment_at elf i).p_align)
    (hfit : size_t (segment_at elf i).p_memsz + 2 * size_t (segment_at elf i).p_align ≤ SIZE_MOD)
    (k : Nat) (hk : k < size_t (segment_at elf i).p_memsz)
    (hlater : ∀ j, j < size_t elf.header.e_phnum → i < j →
      (segment_at elf j).p_type = PT_LOAD →
        ¬ covers bias (segment_at elf j) (size_add (raw_load_addr bias (segment_at elf i)) k)) :
    w'.prot (size_add (raw_load_addr bias (segment_at elf i)) k)
      = some (segment_at elf i).p_flags := by
  obtain ⟨-, w1, -, hloop⟩ := load_segments_elf_ok h elf w w' bias load_min_addr hload
  refine map_loop_keeps h elf bias i
    (fun t => t.prot (size_add (raw_load_addr bias (segment_at elf i)) k)
      = some (segment_at elf i).p_flags)
    (fun j => (segment_at elf j).p_type = PT_LOAD ∧
        covers bias (segment_at elf j) (size_add (raw_load_addr bias (segment_at elf i)) k))
    ?_ ?_ (List.range (size_t elf.header.e_phnum)) (List.pairwise_lt_range _)
    (List.mem_range.mpr hi) ?_ (w1, SIZE_MAX) (w', load_min_addr) hloop
  · intro s s1 hs
    obtain ⟨-, hprot, -, -⟩ := map_step_ok h elf bias i s s1 hty hs
    rw [hprot]
    simp only [if_pos (covers_self bias (segment_at elf i) k halign hfit hk)]
  · intro j s s1 hfree hQ hs
    rw [map_step_prot_other h elf bias j s s1 _ hs ?_]
    · exact hQ
    · intro hj hcon
      exact hfree ⟨hj, hcon⟩
  · intro j hj hij hcon
    exact (hlater j (List.mem_range.mp hj) hij hcon.1) hcon.2

/-- Witness for C2 (amended): the last BSS byte of the data segment of `pie_image`. -/
theorem segment_final_protection_witness :
    load_segments_elf host_ok pie_image world0
      = (.ok (0x10000, 0x10000), (load_segments_elf host_ok pie_image world0).2)
    ∧ (load_segments_elf host_ok pie_image world0).2.prot
        (size_add (raw_load_addr 0x10000 (segment_at pie_image 2)) 0x17ff)
        = some (PF_R ||| PF_W) :=
  ⟨Prod.ext (by decide) rfl,
   segment_final_protection host_ok pie_image world0 _ 0x10000 0x10000
     (Prod.ext (by decide) rfl) 2 (by decide) (by decide) (by decide) (by decide)
     0x17ff (by decide) (by decide)⟩

/-- Counterexample to C2 as stated: in `overlap_image` the first segment asks for
`PF_R | PF_X`, but the second `PT_LOAD` header is mapped and protected over the same
page, so the final protection of the first segment's first byte is `PF_R | PF_W`. -/
theorem later_mapping_changes_protection :
    (load_segments_elf host_ok overlap_image world0).1 = .ok (0, 0x1000)
    ∧ (segment_at overlap_image 0).p_type = PT_LOAD
    ∧ 0 < (segment_at overlap_image 0).p_memsz
    ∧ (segment_at overlap_image 0).p_flags = (PF_R ||| PF_X)
    ∧ (load_segments_elf host_ok overlap_image world0).2.prot
        (0 + (segment_at overlap_image 0).p_vaddr + 0) = some (PF_R ||| PF_W)
    ∧ (load_segments_elf host_ok overlap_image world0).2.prot
        (0 + (segment_at overlap_image 0).p_vaddr + 0)
        ≠ some (segment_at overlap_image 0).p_flags := by
  decide

/-- C3 (code at the failing input): `note_only_image` has one program header, not of
type `PT_LOAD`; the plan stays `(SIZE_MAX, 0)`, the range wraps to 1, `map_random(1)`
and `unmap` are called, and `load_segments_elf` returns normally instead of failing
with "no segments in the elf file". -/
theorem no_load_header_not_rejected :
    size_t note_only_image.header.e_phnum = 1
    ∧ (segment_at note_only_image 0).p_type ≠ PT_LOAD
    ∧ plan note_only_image = (SIZE_MAX, 0)
    ∧ (load_segments_elf host_ok note_only_image world0).1 = .ok (0x10000, SIZE_MAX)
    ∧ (load_segments_elf host_ok note_only_image world0).2.log
        = [Event.map_random 1, Event.unmap 0x10000 1] := by
  decide

/-- C4: when `load_segments_elf` succeeds, for `ET_EXEC` the bias is 0 and the first
two calls are `map_fixed(min, range)` and `unmap(min, range)`; for `ET_DYN` the bias
is the address returned by `map_random(range)`, the first two calls are
`map_random(range)` and `unmap(bias, range)`, and the bias is a non-zero multiple of
any page size of which the returned address is a non-zero multiple. -/
theorem bias_of_successful_load (h : Host) (elf : ElfFile) (w w' : World) (bias load_min_addr : Nat)
    (hload : load_segments_elf h elf w = (.ok (bias, load_min_addr), w')) :
    (elf.header.e_type = ET_EXEC →
        bias = 0 ∧ ∃ calls, w'.log = w.log
          ++ Event.map_fixed (plan elf).1 (size_sub (plan elf).2 (plan elf).1)
          :: Event.unmap (plan elf).1 (size_sub (plan elf).2 (plan elf).1) :: calls)
    ∧ (elf.header.e_type = ET_DYN →
        bias = h.map_random_addr w (size_sub (plan elf).2 (plan elf).1)
        ∧ (∃ calls, w'.log = w.log
            ++ Event.map_random (size_sub (plan elf).2 (plan elf).1)
            :: Event.unmap bias (size_sub (plan elf).2 (plan elf).1) :: calls)
        ∧ ∀ page, page ∣ h.map_random_addr w (size_sub (plan elf).2 (plan elf).1) →
            h.map_random_addr w (size_sub (plan elf).2 (plan elf).1) ≠ 0 →
            page ∣ bias ∧ bias ≠ 0) := by
  obtain ⟨-, w1, hres, hloop⟩ := load_segments_elf_ok h elf w w' bias load_min_addr hload
  obtain ⟨calls, hcalls, -⟩ := map_loop_adds h elf bias
    (List.range (size_t elf.header.e_phnum)) (w1, SIZE_MAX)
  rw [hloop] at hcalls
  dsimp only at hcalls
  constructor
  · intro hty
    obtain ⟨hb, hlog⟩ := reserve_ok_exec h elf _ _ bias w w1 hty hres
    refine ⟨hb, calls, ?_⟩
    rw [hcalls, hlog]
    simp
  · intro hty
    have hne : elf.header.e_type ≠ ET_EXEC := by rw [hty]; decide
    obtain ⟨hb, hlog⟩ := reserve_ok_dyn h elf _ _ bias w w1 hne hres
    refine ⟨hb, ⟨calls, ?_⟩, ?_⟩
    · rw [hcalls, hlog]
      simp
    · intro page hdvd hnz
      rw [hb]
      exact ⟨hdvd, hnz⟩

/-- Witness for C4: `pie_image` is `ET_DYN` and gets the address 0x10000 chosen by
`host_ok`, a non-zero multiple of 0x1000; `static_image` is `ET_EXEC`, gets bias 0 and
is probed with `map_fixed` and `unmap` first. -/
theorem bias_of_successful_load_witness :
    load_segments_elf host_ok pie_image world0
      = (.ok (0x10000, 0x10000), (load_segments_elf host_ok pie_image world0).2)
    ∧ pie_image.header.e_type = ET_DYN
    ∧ 0x10000 = host_ok.map_random_addr world0 (size_sub (plan pie_image).2 (plan pie_image).1)
    ∧ 0x1000 ∣ 0x10000
    ∧ load_segments_elf host_ok static_image world0
      = (.ok (0, 0x400000), (load_segments_elf host_ok static_image world0).2)
    ∧ static_image.header.e_type = ET_EXEC
    ∧ ∃ calls, (load_segments_elf host_ok static_image world0).2.log = world0.log
        ++ Event.map_fixed (plan static_image).1
            (size_sub (plan static_image).2 (plan static_image).1)
        :: Event.unmap (plan static_image).1
            (size_sub (plan static_image).2 (plan static_image).1) :: calls :=
  ⟨Prod.ext (by decide) rfl, by decide,
   ((bias_of_successful_load host_ok pie_image world0 _ 0x10000 0x10000
      (Prod.ext (by decide) rfl)).2 (by decide)).1,
   (((bias_of_successful_load host_ok pie_image world0 _ 0x10000 0x10000
      (Prod.ext (by decide) rfl)).2 (by decide)).2.2 0x1000 (by decide) (by decide)).1,
   Prod.ext (by decide) rfl, by decide,
   ((bias_of_successful_load host_ok static_image world0 _ 0 0x400000
      (Prod.ext (by decide) rfl)).1 (by decide)).2⟩

/-- C5: with at least one `PT_LOAD` header, non-zero alignments and no address
overflow, the pair `(min, max)` computed by `load_segments_elf` is the minimum of
`aligned_start_i` and the maximum of `aligned_start_i + aligned_len_i` over the
`PT_LOAD` headers, the first primitive called is the reservation (`map_fixed` at
`min` for `ET_EXEC`, `map_random` otherwise) with size `max - min`, and headers that
are not `PT_LOAD` do not influence the pair. -/
theorem reservation_range (elf : ElfFile)
    (hex : ∃ i, i < size_t elf.header.e_phnum ∧ (segment_at elf i).p_type = PT_LOAD)
    (hwf : ∀ i, i < size_t elf.header.e_phnum → (segment_at elf i).p_type = PT_LOAD →
      0 < (segment_at elf i).p_align
      ∧ (segment_at elf i).p_vaddr + (segment_at elf i).p_memsz + (segment_at elf i).p_align
          < SIZE_MOD) :
    ((∃ i, i < size_t elf.header.e_phnum ∧ (segment_at elf i).p_type = PT_LOAD
        ∧ (plan elf).1 = aligned_start (segment_at elf i))
      ∧ ∀ i, i < size_t elf.header.e_phnum → (segment_at elf i).p_type = PT_LOAD →
          (plan elf).1 ≤ aligned_start (segment_at elf i))
    ∧ ((∃ i, i < size_t elf.header.e_phnum ∧ (segment_at elf i).p_type = PT_LOAD
        ∧ (plan elf).2 = aligned_start (segment_at elf i) + aligned_len (segment_at elf i))
      ∧ ∀ i, i < size_t elf.header.e_phnum → (segment_at elf i).p_type = PT_LOAD →
          aligned_start (segment_at elf i) + aligned_len (segment_at elf i) ≤ (plan elf).2)
    ∧ (∀ (h : Host) (w : World), ∃ calls, (load_segments_elf h elf w).2.log
        = w.log ++ (if elf.header.e_type = ET_EXEC
            then Event.map_fixed (plan elf).1 ((plan elf).2 - (plan elf).1)
            else Event.map_random ((plan elf).2 - (plan elf).1)) :: calls)
    ∧ (∀ elf2 : ElfFile, size_t elf2.header.e_phnum = size_t elf.header.e_phnum →
        (∀ i, i < size_t elf.header.e_phnum →
          (segment_at elf i).p_type = PT_LOAD ∨ (segment_at elf2 i).p_type = PT_LOAD →
          segment_at elf2 i = segment_at elf i) →
        plan elf2 = plan elf) := by
  obtain ⟨i0, hi0, hty0⟩ := hex
  obtain ⟨⟨-, b2⟩, b3, ⟨-, b5⟩, b6⟩ :=
    plan_fold elf (List.range (size_t elf.header.e_phnum)) (SIZE_MAX, 0)
  have hplan : plan elf
      = (List.range (size_t elf.header.e_phnum)).foldl (plan_step elf) (SIZE_MAX, 0) := rfl
  rw [← hplan] at b2 b3 b5 b6
  have hseg := fun i hi hty => plan_segment (segment_at elf i) (hwf i hi hty).1 (hwf i hi hty).2
  -- the minimum
  have hmin_le : ∀ i, i < size_t elf.header.e_phnum → (segment_at elf i).p_type = PT_LOAD →
      (plan elf).1 ≤ aligned_start (segment_at elf i) := by
    intro i hi hty
    rw [← (hseg i hi hty).1]
    exact b2 i (List.mem_range.mpr hi) hty
  have hmin_at : ∃ i, i < size_t elf.header.e_phnum ∧ (segment_at elf i).p_type = PT_LOAD
      ∧ (plan elf).1 = aligned_start (segment_at elf i) := by
    rcases b3 with h0 | ⟨i, hi, hty, h0⟩
    · refine ⟨i0, hi0, hty0, ?_⟩
      have h1 := b2 i0 (List.mem_range.mpr hi0) hty0
      have h2 := plan_lo_le (segment_at elf i0)
      rw [← (hseg i0 hi0 hty0).1]
      dsimp only at h0
      omega
    · exact ⟨i, List.mem_range.mp hi, hty, by rw [h0, (hseg i (List.mem_range.mp hi) hty).1]⟩
  -- the maximum
  have hmax_le : ∀ i, i < size_t elf.header.e_phnum → (segment_at elf i).p_type = PT_LOAD →
      aligned_start (segment_at elf i) + aligned_len (segment_at elf i) ≤ (plan elf).2 := by
    intro i hi hty
    rw [← (hseg i hi hty).2.1]
    exact b5 i (List.mem_range.mpr hi) hty
  have hmax_at : ∃ i, i < size_t elf.header.e_phnum ∧ (segment_at elf i).p_type = PT_LOAD
      ∧ (plan elf).2 = aligned_start (segment_at elf i) + aligned_len (segment_at elf i) := by
    rcases b6 with h0 | ⟨i, hi, hty, h0⟩
    · refine ⟨i0, hi0, hty0, ?_⟩
      have h1 := b5 i0 (List.mem_range.mpr hi0) hty0
      rw [← (hseg i0 hi0 hty0).2.1]
      dsimp only at h0
      omega
    · exact ⟨i, List.mem_range.mp hi, hty,
        by rw [h0, (hseg i (List.mem_range.mp hi) hty).2.1]⟩
  refine ⟨⟨hmin_at, hmin_le⟩, ⟨hmax_at, hmax_le⟩, ?_, ?_⟩
  · intro h w
    have hn : size_t elf.header.e_phnum ≠ 0 := by omega
    obtain ⟨calls, hcalls⟩ := load_segments_elf_first h elf w hn
    refine ⟨calls, ?_⟩
    rw [hcalls]
    have hsub : size_sub (plan elf).2 (plan elf).1 = (plan elf).2 - (plan elf).1 := by
      obtain ⟨j, hj, htyj, hjeq⟩ := hmax_at
      have h1 := (hseg j hj htyj).2.2
      have h2 := hmin_le i0 hi0 hty0
      have h3 := hmax_le i0 hi0 hty0
      rw [← hjeq] at h1
      exact size_sub_of_le _ _ (by omega) h1
    rw [hsub]
  · intro elf2 hnum hsame
    unfold plan
    rw [hnum]
    exact plan_fold_congr elf elf2 _ (fun i hi => hsame i (List.mem_range.mp hi)) _

/-- Witness for C5: `pie_image`, whose `PT_LOAD` headers span `[0, 0x4000)`. -/
theorem reservation_range_witness :
    (plan pie_image).1 ≤ aligned_start (segment_at pie_image 2)
    ∧ aligned_start (segment_at pie_image 0) + aligned_len (segment_at pie_image 0)
        ≤ (plan pie_image).2
    ∧ ∃ calls, (load_segments_elf host_ok pie_image world0).2.log
        = world0.log ++ (if pie_image.header.e_type = ET_EXEC
            then Event.map_fixed (plan pie_image).1 ((plan pie_image).2 - (plan pie_image).1)
            else Event.map_random ((plan pie_image).2 - (plan pie_image).1)) :: calls :=
  ⟨(reservation_range pie_image ⟨0, by decide, by decide⟩ (by decide)).1.2 2
      (by decide) (by decide),
   (reservation_range pie_image ⟨0, by decide, by decide⟩ (by decide)).2.1.2 0
      (by decide) (by decide),
   (reservation_range pie_image ⟨0, by decide, by decide⟩ (by decide)).2.2.1 host_ok world0⟩

/-- C6: the relocation value of a work item. With an empty symbol name it is 0 and no
host query is made; otherwise the host is queried once and the value is the address
found, or 0 when nothing is found and the bind is `STB_WEAK`, and when nothing is
found and the bind is not `STB_WEAK` the unresolved-symbol error is thrown. The RELA
and REL loop bodies hand exactly that value to `relocate_rela` / `relocate_rel`, and
on the error they stop without calling the strategy; the error of an item ends the
loop and is the result of the relocation phase. -/
theorem relocation_value_cases (h : Host) (cls : ElfClass) (the_load_bias : Nat) (d : DynInfo)
    (versions : Nat → Nat) (sym_name : String) (vname st_info item : Nat) (w : World) :
    -- the value and the host query
    ((sym_name = "" → resolve_value h cls sym_name vname st_info w = (.ok 0, w))
      ∧ (sym_name ≠ "" → ∀ sym_val, host_lookup h cls sym_name vname w = some sym_val →
          resolve_value h cls sym_name vname st_info w
            = (.ok sym_val, record w (lookup_event cls sym_name vname w)))
      ∧ (sym_name ≠ "" → host_lookup h cls sym_name vname w = none →
          cls.ELF_ST_BIND st_info = STB_WEAK →
          resolve_value h cls sym_name vname st_info w
            = (.ok 0, record w (lookup_event cls sym_name vname w)))
      ∧ (sym_name ≠ "" → host_lookup h cls sym_name vname w = none →
          cls.ELF_ST_BIND st_info ≠ STB_WEAK →
          resolve_value h cls sym_name vname st_info w
            = (.error (.thrown "relocation value not found, FAILED\n"),
               record w (lookup_event cls sym_name vname w))))
    -- the RELA loop hands that value to `relocate_rela`, or stops without calling it
    ∧ (∀ value w1,
        resolve_value h cls
            (cls.read_cstr w.mem
              (sym_name_addr cls w.mem the_load_bias d (cls.read_rela w.mem item).r_info))
            (version_name cls w.mem the_load_bias d versions (cls.read_rela w.mem item).r_info)
            (cls.read_sym w.mem
              (sym_addr cls the_load_bias d (cls.read_rela w.mem item).r_info)).st_info w
          = (.ok value, w1) →
        (process_rela h cls the_load_bias d versions item w).1 = .ok ()
        ∧ (process_rela h cls the_load_bias d versions item w).2.log
            = w1.log ++ [Event.relocate_rela
                (reloc_offset cls the_load_bias (cls.read_rela w.mem item).r_offset)
                (cls.ELF_R_TYPE (cls.read_rela w.mem item).r_info) value
                (cls.read_rela w.mem item).r_addend
                (sym_addr cls the_load_bias d (cls.read_rela w.mem item).r_info)
                the_load_bias])
    ∧ (∀ e w1,
        resolve_value h cls
            (cls.read_cstr w.mem
              (sym_name_addr cls w.mem the_load_bias d (cls.read_rela w.mem item).r_info))
            (version_name cls w.mem the_load_bias d versions (cls.read_rela w.mem item).r_info)
            (cls.read_sym w.mem
              (sym_addr cls the_load_bias d (cls.read_rela w.mem item).r_info)).st_info w
          = (.error e, w1) →
        process_rela h cls the_load_bias d versions item w = (.error e, w1))
    -- the REL loop does the same with `relocate_rel`
    ∧ (∀ value w1,
        resolve_value h cls
            (cls.read_cstr w.mem
              (sym_name_addr cls w.mem the_load_bias d (cls.read_rel w.mem item).r_info))
            (version_name cls w.mem the_load_bias d versions (cls.read_rel w.mem item).r_info)
            (cls.read_sym w.mem
              (sym_addr cls the_load_bias d (cls.read_rel w.mem item).r_info)).st_info w
          = (.ok value, w1) →
        (process_rel h cls the_load_bias d versions item w).1 = .ok ()
        ∧ (process_rel h cls the_load_bias d versions item w).2.log
            = w1.log ++ [Event.relocate_rel
                (reloc_offset cls the_load_bias (cls.read_rel w.mem item).r_offset)
                (cls.ELF_R_TYPE (cls.read_rel w.mem item).r_info) value
                (sym_addr cls the_load_bias d (cls.read_rel w.mem item).r_info)
                the_load_bias])
    ∧ (∀ e w1,
        resolve_value h cls
            (cls.read_cstr w.mem
              (sym_name_addr cls w.mem the_load_bias d (cls.read_rel w.mem item).r_info))
            (version_name cls w.mem the_load_bias d versions (cls.read_rel w.mem item).r_info)
            (cls.read_sym w.mem
              (sym_addr cls the_load_bias d (cls.read_rel w.mem item).r_info)).st_info w
          = (.error e, w1) →
        process_rel h cls the_load_bias d versions item w = (.error e, w1))
    -- an item that throws ends its loop and the whole phase
    ∧ (∀ (w0 : World) (s : World × List Nat) (pre post rels : List Nat) (w1 w2 : World)
        (e : Abort), d.strtab = true → d.symtab = true →
        for_each (open_needed h (search_prefixes h d)) d.needed_files (w0, []) = (.ok (), s) →
        assemble the_load_bias d = .ok (pre ++ item :: post, rels) →
        for_each (process_rela h cls the_load_bias d
          (build_versions cls s.1.mem the_load_bias d)) pre s.1 = (.ok (), w1) →
        process_rela h cls the_load_bias d (build_versions cls s.1.mem the_load_bias d) item w1
          = (.error e, w2) →
        link h cls the_load_bias d w0 = (.error e, w2))
    ∧ (∀ (w0 : World) (s : World × List Nat) (relas pre post : List Nat) (w1 w2 w3 : World)
        (e : Abort), d.strtab = true → d.symtab = true →
        for_each (open_needed h (search_prefixes h d)) d.needed_files (w0, []) = (.ok (), s) →
        assemble the_load_bias d = .ok (relas, pre ++ item :: post) →
        for_each (process_rela h cls the_load_bias d
          (build_versions cls s.1.mem the_load_bias d)) relas s.1 = (.ok (), w1) →
        for_each (process_rel h cls the_load_bias d
          (build_versions cls s.1.mem the_load_bias d)) pre w1 = (.ok (), w2) →
        process_rel h cls the_load_bias d (build_versions cls s.1.mem the_load_bias d) item w2
          = (.error e, w3) →
        link h cls the_load_bias d w0 = (.error e, w3)) := by
  refine ⟨⟨?_, ?_, ?_, ?_⟩, ?_, ?_, ?_, ?_, ?_, ?_⟩
  · intro hn
    unfold resolve_value
    rw [if_neg (not_not.mpr hn)]
  · intro hn v hv
    unfold resolve_value
    rw [if_pos hn, hv]
  · intro hn hv hb
    unfold resolve_value
    rw [if_pos hn, hv]
    simp only [hb, ne_eq, not_true_eq_false, if_false]
  · intro hn hv hb
    unfold resolve_value
    rw [if_pos hn, hv]
    simp only [hb, ne_eq, not_false_eq_true, if_true]
  · intro value w1 hres
    unfold process_rela
    simp only [hres, record_log]
    trivial
  · intro e w1 hres
    unfold process_rela
    simp only [hres]
  · intro value w1 hres
    unfold process_rel
    simp only [hres, record_log]
    trivial
  · intro e w1 hres
    unfold process_rel
    simp only [hres]
  · intro w0 s pre post rels w1 w2 e hs hy hopen hasm hpre hitem
    have hloop := for_each_stops _ pre post item s.1 w1 w2 e hpre hitem
    unfold link
    simp only [hs, hy, Bool.not_true, Bool.false_eq_true, if_false, hopen, hasm, hloop]
  · intro w0 s relas pre post w1 w2 w3 e hs hy hopen hasm hrela hpre hitem
    have hloop := for_each_stops _ pre post item w1 w2 w3 e hpre hitem
    unfold link
    simp only [hs, hy, Bool.not_true, Bool.false_eq_true, if_false, hopen, hasm, hrela, hloop]

/-- Witness for C6: on `host_libc`, `stdout` resolves to 0x7f00, and the global
`__bar` does not resolve, which throws. -/
theorem relocation_value_cases_witness :
    resolve_value host_libc (table_class linked_tables) "stdout" 0 0x12 world0
      = (.ok 0x7f00, record world0 (lookup_event (table_class linked_tables) "stdout" 0 world0))
    ∧ resolve_value host_libc (table_class linked_tables) "__bar" 0 0x12 world0
      = (.error (.thrown "relocation value not found, FAILED\n"),
         record world0 (lookup_event (table_class linked_tables) "__bar" 0 world0)) :=
  ⟨(relocation_value_cases host_libc (table_class linked_tables) 0x10000 linked_info
      (fun _ => 0) "stdout" 0 0x12 0x10300 world0).1.2.1 (by decide) 0x7f00 (by decide),
   (relocation_value_cases host_libc (table_class linked_tables) 0x10000 linked_info
      (fun _ => 0) "__bar" 0 0x12 0x10300 world0).1.2.2.2 (by decide) (by decide) (by decide)⟩


/-- C7 (amended): for a work item whose symbol has a non-empty name, the first call of
the loop body is the host query. It is `dlsym` (no version) when `DT_VERSYM` is absent
or the `versym` entry of the symbol is 0 or 1; it is `dlvsym` with exactly the name
that the version map built from the `verneed` list holds for the entry `v`, whenever
`v` is another value for which the map holds a name (a non-null pointer). -/
theorem version_used_for_lookup (h : Host) (cls : ElfClass) (the_load_bias : Nat) (d : DynInfo)
    (mem0 : Nat → Nat) (item : Nat) (w : World) :
    (cls.read_cstr w.mem
        (sym_name_addr cls w.mem the_load_bias d (cls.read_rela w.mem item).r_info) ≠ "" →
      (d.ver = false
        ∨ version_num cls w.mem the_load_bias d (cls.read_rela w.mem item).r_info = 0
        ∨ version_num cls w.mem the_load_bias d (cls.read_rela w.mem item).r_info = 1) →
      ∃ calls, (process_rela h cls the_load_bias d
          (build_versions cls mem0 the_load_bias d) item w).2.log
        = w.log ++ Event.dlsym (cls.read_cstr w.mem
            (sym_name_addr cls w.mem the_load_bias d (cls.read_rela w.mem item).r_info))
          :: calls)
    ∧ (cls.read_cstr w.mem
        (sym_name_addr cls w.mem the_load_bias d (cls.read_rela w.mem item).r_info) ≠ "" →
      d.ver = true →
      version_num cls w.mem the_load_bias d (cls.read_rela w.mem item).r_info ≠ 0 →
      version_num cls w.mem the_load_bias d (cls.read_rela w.mem item).r_info ≠ 1 →
      build_versions cls mem0 the_load_bias d
        (version_num cls w.mem the_load_bias d (cls.read_rela w.mem item).r_info) ≠ 0 →
      ∃ calls, (process_rela h cls the_load_bias d
          (build_versions cls mem0 the_load_bias d) item w).2.log
        = w.log ++ Event.dlvsym (cls.read_cstr w.mem
            (sym_name_addr cls w.mem the_load_bias d (cls.read_rela w.mem item).r_info))
            (cls.read_cstr w.mem (build_versions cls mem0 the_load_bias d
              (version_num cls w.mem the_load_bias d (cls.read_rela w.mem item).r_info)))
          :: calls)
    ∧ (cls.read_cstr w.mem
        (sym_name_addr cls w.mem the_load_bias d (cls.read_rel w.mem item).r_info) ≠ "" →
      (d.ver = false
        ∨ version_num cls w.mem the_load_bias d (cls.read_rel w.mem item).r_info = 0
        ∨ version_num cls w.mem the_load_bias d (cls.read_rel w.mem item).r_info = 1) →
      ∃ calls, (process_rel h cls the_load_bias d
          (build_versions cls mem0 the_load_bias d) item w).2.log
        = w.log ++ Event.dlsym (cls.read_cstr w.mem
            (sym_name_addr cls w.mem the_load_bias d (cls.read_rel w.mem item).r_info))
          :: calls)
    ∧ (cls.read_cstr w.mem
        (sym_name_addr cls w.mem the_load_bias d (cls.read_rel w.mem item).r_info) ≠ "" →
      d.ver = true →
      version_num cls w.mem the_load_bias d (cls.read_rel w.mem item).r_info ≠ 0 →
      version_num cls w.mem the_load_bias d (cls.read_rel w.mem item).r_info ≠ 1 →
      build_versions cls mem0 the_load_bias d
        (version_num cls w.mem the_load_bias d (cls.read_rel w.mem item).r_info) ≠ 0 →
      ∃ calls, (process_rel h cls the_load_bias d
          (build_versions cls mem0 the_load_bias d) item w).2.log
        = w.log ++ Event.dlvsym (cls.read_cstr w.mem
            (sym_name_addr cls w.mem the_load_bias d (cls.read_rel w.mem item).r_info))
            (cls.read_cstr w.mem (build_versions cls mem0 the_load_bias d
              (version_num cls w.mem the_load_bias d (cls.read_rel w.mem item).r_info)))
          :: calls) := by
  refine ⟨?_, ?_, ?_, ?_⟩
  · intro hname hv
    obtain ⟨calls, hcalls⟩ := process_rela_first h cls the_load_bias d
      (build_versions cls mem0 the_load_bias d) item w hname
    refine ⟨calls, ?_⟩
    rw [hcalls, version_name_unversioned _ _ _ _ _ _ hv]
    rfl
  · intro hname hver h0 h1 hmap
    obtain ⟨calls, hcalls⟩ := process_rela_first h cls the_load_bias d
      (build_versions cls mem0 the_load_bias d) item w hname
    refine ⟨calls, ?_⟩
    rw [hcalls, version_name_versioned _ _ _ _ _ _ hver h0 h1]
    unfold lookup_event
    rw [if_neg hmap]
  · intro hname hv
    obtain ⟨calls, hcalls⟩ := process_rel_first h cls the_load_bias d
      (build_versions cls mem0 the_load_bias d) item w hname
    refine ⟨calls, ?_⟩
    rw [hcalls, version_name_unversioned _ _ _ _ _ _ hv]
    rfl
  · intro hname hver h0 h1 hmap
    obtain ⟨calls, hcalls⟩ := process_rel_first h cls the_load_bias d
      (build_versions cls mem0 the_load_bias d) item w hname
    refine ⟨calls, ?_⟩
    rw [hcalls, version_name_versioned _ _ _ _ _ _ hver h0 h1]
    unfold lookup_event
    rw [if_neg hmap]

/-- Witness for C7 (amended): with the `verneed` list of `versioned_info`, the symbol
`stdout` has `versym` entry 2, which the version map names `GLIBC_2.2.5`, and the
host is asked for that version. -/
theorem version_used_for_lookup_witness :
    version_num (table_class linked_tables) world0.mem 0x10000 versioned_info
        ((table_class linked_tables).read_rela world0.mem 0x10300).r_info = 2
    ∧ ∃ calls, (process_rela host_libc (table_class linked_tables) 0x10000 versioned_info
          (build_versions (table_class linked_tables) world0.mem 0x10000 versioned_info)
          0x10300 world0).2.log
        = world0.log ++ Event.dlvsym
            ((table_class linked_tables).read_cstr world0.mem
              (sym_name_addr (table_class linked_tables) world0.mem 0x10000 versioned_info
                ((table_class linked_tables).read_rela world0.mem 0x10300).r_info))
            ((table_class linked_tables).read_cstr world0.mem
              (build_versions (table_class linked_tables) world0.mem 0x10000 versioned_info
                (version_num (table_class linked_tables) world0.mem 0x10000 versioned_info
                  ((table_class linked_tables).read_rela world0.mem 0x10300).r_info)))
          :: calls :=
  ⟨by decide,
   (version_used_for_lookup host_libc (table_class linked_tables) 0x10000 versioned_info
      world0.mem 0x10300 world0).2.1 (by decide) (by decide) (by decide) (by decide)
      (by decide)⟩

/-- Counterexample to C7 as stated: the image has `DT_VERSYM` but an empty `verneed`
list; the `versym` entry of `stdout` is 2, neither 0 nor 1, yet the host is asked
with `dlsym`, without a version, and `dlvsym` is never called. -/
theorem versym_without_verneed_uses_dlsym :
    (scan_dynamic (table_class linked_tables) (linked_image dynamic_versym_only false)
        (segment_at (linked_image dynamic_versym_only false) 1) 20 0 {}).map
        (fun d => (d.ver, d.versym, d.verneednum)) = some (true, 0x400, 0)
    ∧ version_num (table_class linked_tables) world0.mem 0x10000
        { linked_info with ver := true, versym := 0x400 }
        ((table_class linked_tables).read_rela world0.mem 0x10300).r_info = 2
    ∧ (do_relocations host_libc (table_class linked_tables) 20
        (linked_image dynamic_versym_only false) 0x10000 world0).2.log
        = [Event.dlopen "/lib/libc.so.6" dlopen_mode,
           Event.dlsym "stdout",
           Event.relocate_rela 0x10800 6 0x7f00 0 0x10218 0x10000,
           Event.dlsym "__foo",
           Event.relocate_rela 0x10808 7 0 0 0x10230 0x10000,
           Event.dlclose 0x5000] := by
  decide

/-- C9 (amended): for an image without a `PT_INTERP` header, `load_and_run_elf` with
`explicit_use_interp = true` makes no call to the host linker or to the relocation
strategy; after a successful segment load it goes straight to the stack, passes 0 as
the interpreter bias to `setup_stack` and jumps to the program's own entry. It
behaves as with `explicit_use_interp = false` when the image has no `PT_DYNAMIC`
header either. -/
theorem explicit_interp_without_interp_header (h : Host) (cls : ElfClass) (fuel : Nat)
    (elf : ElfFile) (w : World)
    (hno : ∀ i, i < size_t elf.header.e_phnum → (segment_at elf i).p_type ≠ PT_INTERP) :
    adds (fun e => is_link_event e = false) w (load_and_run_elf h cls fuel elf true w).2
    ∧ (∀ bias lma w1, h.validate_elf elf = true →
        load_segments_elf h elf w = (.ok (bias, lma), w1) →
        load_and_run_elf h cls fuel elf true w
          = run h elf (size_add bias (size_t elf.header.e_entry)) lma {} w1
        ∧ ∀ stack w2, allocate_stack_elf h elf w1 = (.ok stack, w2) →
            (load_and_run_elf h cls fuel elf true w).1 = .ok ()
            ∧ (load_and_run_elf h cls fuel elf true w).2.log = w2.log ++
                [Event.setup_stack stack.addr stack.size
                   (size_add bias (size_t elf.header.e_entry)) 0 lma,
                 Event.jump_entry_elf (size_add bias (size_t elf.header.e_entry))
                   (h.setup_stack w2 stack elf
                     (size_add bias (size_t elf.header.e_entry)) 0 lma).1,
                 Event.exit])
    ∧ ((∀ i, i < size_t elf.header.e_phnum → (segment_at elf i).p_type ≠ PT_DYNAMIC) →
        load_and_run_elf h cls fuel elf true w = load_and_run_elf h cls fuel elf false w) := by
  have hinterp : ∀ w1, load_interp h elf (List.range (size_t elf.header.e_phnum)) w1
      = (.ok {}, w1) :=
    fun w1 => load_interp_none h elf _ w1 (fun i hi => hno i (List.mem_range.mp hi))
  have hrun : ∀ bias lma w1, h.validate_elf elf = true →
      load_segments_elf h elf w = (.ok (bias, lma), w1) →
      load_and_run_elf h cls fuel elf true w
        = run h elf (size_add bias (size_t elf.header.e_entry)) lma {} w1 := by
    intro bias lma w1 hval hload
    unfold load_and_run_elf link_or_interp
    simp only [hval, Bool.not_true, Bool.false_eq_true, if_false, hload, if_true, hinterp]
  refine ⟨?_, ?_, ?_⟩
  · by_cases hval : h.validate_elf elf = true
    · have h1 : adds (fun e => is_link_event e = false) w (load_segments_elf h elf w).2 :=
        adds_mono is_memory_not_link (load_segments_elf_adds h elf w)
      rcases hload : load_segments_elf h elf w with ⟨r, w1⟩
      rw [hload] at h1
      cases r with
      | error e =>
        have : load_and_run_elf h cls fuel elf true w = (.error e, w1) := by
          unfold load_and_run_elf
          simp only [hval, Bool.not_true, Bool.false_eq_true, if_false, hload]
        rw [this]; exact h1
      | ok p =>
        obtain ⟨bias, lma⟩ := p
        rw [hrun bias lma w1 hval hload]
        exact adds_trans h1 (run_adds _ _ _ _ _ _)
    · have : load_and_run_elf h cls fuel elf true w
          = (.error (.thrown "elf file is not valid"), w) := by
        unfold load_and_run_elf
        simp [hval]
      rw [this]; exact adds_refl _ _
  · intro bias lma w1 hval hload
    refine ⟨hrun bias lma w1 hval hload, ?_⟩
    intro stack w2 hstack
    rw [hrun bias lma w1 hval hload]
    exact run_ok h elf _ lma {} w1 w2 stack hstack
  · intro hnodyn
    unfold load_and_run_elf
    split
    · rfl
    · rcases hload : load_segments_elf h elf w with ⟨r, w1⟩
      cases r with
      | error e => rfl
      | ok p =>
        obtain ⟨bias, lma⟩ := p
        have hn := (load_segments_elf_ok h elf w w1 bias lma hload).1
        dsimp only
        unfold link_or_interp
        simp only [if_true, Bool.false_eq_true, if_false, hinterp,
          do_relocations_no_dynamic h cls fuel elf bias w1 hn hnodyn]

/-- Witness for C9 (amended): `static_image` has neither `PT_INTERP` nor `PT_DYNAMIC`,
and both settings of the flag give the same run, which ends in the trampoline. -/
theorem explicit_interp_without_interp_header_witness :
    load_and_run_elf host_ok (table_class linked_tables) 20 static_image true world0
      = load_and_run_elf host_ok (table_class linked_tables) 20 static_image false world0
    ∧ (load_and_run_elf host_ok (table_class linked_tables) 20 static_image true world0).1
      = .ok ()
    ∧ Event.jump_entry_elf 0x400000 0x1000ff00
      ∈ (load_and_run_elf host_ok (table_class linked_tables) 20 static_image true world0).2.log :=
  ⟨(explicit_interp_without_interp_header host_ok (table_class linked_tables) 20 static_image
      world0 (by decide)).2.2 (by decide),
   by decide, by decide⟩

/-- Counterexample to C9 as stated: `linked_image dynamic_plain false` has no `PT_INTERP`
header but a dynamic table with relocations. With the flag unset the relocations are
applied; with the flag set the run calls neither the host linker nor the relocation
strategy before it jumps to the same entry. -/
theorem explicit_interp_skips_relocation :
    size_t (linked_image dynamic_plain false).header.e_phnum = 2
    ∧ (segment_at (linked_image dynamic_plain false) 0).p_type ≠ PT_INTERP
    ∧ (segment_at (linked_image dynamic_plain false) 1).p_type ≠ PT_INTERP
    ∧ (load_and_run_elf host_libc (table_class linked_tables) 20
        (linked_image dynamic_plain false) false world0).1 = .ok ()
    ∧ Event.relocate_rela 0x10800 6 0x7f00 0 0x10218 0x10000
        ∈ (load_and_run_elf host_libc (table_class linked_tables) 20
            (linked_image dynamic_plain false) false world0).2.log
    ∧ (load_and_run_elf host_libc (table_class linked_tables) 20
        (linked_image dynamic_plain false) true world0).1 = .ok ()
    ∧ (load_and_run_elf host_libc (table_class linked_tables) 20
        (linked_image dynamic_plain false) true world0).2.log
        = [Event.map_random 0x1000, Event.unmap 0x10000 0x1000,
           Event.map_fixed 0x10000 0x1000, Event.protect 0x10000 0x1000 (PF_R ||| PF_W),
           Event.map_random STACK_SIZE, Event.protect 0x50000 STACK_SIZE (PF_R ||| PF_W),
           Event.setup_stack 0x50000 STACK_SIZE 0x10020 0 0x10000,
           Event.jump_entry_elf 0x10020 0x1004ff00, Event.exit] := by
  decide

/-- C10: when the image has a `PT_INTERP` header (the first at index `i`) and
`load_and_run_elf` with `explicit_use_interp = true` reaches its end, it has loaded
the program, opened the interpreter named at that header's file offset and loaded it
with `load_segments_elf`, allocated the stack, passed the interpreter's load bias to
`setup_stack`, and called the trampoline with the interpreter's bias plus its
`e_entry` and the stack address returned by `setup_stack`; it made no call to the
host linker or relocation strategy, and the dynamic walk was not run (no fuel is
needed). -/
theorem explicit_interp_with_interp_header (h : Host) (cls : ElfClass) (fuel : Nat)
    (elf : ElfFile) (w w' : World) (i : Nat) (hi : i < size_t elf.header.e_phnum)
    (hty : (segment_at elf i).p_type = PT_INTERP)
    (hfirst : ∀ j, j < i → (segment_at elf j).p_type ≠ PT_INTERP)
    (hrun : load_and_run_elf h cls fuel elf true w = (.ok (), w')) :
    ∃ bias lma w1 ibias ilma w2 stack w3,
      load_segments_elf h elf w = (.ok (bias, lma), w1)
      ∧ load_segments_elf h
          (h.open_elf (elf.get_string_at_raw_offset (segment_at elf i).p_offset))
          (record w1 (Event.open_elf
            (elf.get_string_at_raw_offset (segment_at elf i).p_offset)))
          = (.ok (ibias, ilma), w2)
      ∧ allocate_stack_elf h elf w2 = (.ok stack, w3)
      ∧ w'.log = w3.log ++
          [Event.setup_stack stack.addr stack.size
             (size_add bias (size_t elf.header.e_entry)) ibias lma,
           Event.jump_entry_elf
             (size_add ibias (size_t (h.open_elf
               (elf.get_string_at_raw_offset (segment_at elf i).p_offset)).header.e_entry))
             (h.setup_stack w3 stack elf
               (size_add bias (size_t elf.header.e_entry)) ibias lma).1,
           Event.exit]
      ∧ adds (fun e => is_link_event e = false) w w'
      ∧ load_and_run_elf h cls 0 elf true w = (.ok (), w') := by
  have hinterp : ∀ w1, load_interp h elf (List.range (size_t elf.header.e_phnum)) w1
      = load_interp_at h elf i w1 :=
    fun w1 => load_interp_first h elf i w1 hty _ (List.pairwise_lt_range _)
      (List.mem_range.mpr hi) (fun j _ hj => hfirst j hj)
  have hfuel : load_and_run_elf h cls 0 elf true w = load_and_run_elf h cls fuel elf true w := by
    unfold load_and_run_elf link_or_interp
    simp only [if_true]
  have hrun0 := hrun
  unfold load_and_run_elf at hrun
  split at hrun
  · simp at hrun
  · rcases hload : load_segments_elf h elf w with ⟨r, w1⟩
    rw [hload] at hrun
    cases r with
    | error e => simp at hrun
    | ok p =>
      obtain ⟨bias, lma⟩ := p
      dsimp only at hrun
      unfold link_or_interp at hrun
      simp only [if_true, hinterp] at hrun
      unfold load_interp_at at hrun
      dsimp only at hrun
      rcases hil : load_segments_elf h
          (h.open_elf (elf.get_string_at_raw_offset (segment_at elf i).p_offset))
          (record w1 (Event.open_elf
            (elf.get_string_at_raw_offset (segment_at elf i).p_offset))) with ⟨r2, w2⟩
      rw [hil] at hrun
      cases r2 with
      | error e => simp at hrun
      | ok p2 =>
        obtain ⟨ibias, ilma⟩ := p2
        dsimp only at hrun
        rcases hs : allocate_stack_elf h elf w2 with ⟨r3, w3⟩
        cases r3 with
        | error e =>
          rw [run_error h elf _ lma _ w2 w3 e hs] at hrun
          simp at hrun
        | ok stack =>
          have hr := run_ok h elf (size_add bias (size_t elf.header.e_entry)) lma
            { interp_load_min_addr := ilma, interp_load_bias := ibias,
              interp_entry_addr := size_add ibias (size_t (h.open_elf
                (elf.get_string_at_raw_offset (segment_at elf i).p_offset)).header.e_entry),
              invoke_interp := true } w2 w3 stack hs
          rw [hrun] at hr
          refine ⟨bias, lma, w1, ibias, ilma, w2, stack, w3, rfl, hil, hs, ?_, ?_, ?_⟩
          · simpa using hr.2
          · have h1 : adds (fun e => is_link_event e = false) w w1 := by
              have := adds_mono is_memory_not_link (load_segments_elf_adds h elf w)
              rw [hload] at this; exact this
            have h2 : adds (fun e => is_link_event e = false) w1 w2 := by
              have := load_interp_at_adds h elf i w1
              unfold load_interp_at at this
              dsimp only at this
              rw [hil] at this
              exact this
            have h3 : adds (fun e => is_link_event e = false) w2 w' := by
              have := run_adds h elf (size_add bias (size_t elf.header.e_entry)) lma
                { interp_load_min_addr := ilma, interp_load_bias := ibias,
                  interp_entry_addr := size_add ibias (size_t (h.open_elf
                    (elf.get_string_at_raw_offset (segment_at elf i).p_offset)).header.e_entry),
                  invoke_interp := true } w2
              rw [hrun] at this; exact this
            exact adds_trans h1 (adds_trans h2 h3)
          · rw [hfuel]; exact hrun0

/-- Witness for C10: `linked_image dynamic_plain true` names an interpreter, which
`host_libc` opens as `ld_image`; the run ends in the trampoline. -/
theorem explicit_interp_with_interp_header_witness :
    (load_and_run_elf host_libc (table_class linked_tables) 20
        (linked_image dynamic_plain true) true world0).1 = .ok ()
    ∧ ∃ bias lma w1 ibias ilma w2 stack w3,
      load_segments_elf host_libc (linked_image dynamic_plain true) world0
        = (.ok (bias, lma), w1)
      ∧ load_segments_elf host_libc
          (host_libc.open_elf ((linked_image dynamic_plain true).get_string_at_raw_offset
            (segment_at (linked_image dynamic_plain true) 2).p_offset))
          (record w1 (Event.open_elf
            ((linked_image dynamic_plain true).get_string_at_raw_offset
              (segment_at (linked_image dynamic_plain true) 2).p_offset)))
          = (.ok (ibias, ilma), w2)
      ∧ allocate_stack_elf host_libc (linked_image dynamic_plain true) w2
        = (.ok stack, w3)
      ∧ (load_and_run_elf host_libc (table_class linked_tables) 20
          (linked_image dynamic_plain true) true world0).2.log = w3.log ++
          [Event.setup_stack stack.addr stack.size
             (size_add bias (size_t (linked_image dynamic_plain true).header.e_entry)) ibias lma,
           Event.jump_entry_elf
             (size_add ibias (size_t (host_libc.open_elf
               ((linked_image dynamic_plain true).get_string_at_raw_offset
                 (segment_at (linked_image dynamic_plain true) 2).p_offset)).header.e_entry))
             (host_libc.setup_stack w3 stack (linked_image dynamic_plain true)
               (size_add bias (size_t (linked_image dynamic_plain true).header.e_entry))
               ibias lma).1,
           Event.exit]
      ∧ adds (fun e => is_link_event e = false) world0
          (load_and_run_elf host_libc (table_class linked_tables) 20
            (linked_image dynamic_plain true) true world0).2
      ∧ load_and_run_elf host_libc (table_class linked_tables) 0
          (linked_image dynamic_plain true) true world0
        = (.ok (), (load_and_run_elf host_libc (table_class linked_tables) 20
            (linked_image dynamic_plain true) true world0).2) :=
  ⟨by decide,
   explicit_interp_with_interp_header host_libc (table_class linked_tables) 20
     (linked_image dynamic_plain true) world0 _ 2 (by decide) (by decide) (by decide)
     (Prod.ext (by decide) rfl)⟩

/-- C11: the dynamic walk of a table whose first `DT_NULL` is entry `n` returns, for any
fuel above `n`, the record built from the `n` entries before it (`dyn_table`) and from
nothing else; the record is the same when the entries with tags the walk does not record are
taken out; and the walk of any other table (other image, other length, other entries after
its own first `DT_NULL`, other fuel) whose recorded-tag entries before its first `DT_NULL`
are the same gives the same record. -/
theorem dynamic_walk_stops_at_first_null (cls : ElfClass) (elf : ElfFile) (segment : Segment)
    (n fuel : Nat) (d : DynInfo) (hn : n < SIZE_MOD)
    (hbefore : ∀ k, k < n → (dyn_at cls elf segment k).d_tag ≠ DT_NULL)
    (hnull : (dyn_at cls elf segment n).d_tag = DT_NULL) (hfuel : n < fuel) :
    scan_dynamic cls elf segment fuel 0 d = some (scan_table elf (dyn_table cls elf segment n) d)
    ∧ scan_table elf (dyn_table cls elf segment n) d
        = scan_table elf
            ((dyn_table cls elf segment n).filter (fun e => is_recorded_tag e.d_tag)) d
    ∧ ∀ (elf2 : ElfFile) (segment2 : Segment) (n2 fuel2 : Nat), n2 < SIZE_MOD →
        (∀ k, k < n2 → (dyn_at cls elf2 segment2 k).d_tag ≠ DT_NULL) →
        (dyn_at cls elf2 segment2 n2).d_tag = DT_NULL → n2 < fuel2 →
        elf2.get_string_from_dynstr = elf.get_string_from_dynstr →
        (dyn_table cls elf2 segment2 n2).filter (fun e => is_recorded_tag e.d_tag)
          = (dyn_table cls elf segment n).filter (fun e => is_recorded_tag e.d_tag) →
        scan_dynamic cls elf2 segment2 fuel2 0 d = scan_dynamic cls elf segment fuel 0 d := by
  refine ⟨scan_dynamic_table cls elf segment n fuel d hn hbefore hnull hfuel,
    scan_table_filter elf _ d, ?_⟩
  intro elf2 segment2 n2 fuel2 hn2 hbefore2 hnull2 hfuel2 hstr htab
  rw [scan_dynamic_table cls elf segment n fuel d hn hbefore hnull hfuel,
    scan_dynamic_table cls elf2 segment2 n2 fuel2 d hn2 hbefore2 hnull2 hfuel2,
    scan_table_filter elf2, scan_table_filter elf, htab]
  have hentry : ∀ (t : List Dyn) (d0 : DynInfo), scan_table elf2 t d0 = scan_table elf t d0 := by
    intro t
    induction t with
    | nil => intro d0; rfl
    | cons e rest ih =>
      intro d0
      rw [scan_table_cons, scan_table_cons, ih]
      have : scan_entry elf2 e d0 = scan_entry elf e d0 := by
        unfold scan_entry
        rw [hstr]
      rw [this]
  rw [hentry]

/-- The table `dynamic_padded` (unknown tags inserted, entries after `DT_NULL`) gives the
record of `dynamic_plain`. -/
theorem dynamic_walk_stops_at_first_null_witness :
    scan_dynamic (table_class linked_tables) (linked_image dynamic_padded false)
        (segment_at (linked_image dynamic_padded false) 1) 11 0 {}
      = scan_dynamic (table_class linked_tables) (linked_image dynamic_plain false)
        (segment_at (linked_image dynamic_plain false) 1) 20 0 {} :=
  (dynamic_walk_stops_at_first_null (table_class linked_tables) (linked_image dynamic_plain false)
    (segment_at (linked_image dynamic_plain false) 1) 7 20 {} (by decide) (by decide)
    (by decide) (by decide)).2.2 (linked_image dynamic_padded false)
    (segment_at (linked_image dynamic_padded false) 1) 10 11 (by decide) (by decide)
    (by decide) (by decide) rfl (by decide)

/-- C12: for an image whose first `PT_DYNAMIC` header is header `i` and whose dynamic
table has its first `DT_NULL` at entry `n`: when no entry before the `DT_NULL` carries
`DT_STRTAB`, or none carries `DT_SYMTAB`, and some entry carries `DT_RELA`, `DT_REL`,
`DT_JMPREL` or `DT_NEEDED`, `do_relocations` throws "no dynamic strtab" or
"no dynamic symbol table" and leaves the world as it found it: no library has been
opened and no relocation applied. -/
theorem missing_strtab_or_symtab_fails_first (h : Host) (cls : ElfClass) (fuel : Nat)
    (elf : ElfFile) (bias : Nat) (w : World) (i n : Nat)
    (hi : i < size_t elf.header.e_phnum)
    (hty : (segment_at elf i).p_type = PT_DYNAMIC)
    (hfirst : ∀ j, j < i → (segment_at elf j).p_type ≠ PT_DYNAMIC)
    (hn : n < SIZE_MOD)
    (hbefore : ∀ k, k < n → (dyn_at cls elf (segment_at elf i) k).d_tag ≠ DT_NULL)
    (hnull : (dyn_at cls elf (segment_at elf i) n).d_tag = DT_NULL) (hfuel : n < fuel)
    (habsent : (¬ ∃ e ∈ dyn_table cls elf (segment_at elf i) n, e.d_tag = DT_STRTAB)
      ∨ (¬ ∃ e ∈ dyn_table cls elf (segment_at elf i) n, e.d_tag = DT_SYMTAB))
    (_hwork : ∃ e ∈ dyn_table cls elf (segment_at elf i) n,
      e.d_tag = DT_RELA ∨ e.d_tag = DT_REL ∨ e.d_tag = DT_JMPREL ∨ e.d_tag = DT_NEEDED) :
    do_relocations h cls fuel elf bias w = (.error (.thrown "no dynamic strtab"), w)
      ∨ do_relocations h cls fuel elf bias w
          = (.error (.thrown "no dynamic symbol table"), w) := by
  rw [do_relocations_eq_link h cls fuel elf bias w i n hi hty hfirst hn hbefore hnull hfuel]
  have hflag : ∀ tag ∈ flagged_tags,
      (¬ ∃ e ∈ dyn_table cls elf (segment_at elf i) n, e.d_tag = tag) →
      flag_of tag (scan_table elf (dyn_table cls elf (segment_at elf i) n) {}) = false := by
    intro tag htag hno
    rw [scan_table_flag elf tag htag, flag_of_default]
    simpa using hno
  unfold link
  by_cases hs : (scan_table elf (dyn_table cls elf (segment_at elf i) n) {}).strtab = true
  · right
    have hy : (scan_table elf (dyn_table cls elf (segment_at elf i) n) {}).symtab = false := by
      rcases habsent with hno | hno
      · have := hflag DT_STRTAB (by decide) hno
        exact absurd hs (by rw [show (scan_table elf (dyn_table cls elf (segment_at elf i) n)
          {}).strtab = flag_of DT_STRTAB _ from rfl, this]; decide)
      · exact hflag DT_SYMTAB (by decide) hno
    simp [hs, hy]
  · left
    simp [hs]

/-- The image with the table `dynamic_no_strtab` (a needed library and a RELA table, no
`DT_STRTAB`) is refused in the initial world. -/
theorem missing_strtab_or_symtab_fails_first_witness :
    do_relocations host_libc (table_class linked_tables) 20
        (linked_image dynamic_no_strtab false) 0 world0
        = (.error (.thrown "no dynamic strtab"), world0)
      ∨ do_relocations host_libc (table_class linked_tables) 20
          (linked_image dynamic_no_strtab false) 0 world0
          = (.error (.thrown "no dynamic symbol table"), world0) :=
  missing_strtab_or_symtab_fails_first host_libc (table_class linked_tables) 20
    (linked_image dynamic_no_strtab false) 0 world0 1 6 (by decide) (by decide) (by decide)
    (by decide) (by decide) (by decide) (by decide) (Or.inl (by decide))
    ⟨⟨DT_NEEDED, 1⟩, by decide, Or.inr (Or.inr (Or.inr rfl))⟩

/-- C13 as stated fails: in `dynamic_bad_plt_missing` a `DT_JMPREL` entry is present and
the `DT_PLTREL` value (absent, so 0) is neither `DT_RELA` nor `DT_REL`, yet
`do_relocations` does not throw "weird plt relocations type": the needed library does not
open and it throws "can't open/find a certain library using dlopen()" first. -/
theorem bad_plt_type_preempted_by_missing_library :
    has_tag (table_class linked_tables) (linked_image dynamic_bad_plt_missing false) 1 6 DT_JMPREL
    ∧ value_of DT_PLTREL
        (walked (table_class linked_tables) (linked_image dynamic_bad_plt_missing false) 1 6)
        ≠ DT_RELA
    ∧ value_of DT_PLTREL
        (walked (table_class linked_tables) (linked_image dynamic_bad_plt_missing false) 1 6)
        ≠ DT_REL
    ∧ (do_relocations host_libc (table_class linked_tables) 20
        (linked_image dynamic_bad_plt_missing false) 0x10000 world0).1
        = .error (.thrown "can't open/find a certain library using dlopen()")
    ∧ (do_relocations host_libc (table_class linked_tables) 20
        (linked_image dynamic_bad_plt_missing false) 0x10000 world0).1
        ≠ .error (.thrown "weird plt relocations type") := by
  decide

/-- C13, amended: for an image whose first `PT_DYNAMIC` header is header `i` and whose
dynamic table has its first `DT_NULL` at entry `n`, `do_relocations` throws
"weird plt relocations type" exactly when the steps before the queue assembly pass
(`DT_STRTAB` and `DT_SYMTAB` present, every needed library opened, `DT_RELAENT` non-zero
if `DT_RELA` is present, `DT_RELENT` non-zero if `DT_REL` is present) and `DT_JMPREL` is
present with a `DT_PLTREL` value that is neither `DT_RELA` nor `DT_REL`; when it throws so,
the calls made are `dlopen` calls only: the strategy has been called for no relocation. -/
theorem bad_plt_type_once_assembly_is_reached (h : Host) (cls : ElfClass) (fuel : Nat)
    (elf : ElfFile) (bias : Nat) (w : World) (i n : Nat)
    (hi : i < size_t elf.header.e_phnum)
    (hty : (segment_at elf i).p_type = PT_DYNAMIC)
    (hfirst : ∀ j, j < i → (segment_at elf j).p_type ≠ PT_DYNAMIC)
    (hn : n < SIZE_MOD)
    (hbefore : ∀ k, k < n → (dyn_at cls elf (segment_at elf i) k).d_tag ≠ DT_NULL)
    (hnull : (dyn_at cls elf (segment_at elf i) n).d_tag = DT_NULL) (hfuel : n < fuel) :
    ((do_relocations h cls fuel elf bias w).1 = .error (.thrown "weird plt relocations type")
      ↔ has_tag cls elf i n DT_STRTAB ∧ has_tag cls elf i n DT_SYMTAB
        ∧ (for_each (open_needed h (search_prefixes h (walked cls elf i n)))
            (walked cls elf i n).needed_files (w, [])).1 = .ok ()
        ∧ (has_tag cls elf i n DT_RELA → value_of DT_RELAENT (walked cls elf i n) ≠ 0)
        ∧ (has_tag cls elf i n DT_REL → value_of DT_RELENT (walked cls elf i n) ≠ 0)
        ∧ has_tag cls elf i n DT_JMPREL
        ∧ value_of DT_PLTREL (walked cls elf i n) ≠ DT_RELA
        ∧ value_of DT_PLTREL (walked cls elf i n) ≠ DT_REL)
    ∧ ((do_relocations h cls fuel elf bias w).1
          = .error (.thrown "weird plt relocations type") →
        adds (fun e => is_dlopen_event e = true) w
          (do_relocations h cls fuel elf bias w).2
        ∧ adds (fun e => is_strategy_event e = false) w
          (do_relocations h cls fuel elf bias w).2) := by
  have hlink : do_relocations h cls fuel elf bias w = link h cls bias (walked cls elf i n) w :=
    do_relocations_eq_link h cls fuel elf bias w i n hi hty hfirst hn hbefore hnull hfuel
  rw [hlink]
  refine ⟨?_, ?_⟩
  · rw [link_bad_plt_iff, assemble_bad_plt_iff,
      ← walked_flag cls elf i n DT_STRTAB (by decide),
      ← walked_flag cls elf i n DT_SYMTAB (by decide),
      ← walked_flag cls elf i n DT_RELA (by decide),
      ← walked_flag cls elf i n DT_REL (by decide),
      ← walked_flag cls elf i n DT_JMPREL (by decide)]
    exact Iff.rfl
  · intro hbad
    have hopen := link_bad_plt_adds h cls bias _ w hbad
    refine ⟨hopen, adds_mono ?_ hopen⟩
    intro e he
    cases e <;> simp_all [is_dlopen_event, is_strategy_event]

/-- The image with the table `dynamic_bad_plt` (`DT_JMPREL`, no `DT_PLTREL`, the needed
library present on `host_libc`) is refused for its PLT type. -/
theorem bad_plt_type_once_assembly_is_reached_witness :
    (do_relocations host_libc (table_class linked_tables) 20
        (linked_image dynamic_bad_plt false) 0x10000 world0).1
      = .error (.thrown "weird plt relocations type") :=
  (bad_plt_type_once_assembly_is_reached host_libc (table_class linked_tables) 20
    (linked_image dynamic_bad_plt false) 0x10000 world0 1 9 (by decide) (by decide)
    (by decide) (by decide) (by decide) (by decide) (by decide)).1.mpr (by decide)

/-- C14: the needed names are those of the `DT_NEEDED` entries in table order; the
prefixes are `DT_RUNPATH` followed by "/" (if non-empty), then `DT_RPATH` followed by "/"
(if non-empty), then the default prefixes in their order. Once the names before `name`
have been opened (state `s`): if `p` is the first prefix under which `dlopen` answers a
handle for `name`, the loop has opened `name` with exactly the calls for the prefixes up
to `p`, in order, and keeps that handle, trying no prefix after `p`; if `dlopen` answers
`nullptr` under every prefix, `link` throws
"can't open/find a certain library using dlopen()" after one call per prefix. -/
theorem needed_libraries_opened_in_order (h : Host) (cls : ElfClass) (bias : Nat)
    (d : DynInfo) (w : World) (done rest : List String) (name : String) (s : World × List Nat)
    (hs : d.strtab = true) (hy : d.symtab = true)
    (hneeded : d.needed_files = done ++ name :: rest)
    (hdone : for_each (open_needed h (search_prefixes h d)) done (w, []) = (.ok (), s)) :
    (∀ (elf : ElfFile) (table : List Dyn),
        (scan_table elf table {}).needed_files
          = (table.filter (fun e => decide (e.d_tag = DT_NEEDED))).map
              (fun e => elf.get_string_from_dynstr (size_t e.d_val)))
    ∧ search_prefixes h d
        = (if d.runpath ≠ "" then [d.runpath ++ "/"] else [])
          ++ (if d.rpath ≠ "" then [d.rpath ++ "/"] else [])
          ++ h.get_possible_search_prefixes
    ∧ (∀ (pre : List String) (p : String) (post : List String),
        search_prefixes h d = pre ++ p :: post → all_fail h name pre s.1 = true →
        h.dlopen (attempts name pre s.1) (p ++ name) dlopen_mode ≠ 0 →
        ∃ w1, for_each (open_needed h (search_prefixes h d)) (done ++ [name]) (w, [])
            = (.ok (), (w1, s.2 ++ [h.dlopen (attempts name pre s.1) (p ++ name) dlopen_mode]))
          ∧ w1.log = s.1.log ++ (pre ++ [p]).map (open_call name)
          ∧ w1.handles
              = s.1.handles ++ [h.dlopen (attempts name pre s.1) (p ++ name) dlopen_mode])
    ∧ (all_fail h name (search_prefixes h d) s.1 = true →
        ∃ w1, link h cls bias d w
            = (.error (.thrown "can't open/find a certain library using dlopen()"), w1)
          ∧ w1.log = s.1.log ++ (search_prefixes h d).map (open_call name)) := by
  refine ⟨?_, rfl, ?_, ?_⟩
  · intro elf table
    rw [scan_table_needed]
    rfl
  · intro pre p post hsplit hfail hopen
    refine ⟨{ record (attempts name pre s.1) (open_call name p) with
      handles := (attempts name pre s.1).handles
        ++ [h.dlopen (attempts name pre s.1) (p ++ name) dlopen_mode] }, ?_, ?_, ?_⟩
    · rw [for_each_append, hdone]
      simp only [for_each, open_needed]
      rw [hsplit, try_prefixes_first h name p post pre s.1 hfail hopen]
    · simp only [record_log, attempts_log, List.map_append, List.map_cons, List.map_nil,
        List.append_assoc]
    · simp only [attempts_handles]
  · intro hfail
    refine ⟨attempts name (search_prefixes h d) s.1, ?_, attempts_log _ _ _⟩
    unfold link
    simp only [hs, hy, Bool.not_true, Bool.false_eq_true, if_false]
    rw [hneeded, for_each_stops (open_needed h (search_prefixes h d)) done rest name (w, []) s
      (attempts name (search_prefixes h d) s.1, s.2)
      (.thrown "can't open/find a certain library using dlopen()") hdone
      (by unfold open_needed; rw [try_prefixes_all_fail h name _ s.1 hfail])]

/-- With `DT_RUNPATH` naming `/opt` on `host_two_prefixes`, the C library is asked for
under `/opt/` and then under `/usr/lib/`, where it opens; `/lib/` is not tried. -/
theorem needed_libraries_opened_in_order_witness :
    ∃ w1, for_each (open_needed host_two_prefixes (search_prefixes host_two_prefixes runpath_info))
          ([] ++ ["libc.so.6"]) (world0, [])
        = (.ok (), (w1, [] ++ [0x6000]))
      ∧ w1.log = world0.log ++ [Event.dlopen "/opt/libc.so.6" dlopen_mode,
          Event.dlopen "/usr/lib/libc.so.6" dlopen_mode]
      ∧ w1.handles = world0.handles ++ [0x6000] :=
  (needed_libraries_opened_in_order host_two_prefixes (table_class linked_tables) 0x10000
    runpath_info world0 [] [] "libc.so.6" (world0, []) rfl rfl rfl rfl).2.2.1
    ["/opt/"] "/usr/lib/" ["/lib/"] (by decide) (by decide) (by decide)

/-- C15: when `validate_elf` refuses the image, `load_and_run_elf` throws
"elf file is not valid" and the world is the one it was given, in both modes: the log of
calls has not grown, so no memory primitive, host-linker binding, `setup_stack` or
trampoline was called. -/
theorem rejected_image_is_not_loaded (h : Host) (cls : ElfClass) (fuel : Nat) (elf : ElfFile)
    (explicit_use_interp : Bool) (w : World) (hreject : h.validate_elf elf = false) :
    load_and_run_elf h cls fuel elf explicit_use_interp w
        = (.error (.thrown "elf file is not valid"), w)
      ∧ (load_and_run_elf h cls fuel elf explicit_use_interp w).2.log = w.log := by
  have hrun : load_and_run_elf h cls fuel elf explicit_use_interp w
      = (.error (.thrown "elf file is not valid"), w) := by
    unfold load_and_run_elf
    simp [hreject]
  exact ⟨hrun, by rw [hrun]⟩

/-- The host `host_rejecting` refuses an image that `host_libc` loads and runs. -/
theorem rejected_image_is_not_loaded_witness :
    (load_and_run_elf host_rejecting (table_class linked_tables) 20
        (linked_image dynamic_plain false) false world0
        = (.error (.thrown "elf file is not valid"), world0)
      ∧ (load_and_run_elf host_rejecting (table_class linked_tables) 20
          (linked_image dynamic_plain false) false world0).2.log = world0.log)
    ∧ (load_and_run_elf host_libc (table_class linked_tables) 20
        (linked_image dynamic_plain false) false world0).1 = .ok () :=
  ⟨rejected_image_is_not_loaded host_rejecting (table_class linked_tables) 20
    (linked_image dynamic_plain false) false world0 rfl, by decide⟩

/-- C16 as stated fails: on `host_no_protect` the call to `map_random` succeeds (it does
not return `MAP_ERROR`), yet `allocate_stack_elf` does not return the base and size: it
throws "failed to change stack flags". -/
theorem stack_protect_failure_throws :
    host_no_protect.map_random_addr world0 STACK_SIZE ≠ MAP_ERROR
    ∧ (allocate_stack_elf host_no_protect static_image world0).1
        = .error (.thrown "failed to change stack flags")
    ∧ (allocate_stack_elf host_no_protect static_image world0).1
        ≠ .ok ⟨host_no_protect.map_random_addr world0 STACK_SIZE, STACK_SIZE⟩ := by
  decide

/-- C16, amended: `STACK_SIZE` is 2^28 and the flags `PF_R | PF_W` hold no `PF_X`. With
`base` the answer of `map_random(STACK_SIZE)`: if it is `MAP_ERROR`,
`allocate_stack_elf` throws "failed to allocate stack" having made that one call;
otherwise it makes exactly the two calls `map_random(STACK_SIZE)` and
`protect(base, STACK_SIZE, PF_R | PF_W)`, every byte of the range is zero, and it returns
`{base, STACK_SIZE}` with the range readable and writable when that `protect` succeeds,
and throws "failed to change stack flags" when it fails. -/
theorem stack_allocation_outcomes (h : Host) (elf : ElfFile) (w w1 : World) (base : Nat)
    (hbase : base = h.map_random_addr w STACK_SIZE)
    (hw1 : w1 = { install (record w (Event.map_random STACK_SIZE)) base STACK_SIZE with
      mem := memset (install (record w (Event.map_random STACK_SIZE)) base STACK_SIZE).mem
        base 0 STACK_SIZE }) :
    STACK_SIZE = 2 ^ 28 ∧ (PF_R ||| PF_W) &&& PF_X = 0
    ∧ (base = MAP_ERROR →
        allocate_stack_elf h elf w
          = (.error (.thrown "failed to allocate stack"),
             record w (Event.map_random STACK_SIZE)))
    ∧ (base ≠ MAP_ERROR →
        (allocate_stack_elf h elf w).2.log
          = w.log ++ [Event.map_random STACK_SIZE,
                      Event.protect base STACK_SIZE (PF_R ||| PF_W)]
        ∧ (∀ a, in_range a base STACK_SIZE → (allocate_stack_elf h elf w).2.mem a = 0)
        ∧ (h.protect_ok w1 base STACK_SIZE (PF_R ||| PF_W) = true →
            (allocate_stack_elf h elf w).1 = .ok ⟨base, STACK_SIZE⟩
            ∧ ∀ a, in_range a base STACK_SIZE →
                (allocate_stack_elf h elf w).2.prot a = some (PF_R ||| PF_W))
        ∧ (h.protect_ok w1 base STACK_SIZE (PF_R ||| PF_W) = false →
            (allocate_stack_elf h elf w).1
              = .error (.thrown "failed to change stack flags"))) := by
  subst hbase hw1
  refine ⟨by decide, by decide, ?_, ?_⟩
  · intro herr
    unfold allocate_stack_elf map_random
    simp [herr]
  · intro hne
    have hmap : map_random h STACK_SIZE w = (h.map_random_addr w STACK_SIZE,
        install (record w (Event.map_random STACK_SIZE)) (h.map_random_addr w STACK_SIZE)
          STACK_SIZE) := by
      unfold map_random
      rw [if_neg hne]
    unfold allocate_stack_elf
    simp only [hmap, hne, if_false]
    unfold protect
    refine ⟨?_, ?_, ?_, ?_⟩
    · split_ifs <;> simp [install, record]
    · intro a ha
      split_ifs <;> simp [install, record, memset, ha]
    · intro hok
      rw [if_pos hok]
      refine ⟨by simp [PROTECT_ERROR], ?_⟩
      intro a ha
      simp [PROTECT_ERROR, ha]
    · intro hfail
      rw [if_neg (Bool.eq_false_iff.mp hfail)]
      simp [PROTECT_ERROR]

/-- On `host_ok` the stack is allocated at 0x10000 with the design size. -/
theorem stack_allocation_outcomes_witness :
    (allocate_stack_elf host_ok static_image world0).1 = .ok ⟨0x10000, 0x10000000⟩ :=
  ((stack_allocation_outcomes host_ok static_image world0 _ 0x10000 rfl rfl).2.2.2
    (by decide)).2.2.1 rfl |>.1

/-- C17: when the libraries have been opened (state `s`) and the queue assembly succeeds
with the queues `rela_relocs` and `rel_relocs`, the items the two loops process, RELA
queue first and REL queue after it, are the list `work_queue`: the `RELASZ / RELAENT`
items at `bias + DT_RELA + RELAENT * i`, the `PLTRELSZ / RELAENT` items at
`bias + DT_JMPREL + RELAENT * i` when the PLT type is `DT_RELA`, the `RELSZ / RELENT`
items at `bias + DT_REL + RELENT * i`, the `PLTRELSZ / RELENT` items at
`bias + DT_JMPREL + RELENT * i` when the PLT type is `DT_REL`, each in ascending `i`;
`link` is one pass over that list, stopping at the first item that throws, followed by
the closing of the handles. -/
theorem work_queue_order (h : Host) (cls : ElfClass) (bias : Nat) (d : DynInfo) (w : World)
    (s : World × List Nat) (rela_relocs rel_relocs : List Nat)
    (hs : d.strtab = true) (hy : d.symtab = true)
    (hopen : for_each (open_needed h (search_prefixes h d)) d.needed_files (w, [])
      = (.ok (), s))
    (hq : assemble bias d = .ok (rela_relocs, rel_relocs)) :
    rela_relocs.map WorkItem.rela ++ rel_relocs.map WorkItem.rel = work_queue bias d
    ∧ link h cls bias d w
        = match for_each (process_item h cls bias d (build_versions cls s.1.mem bias d))
            (work_queue bias d) s.1 with
          | (.error e, w2) => (.error e, w2)
          | (.ok _, w3) => for_each (close_handle h) s.2 w3 := by
  have hqueue := assemble_ok_queue bias d rela_relocs rel_relocs hq
  refine ⟨hqueue, ?_⟩
  rw [← hqueue, for_each_append, for_each_rela_items]
  unfold link
  simp only [hs, hy, Bool.not_true, Bool.false_eq_true, if_false, hopen, hq]
  rcases for_each (process_rela h cls bias d (build_versions cls s.1.mem bias d))
    rela_relocs s.1 with ⟨r, w2⟩
  cases r with
  | error e => rfl
  | ok u =>
    dsimp only
    rw [for_each_rel_items]

/-- The queue of `plt_rela_info` at bias 0x10000: two RELA items, the PLT item (type
`DT_RELA`), then the two REL items. -/
theorem work_queue_order_witness :
    [WorkItem.rela 0x10300, WorkItem.rela 0x10318, WorkItem.rela 0x10330,
      WorkItem.rel 0x10380, WorkItem.rel 0x10390]
      = work_queue 0x10000 plt_rela_info :=
  (work_queue_order host_libc (table_class linked_tables) 0x10000 plt_rela_info world0
    (for_each (open_needed host_libc (search_prefixes host_libc plt_rela_info))
      plt_rela_info.needed_files (world0, [])).2
    [0x10300, 0x10318, 0x10330] [0x10380, 0x10390] rfl rfl
    (Prod.ext (by decide) rfl) (by decide)).1

/-- C18: for every RELA item whose value resolution returns (`v1` in world `w1`), and,
independently, for every REL item whose value resolution returns (`v2` in world `w2`),
the loop body returns normally and its calls are those of the resolution, none of them a
strategy call, followed by exactly one strategy call:
`relocate_rela(reloc_offset, ELF_R_TYPE(r_info), v1, r_addend, sym, bias)`, respectively
`relocate_rel(reloc_offset, ELF_R_TYPE(r_info), v2, sym, bias)` without addend, whose
result becomes the memory. There `sym` is the address
`bias + DT_SYMTAB + DT_SYMENT * ELF_R_SYM(r_info)` in `size_t`, and `reloc_offset` is
`bias + r_offset` when the sum fits the address width. An item whose resolution throws
gets no strategy call. -/
theorem strategy_called_once_per_item (h : Host) (cls : ElfClass) (bias : Nat) (d : DynInfo)
    (versions : Nat → Nat) (w : World) :
    (∀ (curr_rela v1 : Nat) (w1 : World),
      resolve_value h cls
          (cls.read_cstr w.mem
            (sym_name_addr cls w.mem bias d (cls.read_rela w.mem curr_rela).r_info))
          (version_name cls w.mem bias d versions (cls.read_rela w.mem curr_rela).r_info)
          (cls.read_sym w.mem
            (sym_addr cls bias d (cls.read_rela w.mem curr_rela).r_info)).st_info w
        = (.ok v1, w1) →
      (process_rela h cls bias d versions curr_rela w).1 = .ok ()
      ∧ adds (fun e => is_strategy_event e = false) w w1
      ∧ (process_rela h cls bias d versions curr_rela w).2.log
          = w1.log ++ [Event.relocate_rela
              (reloc_offset cls bias (cls.read_rela w.mem curr_rela).r_offset)
              (cls.ELF_R_TYPE (cls.read_rela w.mem curr_rela).r_info) v1
              (cls.read_rela w.mem curr_rela).r_addend
              (sym_addr cls bias d (cls.read_rela w.mem curr_rela).r_info) bias]
      ∧ (process_rela h cls bias d versions curr_rela w).2.mem
          = h.relocate_rela w1
              (reloc_offset cls bias (cls.read_rela w.mem curr_rela).r_offset)
              (cls.ELF_R_TYPE (cls.read_rela w.mem curr_rela).r_info) v1
              (cls.read_rela w.mem curr_rela).r_addend
              (sym_addr cls bias d (cls.read_rela w.mem curr_rela).r_info) bias)
    ∧ (∀ (curr_rel v2 : Nat) (w2 : World),
      resolve_value h cls
          (cls.read_cstr w.mem
            (sym_name_addr cls w.mem bias d (cls.read_rel w.mem curr_rel).r_info))
          (version_name cls w.mem bias d versions (cls.read_rel w.mem curr_rel).r_info)
          (cls.read_sym w.mem
            (sym_addr cls bias d (cls.read_rel w.mem curr_rel).r_info)).st_info w
        = (.ok v2, w2) →
      (process_rel h cls bias d versions curr_rel w).1 = .ok ()
      ∧ adds (fun e => is_strategy_event e = false) w w2
      ∧ (process_rel h cls bias d versions curr_rel w).2.log
          = w2.log ++ [Event.relocate_rel
              (reloc_offset cls bias (cls.read_rel w.mem curr_rel).r_offset)
              (cls.ELF_R_TYPE (cls.read_rel w.mem curr_rel).r_info) v2
              (sym_addr cls bias d (cls.read_rel w.mem curr_rel).r_info) bias]
      ∧ (process_rel h cls bias d versions curr_rel w).2.mem
          = h.relocate_rel w2
              (reloc_offset cls bias (cls.read_rel w.mem curr_rel).r_offset)
              (cls.ELF_R_TYPE (cls.read_rel w.mem curr_rel).r_info) v2
              (sym_addr cls bias d (cls.read_rel w.mem curr_rel).r_info) bias)
    ∧ (∀ r_info, sym_addr cls bias d r_info
        = (bias + d.dynamic_symtab + d.dynamic_symtab_entry_size * cls.ELF_R_SYM r_info)
            % SIZE_MOD)
    ∧ (∀ r_offset, bias + r_offset < cls.addr_mod →
        reloc_offset cls bias r_offset = bias + r_offset)
    ∧ (∀ item, (process_rela h cls bias d versions item w).1 ≠ .ok () →
        adds (fun e => is_strategy_event e = false) w
          (process_rela h cls bias d versions item w).2)
    ∧ (∀ item, (process_rel h cls bias d versions item w).1 ≠ .ok () →
        adds (fun e => is_strategy_event e = false) w
          (process_rel h cls bias d versions item w).2) := by
  refine ⟨?_, ?_, sym_addr_eq cls bias d, reloc_offset_eq cls bias, ?_, ?_⟩
  · intro curr_rela v1 w1 hrela
    have hadds := resolve_value_adds h cls
      (cls.read_cstr w.mem
        (sym_name_addr cls w.mem bias d (cls.read_rela w.mem curr_rela).r_info))
      (version_name cls w.mem bias d versions (cls.read_rela w.mem curr_rela).r_info)
      (cls.read_sym w.mem
        (sym_addr cls bias d (cls.read_rela w.mem curr_rela).r_info)).st_info w
    rw [hrela] at hadds
    refine ⟨?_, hadds, ?_, ?_⟩ <;> simp [process_rela, hrela]
  · intro curr_rel v2 w2 hrel
    have hadds := resolve_value_adds h cls
      (cls.read_cstr w.mem
        (sym_name_addr cls w.mem bias d (cls.read_rel w.mem curr_rel).r_info))
      (version_name cls w.mem bias d versions (cls.read_rel w.mem curr_rel).r_info)
      (cls.read_sym w.mem
        (sym_addr cls bias d (cls.read_rel w.mem curr_rel).r_info)).st_info w
    rw [hrel] at hadds
    refine ⟨?_, hadds, ?_, ?_⟩ <;> simp [process_rel, hrel]
  · intro item hfail
    have hadds := resolve_value_adds h cls
      (cls.read_cstr w.mem (sym_name_addr cls w.mem bias d (cls.read_rela w.mem item).r_info))
      (version_name cls w.mem bias d versions (cls.read_rela w.mem item).r_info)
      (cls.read_sym w.mem (sym_addr cls bias d (cls.read_rela w.mem item).r_info)).st_info w
    unfold process_rela at hfail ⊢
    dsimp only at hfail ⊢
    rcases hv : resolve_value h cls
      (cls.read_cstr w.mem (sym_name_addr cls w.mem bias d (cls.read_rela w.mem item).r_info))
      (version_name cls w.mem bias d versions (cls.read_rela w.mem item).r_info)
      (cls.read_sym w.mem (sym_addr cls bias d (cls.read_rela w.mem item).r_info)).st_info w
      with ⟨r, w3⟩
    rw [hv] at hfail hadds
    cases r with
    | error e => exact hadds
    | ok v => exact absurd rfl hfail
  · intro item hfail
    have hadds := resolve_value_adds h cls
      (cls.read_cstr w.mem (sym_name_addr cls w.mem bias d (cls.read_rel w.mem item).r_info))
      (version_name cls w.mem bias d versions (cls.read_rel w.mem item).r_info)
      (cls.read_sym w.mem (sym_addr cls bias d (cls.read_rel w.mem item).r_info)).st_info w
    unfold process_rel at hfail ⊢
    dsimp only at hfail ⊢
    rcases hv : resolve_value h cls
      (cls.read_cstr w.mem (sym_name_addr cls w.mem bias d (cls.read_rel w.mem item).r_info))
      (version_name cls w.mem bias d versions (cls.read_rel w.mem item).r_info)
      (cls.read_sym w.mem (sym_addr cls bias d (cls.read_rel w.mem item).r_info)).st_info w
      with ⟨r, w3⟩
    rw [hv] at hfail hadds
    cases r with
    | error e => exact hadds
    | ok v => exact absurd rfl hfail

/-- The RELA item at 0x10300 and the REL item at 0x10380 of `linked_tables` (both for
`stdout`, which `host_libc` resolves to 0x7f00): one `dlsym` and then one strategy call
each, at offsets 0x10800 and 0x10818 with type 6 and the symbol at 0x10218. -/
theorem strategy_called_once_per_item_witness :
    (process_rela host_libc (table_class linked_tables) 0x10000 linked_info (fun _ => 0)
        0x10300 world0).2.log
      = [Event.dlsym "stdout", Event.relocate_rela 0x10800 6 0x7f00 0 0x10218 0x10000]
    ∧ (process_rel host_libc (table_class linked_tables) 0x10000 linked_info (fun _ => 0)
        0x10380 world0).2.log
      = [Event.dlsym "stdout", Event.relocate_rel 0x10818 6 0x7f00 0x10218 0x10000] :=
  ⟨((strategy_called_once_per_item host_libc (table_class linked_tables) 0x10000 linked_info
      (fun _ => 0) world0).1 0x10300 0x7f00 _ (Prod.ext (by decide) rfl)).2.2.1.trans
      (by decide),
   ((strategy_called_once_per_item host_libc (table_class linked_tables) 0x10000 linked_info
      (fun _ => 0) world0).2.1 0x10380 0x7f00 _ (Prod.ext (by decide) rfl)).2.2.1.trans
      (by decide)⟩

/-- C19: the calls of a successful `load_segments_elf` are the two calls of the
reservation followed, for each header in program-header order, by the calls of
`segment_calls`: none for a header that is not `PT_LOAD`, and for a `PT_LOAD` header one
`map_fixed` and then one `protect` on the same address and length with the header's
`p_flags`. When the sums do not overflow, that address is
`aligned_start = round_down(bias + p_vaddr, p_align)` and that length is
`aligned_len = round_up(p_memsz + (p_vaddr - (aligned_start - bias)), p_align)`. -/
theorem segment_calls_in_header_order (h : Host) (elf : ElfFile) (w w' : World)
    (bias lma : Nat) (hload : load_segments_elf h elf w = (.ok (bias, lma), w')) :
    w'.log = w.log ++ reserve_calls elf bias
      ++ loop_calls elf bias (List.range (size_t elf.header.e_phnum))
    ∧ (∀ i, (segment_at elf i).p_type ≠ PT_LOAD → segment_calls elf bias i = [])
    ∧ (∀ i, (segment_at elf i).p_type = PT_LOAD →
        ∃ len, segment_calls elf bias i
            = [Event.map_fixed
                (adjusted_load_addr (raw_load_addr bias (segment_at elf i)) (segment_at elf i))
                len,
               Event.protect
                (adjusted_load_addr (raw_load_addr bias (segment_at elf i)) (segment_at elf i))
                len (segment_at elf i).p_flags]
          ∧ (0 < (segment_at elf i).p_align →
              bias + (segment_at elf i).p_vaddr + (segment_at elf i).p_memsz
                + (segment_at elf i).p_align < SIZE_MOD →
              adjusted_load_addr (raw_load_addr bias (segment_at elf i)) (segment_at elf i)
                = aligned_start_at bias (segment_at elf i)
              ∧ (len : Int) = aligned_len_at bias (segment_at elf i))) := by
  refine ⟨load_segments_elf_log h elf w w' bias lma hload, ?_, ?_⟩
  · intro i hty
    unfold segment_calls
    rw [if_neg hty]
  · intro i hty
    refine ⟨adjusted_mapping_len (raw_load_addr bias (segment_at elf i)) (segment_at elf i),
      ?_, adjusted_eq_aligned bias (segment_at elf i)⟩
    unfold segment_calls
    rw [if_pos hty]

/-- The calls of the load of `pie_image` on `host_ok`: the reservation at 0x10000, then
one `map_fixed` and one `protect` for each of its two `PT_LOAD` headers, none for the
header between them. -/
theorem segment_calls_in_header_order_witness :
    (load_segments_elf host_ok pie_image world0).2.log
      = [Event.map_random 0x4000, Event.unmap 0x10000 0x4000,
         Event.map_fixed 0x10000 0x1000, Event.protect 0x10000 0x1000 (PF_R ||| PF_X),
         Event.map_fixed 0x12000 0x2000, Event.protect 0x12000 0x2000 (PF_R ||| PF_W)] :=
  ((segment_calls_in_header_order host_ok pie_image world0 _ 0x10000 0x10000
    (Prod.ext (by decide) rfl)).1).trans (by decide)

/-- C20: after the walk of a table whose first `DT_NULL` is entry `n`, started from the
initial values, each single-valued field holds the value of the last of the `n` entries
before the `DT_NULL` that carries its tag (the initial `0` or empty string when there is
none), and each presence flag is set exactly when some such entry carries its tag. -/
theorem last_entry_wins (cls : ElfClass) (elf : ElfFile) (segment : Segment) (n fuel : Nat)
    (hn : n < SIZE_MOD)
    (hbefore : ∀ k, k < n → (dyn_at cls elf segment k).d_tag ≠ DT_NULL)
    (hnull : (dyn_at cls elf segment n).d_tag = DT_NULL) (hfuel : n < fuel) :
    ∃ d, scan_dynamic cls elf segment fuel 0 {} = some d
      ∧ (∀ tag ∈ value_tags, value_of tag d
          = (((dyn_table cls elf segment n).filter (fun e => decide (e.d_tag = tag))).getLast?.map
              (fun e => size_t e.d_val)).getD 0)
      ∧ (∀ tag ∈ flagged_tags,
          flag_of tag d = true ↔ ∃ e ∈ dyn_table cls elf segment n, e.d_tag = tag)
      ∧ (∀ tag ∈ string_tags, string_of tag d
          = (((dyn_table cls elf segment n).filter (fun e => decide (e.d_tag = tag))).getLast?.map
              (fun e => elf.get_string_from_dynstr (size_t e.d_val))).getD "") := by
  refine ⟨_, scan_dynamic_table cls elf segment n fuel {} hn hbefore hnull hfuel, ?_, ?_, ?_⟩
  · intro tag htag
    rw [scan_table_value elf tag htag, value_of_default]
  · intro tag htag
    rw [scan_table_flag elf tag htag, flag_of_default]
    simp
  · intro tag htag
    rw [scan_table_string elf tag htag, string_of_default]

/-- In `dynamic_duplicates` the second `DT_STRTAB` and the second `DT_RPATH` win, the entry
after `DT_NULL` is not seen, and no `DT_REL` flag is set. -/
theorem last_entry_wins_witness :
    ∃ d, scan_dynamic (table_class linked_tables) (linked_image dynamic_duplicates false)
          (segment_at (linked_image dynamic_duplicates false) 1) 20 0 {} = some d
      ∧ value_of DT_STRTAB d = 0x180 ∧ value_of DT_SYMENT d = 0
      ∧ flag_of DT_STRTAB d = true ∧ flag_of DT_REL d = false
      ∧ string_of DT_RPATH d
          = (linked_image dynamic_duplicates false).get_string_from_dynstr 11 :=
  let ⟨d, hd, hv, hf, hs⟩ := last_entry_wins (table_class linked_tables)
    (linked_image dynamic_duplicates false)
    (segment_at (linked_image dynamic_duplicates false) 1) 6 20 (by decide) (by decide)
    (by decide) (by decide)
  ⟨d, hd, (hv DT_STRTAB (by decide)).trans (by decide),
    (hv DT_SYMENT (by decide)).trans (by decide),
    (hf DT_STRTAB (by decide)).mpr ⟨⟨DT_STRTAB, 0x100⟩, by decide, rfl⟩,
    Bool.eq_false_iff.mpr (fun hflag =>
      absurd ((hf DT_REL (by decide)).mp hflag) (by decide)),
    (hs DT_RPATH (by decide)).trans (by decide)⟩


/-- C21: for a segment with `p_align >= 1`, `p_filesz <= p_memsz` and no address
overflow, every address of a byte that the loop stores for it (the copy of `p_filesz`
bytes at `bias + p_vaddr` and the zero fill up to `bias + p_vaddr + p_memsz`) lies in the
segment's own mapping, `aligned_start <= a < aligned_start + aligned_len`; the stores of
`write_segment` change no byte outside those addresses. With `p_filesz > p_memsz` the
copy still has `p_filesz` bytes and can leave the mapping, as it does for
`oversized_segment`. -/
theorem stores_inside_own_mapping (elf : ElfFile) (bias : Nat) (seg : Segment) (w : World)
    (a : Nat) (hal : 0 < seg.p_align) (hfm : seg.p_filesz ≤ seg.p_memsz)
    (hno : bias + seg.p_vaddr + seg.p_memsz + seg.p_align < SIZE_MOD)
    (ha : a < SIZE_MOD) (hw : writes bias seg a) :
    covers bias seg a
    ∧ (aligned_start_at bias seg ≤ a
      ∧ (a : Int) < (aligned_start_at bias seg : Int) + aligned_len_at bias seg)
    ∧ (∀ b, (write_segment elf bias seg w).mem b ≠ w.mem b → writes bias seg b)
    ∧ (0 < oversized_segment.p_align ∧ oversized_segment.p_memsz < oversized_segment.p_filesz
      ∧ writes 0 oversized_segment 0x1800 ∧ ¬ covers 0 oversized_segment 0x1800) := by
  obtain ⟨hraw, hlo, hhi, hlt⟩ := adjusted_bounds bias seg hal hno
  obtain ⟨hstart, hlen⟩ := adjusted_eq_aligned bias seg hal hno
  obtain ⟨h1, h2⟩ := writes_range bias seg a hfm (by omega) ha hw
  refine ⟨?_, ⟨?_, ?_⟩, ?_, by decide⟩
  · unfold covers in_range
    rw [size_sub_of_le _ _ (by omega) ha]
    omega
  · rw [← hstart]
    omega
  · rw [← hstart, ← hlen]
    omega
  · intro b hb
    by_contra hnot
    exact hb (write_segment_mem_other elf bias seg w b hnot)

/-- The zero fill of the data segment of `pie_image` at bias 0x10000: the address
0x12800 lies in the mapping of that segment. -/
theorem stores_inside_own_mapping_witness :
    writes 0x10000 (segment_at pie_image 2) 0x12800
    ∧ covers 0x10000 (segment_at pie_image 2) 0x12800 :=
  ⟨by decide,
   (stores_inside_own_mapping pie_image 0x10000 (segment_at pie_image 2) world0 0x12800
      (by decide) (by decide) (by decide) (by decide) (by decide)).1⟩

/-- C22 (code at the failing input, and what holds elsewhere). `note_only_image` has no
`PT_LOAD` header, so its bias 0x10000 is a multiple of every `PT_LOAD` alignment; the
load returns normally with `*load_min_addr = SIZE_MAX`, the value the loop starts from,
while `min` is `SIZE_MAX` too, so that `bias + min` is not `*load_min_addr`, neither as
an integer nor in `size_t`. For every image with a `PT_LOAD` header, a bias that is a
multiple of every `PT_LOAD` alignment and no overflow, `*load_min_addr` is `bias + min`
and every mapping lies in `[bias + min, bias + min + range)`. For `high_pie_image`, whose
`min` is 0x1000, that window is not the range `[bias, bias + range)` that `map_random`
answered. -/
theorem load_min_addr_without_load_header :
    (size_t note_only_image.header.e_phnum = 1
      ∧ (segment_at note_only_image 0).p_type ≠ PT_LOAD
      ∧ (load_segments_elf host_ok note_only_image world0).1 = .ok (0x10000, SIZE_MAX)
      ∧ (plan note_only_image).1 = SIZE_MAX
      ∧ SIZE_MAX ≠ 0x10000 + (plan note_only_image).1
      ∧ SIZE_MAX ≠ size_add 0x10000 (plan note_only_image).1)
    ∧ (∀ (h : Host) (elf : ElfFile) (w w' : World) (bias lma : Nat),
        load_segments_elf h elf w = (.ok (bias, lma), w') →
        (∃ i, i < size_t elf.header.e_phnum ∧ (segment_at elf i).p_type = PT_LOAD) →
        (∀ i, i < size_t elf.header.e_phnum → (segment_at elf i).p_type = PT_LOAD →
          0 < (segment_at elf i).p_align ∧ (segment_at elf i).p_align ∣ bias
          ∧ bias + (segment_at elf i).p_vaddr + (segment_at elf i).p_memsz
              + (segment_at elf i).p_align < SIZE_MOD) →
        lma = bias + (plan elf).1
        ∧ ∀ i, i < size_t elf.header.e_phnum → (segment_at elf i).p_type = PT_LOAD →
            bias + (plan elf).1
              ≤ adjusted_load_addr (raw_load_addr bias (segment_at elf i)) (segment_at elf i)
            ∧ adjusted_load_addr (raw_load_addr bias (segment_at elf i)) (segment_at elf i)
                + adjusted_mapping_len (raw_load_addr bias (segment_at elf i))
                    (segment_at elf i)
              ≤ bias + (plan elf).1 + size_sub (plan elf).2 (plan elf).1)
    ∧ ((load_segments_elf host_ok high_pie_image world0).1 = .ok (0x10000, 0x11000)
      ∧ (plan high_pie_image).1 = 0x1000
      ∧ (load_segments_elf host_ok high_pie_image world0).2.log
          = [Event.map_random 0x1000, Event.unmap 0x10000 0x1000,
             Event.map_fixed 0x11000 0x1000,
             Event.protect 0x11000 0x1000 (PF_R ||| PF_X)]) :=
  ⟨by decide, mappings_inside_window, by decide⟩

/-- C23: the queue assembly divides by `rela_entry_size` (`DT_RELAENT`) and
`rel_entry_size` (`DT_RELENT`) only. When `DT_RELAENT` is non-zero whenever `DT_RELA` is
present or the PLT type is `DT_RELA`, and `DT_RELENT` is non-zero whenever `DT_REL` is
present or the PLT type is `DT_REL`, the assembly does not divide by zero: it returns the
two queues or throws for the PLT type. It divides by zero exactly when that precondition
fails; a value whose tag the table lacks is 0, so a table with `DT_JMPREL`,
`DT_PLTREL = DT_RELA` and no `DT_RELAENT` makes it divide `PLTRELSZ` by zero. -/
theorem assembly_division_by_zero (bias : Nat) (d : DynInfo)
    (hrela : d.rela = true ∨ (d.plt = true ∧ d.plt_reloc_type = DT_RELA) →
      d.rela_entry_size ≠ 0)
    (hrel : d.rel = true ∨ (d.plt = true ∧ d.plt_reloc_type = DT_REL) →
      d.rel_entry_size ≠ 0) :
    assemble bias d ≠ .error (.undefined "division by zero")
    ∧ ((∃ q, assemble bias d = .ok q)
      ∨ assemble bias d = .error (.thrown "weird plt relocations type"))
    ∧ (∀ d2 : DynInfo, assemble bias d2 = .error (.undefined "division by zero")
        ↔ ((d2.rela = true ∨ (d2.plt = true ∧ d2.plt_reloc_type = DT_RELA))
            ∧ d2.rela_entry_size = 0)
          ∨ ((d2.rel = true ∨ (d2.plt = true ∧ d2.plt_reloc_type = DT_REL))
            ∧ d2.rel_entry_size = 0))
    ∧ (∀ (cls : ElfClass) (elf : ElfFile) (i n : Nat),
        has_tag cls elf i n DT_JMPREL → value_of DT_PLTREL (walked cls elf i n) = DT_RELA →
        ¬ has_tag cls elf i n DT_RELAENT →
        (walked cls elf i n).rela_entry_size = 0
        ∧ assemble bias (walked cls elf i n) = .error (.undefined "division by zero")) := by
  have hfree : assemble bias d ≠ .error (.undefined "division by zero") := by
    rw [Ne, assemble_division_iff]
    rintro (⟨hr, hz⟩ | ⟨hr, hz⟩)
    · exact hrela hr hz
    · exact hrel hr hz
  refine ⟨hfree, ?_, assemble_division_iff bias, ?_⟩
  · rcases assemble_outcomes bias d with hq | hq | hq
    · exact Or.inl hq
    · exact Or.inr hq
    · exact absurd hq hfree
  · intro cls elf i n hjmp hplt hno
    have hzero : (walked cls elf i n).rela_entry_size = 0 :=
      walked_value_absent cls elf i n DT_RELAENT (by decide) hno
    refine ⟨hzero, ?_⟩
    rw [assemble_division_iff]
    exact Or.inl ⟨Or.inr ⟨(walked_flag cls elf i n DT_JMPREL (by decide)).mpr hjmp, hplt⟩, hzero⟩

/-- The record `plt_rela_info` meets the precondition and its queues are assembled;
the image with the table `dynamic_plt_no_relaent` divides by zero in `do_relocations`. -/
theorem assembly_division_by_zero_witness :
    assemble 0x10000 plt_rela_info ≠ .error (.undefined "division by zero")
    ∧ assemble 0x10000 plt_rela_info
        = .ok ([0x10300, 0x10318, 0x10330], [0x10380, 0x10390])
    ∧ (do_relocations host_libc (table_class linked_tables) 20
        (linked_image dynamic_plt_no_relaent false) 0x10000 world0).1
        = .error (.undefined "division by zero") :=
  ⟨(assembly_division_by_zero 0x10000 plt_rela_info (by decide) (by decide)).1,
   by decide, by decide⟩

/-- C24: for an image whose first `PT_DYNAMIC` header is header `i` and whose dynamic
table has its first `DT_NULL` at entry `n`, whatever other tags the table holds:
when no entry carries `DT_STRTAB`, `do_relocations` throws "no dynamic strtab"; when one
does and none carries `DT_SYMTAB`, it throws "no dynamic symbol table"; in both cases no
call has been made. The two tests do not look at `DT_NEEDED`, `DT_RELA`, `DT_REL` or
`DT_JMPREL`, so a table without work is refused as well. -/
theorem missing_table_rejected_without_work (h : Host) (cls : ElfClass) (fuel : Nat)
    (elf : ElfFile) (bias : Nat) (w : World) (i n : Nat)
    (hi : i < size_t elf.header.e_phnum)
    (hty : (segment_at elf i).p_type = PT_DYNAMIC)
    (hfirst : ∀ j, j < i → (segment_at elf j).p_type ≠ PT_DYNAMIC)
    (hn : n < SIZE_MOD)
    (hbefore : ∀ k, k < n → (dyn_at cls elf (segment_at elf i) k).d_tag ≠ DT_NULL)
    (hnull : (dyn_at cls elf (segment_at elf i) n).d_tag = DT_NULL) (hfuel : n < fuel) :
    (¬ has_tag cls elf i n DT_STRTAB →
      do_relocations h cls fuel elf bias w = (.error (.thrown "no dynamic strtab"), w))
    ∧ (has_tag cls elf i n DT_STRTAB → ¬ has_tag cls elf i n DT_SYMTAB →
      do_relocations h cls fuel elf bias w
        = (.error (.thrown "no dynamic symbol table"), w)) := by
  have hlink : do_relocations h cls fuel elf bias w = link h cls bias (walked cls elf i n) w :=
    do_relocations_eq_link h cls fuel elf bias w i n hi hty hfirst hn hbefore hnull hfuel
  have hstr := walked_flag cls elf i n DT_STRTAB (by decide)
  have hsym := walked_flag cls elf i n DT_SYMTAB (by decide)
  rw [hlink]
  refine ⟨?_, ?_⟩
  · intro hno
    exact link_missing_strtab h cls bias _ w
      (Bool.eq_false_iff.mpr (fun hflag => hno (hstr.mp hflag)))
  · intro hyes hno
    exact link_missing_symtab h cls bias _ w (hstr.mpr hyes)
      (Bool.eq_false_iff.mpr (fun hflag => hno (hsym.mp hflag)))

/-- The table `dynamic_no_work` has none of `DT_NEEDED`, `DT_RELA`, `DT_REL`,
`DT_JMPREL` and no `DT_STRTAB`: it is refused. -/
theorem missing_table_rejected_without_work_witness :
    (¬ has_tag (table_class linked_tables) (linked_image dynamic_no_work false) 1 2 DT_NEEDED
      ∧ ¬ has_tag (table_class linked_tables) (linked_image dynamic_no_work false) 1 2 DT_RELA
      ∧ ¬ has_tag (table_class linked_tables) (linked_image dynamic_no_work false) 1 2 DT_REL
      ∧ ¬ has_tag (table_class linked_tables) (linked_image dynamic_no_work false) 1 2 DT_JMPREL)
    ∧ do_relocations host_libc (table_class linked_tables) 20
        (linked_image dynamic_no_work false) 0x10000 world0
        = (.error (.thrown "no dynamic strtab"), world0)
    ∧ do_relocations host_libc (table_class linked_tables) 20
        (linked_image dynamic_no_work_no_symtab false) 0x10000 world0
        = (.error (.thrown "no dynamic symbol table"), world0) :=
  ⟨by decide,
   (missing_table_rejected_without_work host_libc (table_class linked_tables) 20
      (linked_image dynamic_no_work false) 0x10000 world0 1 2 (by decide) (by decide)
      (by decide) (by decide) (by decide) (by decide) (by decide)).1 (by decide),
   (missing_table_rejected_without_work host_libc (table_class linked_tables) 20
      (linked_image dynamic_no_work_no_symtab false) 0x10000 world0 1 2 (by decide) (by decide)
      (by decide) (by decide) (by decide) (by decide) (by decide)).2 (by decide) (by decide)⟩

/-- C25: with `DT_VERSYM` present, for a symbol whose `versym` entry `v` is neither 0
nor 1 and is the `vna_other` of no entry of the version map (the map is empty when
`DT_VERNEEDNUM` is 0), `version_name` is `nullptr`; so for a non-empty symbol name the
host is asked with `dlsym`, without a version, in the RELA loop and in the REL loop
alike, and the outcome is that of an unversioned symbol: the address found, 0 for an
unresolved weak symbol, and no throw on account of the version. -/
theorem unmapped_version_uses_dlsym (h : Host) (cls : ElfClass) (bias : Nat) (d : DynInfo)
    (mem0 : Nat → Nat) (w : World) (r_info st_info : Nat) (sym_name : String)
    (hver : d.ver = true)
    (h0 : version_num cls w.mem bias d r_info ≠ 0)
    (h1 : version_num cls w.mem bias d r_info ≠ 1)
    (hkey : version_num cls w.mem bias d r_info ∉ version_keys cls mem0 bias d)
    (hname : sym_name ≠ "") :
    version_name cls w.mem bias d (build_versions cls mem0 bias d) r_info = 0
    ∧ host_lookup h cls sym_name
        (version_name cls w.mem bias d (build_versions cls mem0 bias d) r_info) w
        = h.dlsym w sym_name
    ∧ (resolve_value h cls sym_name
        (version_name cls w.mem bias d (build_versions cls mem0 bias d) r_info) st_info w).2.log
        = w.log ++ [Event.dlsym sym_name]
    ∧ (∀ sym_val, h.dlsym w sym_name = some sym_val →
        (resolve_value h cls sym_name
          (version_name cls w.mem bias d (build_versions cls mem0 bias d) r_info)
          st_info w).1 = .ok sym_val)
    ∧ (h.dlsym w sym_name = none → cls.ELF_ST_BIND st_info = STB_WEAK →
        (resolve_value h cls sym_name
          (version_name cls w.mem bias d (build_versions cls mem0 bias d) r_info)
          st_info w).1 = .ok 0)
    ∧ (∀ item, (cls.read_rela w.mem item).r_info = r_info →
        cls.read_cstr w.mem (sym_name_addr cls w.mem bias d r_info) = sym_name →
        ∃ calls, (process_rela h cls bias d (build_versions cls mem0 bias d) item w).2.log
          = w.log ++ Event.dlsym sym_name :: calls)
    ∧ (∀ item, (cls.read_rel w.mem item).r_info = r_info →
        cls.read_cstr w.mem (sym_name_addr cls w.mem bias d r_info) = sym_name →
        ∃ calls, (process_rel h cls bias d (build_versions cls mem0 bias d) item w).2.log
          = w.log ++ Event.dlsym sym_name :: calls)
    ∧ (d.verneednum = 0 → version_keys cls mem0 bias d = []) := by
  have hnull : version_name cls w.mem bias d (build_versions cls mem0 bias d) r_info = 0 := by
    rw [version_name_versioned _ _ _ _ _ _ hver h0 h1]
    exact build_versions_other cls mem0 bias d _ hkey
  rw [hnull]
  refine ⟨rfl, ?_, ?_, ?_, ?_, ?_, ?_, ?_⟩
  · unfold host_lookup
    rw [if_pos rfl]
  · rw [resolve_value_log h cls sym_name 0 st_info w hname]
    rfl
  · intro sym_val hfound
    unfold resolve_value host_lookup
    simp [hname, hfound]
  · intro hnone hweak
    unfold resolve_value host_lookup
    simp [hname, hnone, hweak]
  · intro item hinfo hsym
    have hname2 : cls.read_cstr w.mem
        (sym_name_addr cls w.mem bias d (cls.read_rela w.mem item).r_info) ≠ "" := by
      rw [hinfo, hsym]; exact hname
    obtain ⟨calls, hcalls⟩ := process_rela_first h cls bias d
      (build_versions cls mem0 bias d) item w hname2
    refine ⟨calls, ?_⟩
    rw [hcalls, hinfo, hsym, hnull]
    rfl
  · intro item hinfo hsym
    have hname2 : cls.read_cstr w.mem
        (sym_name_addr cls w.mem bias d (cls.read_rel w.mem item).r_info) ≠ "" := by
      rw [hinfo, hsym]; exact hname
    obtain ⟨calls, hcalls⟩ := process_rel_first h cls bias d
      (build_versions cls mem0 bias d) item w hname2
    refine ⟨calls, ?_⟩
    rw [hcalls, hinfo, hsym, hnull]
    rfl
  · intro hnum
    unfold version_keys
    rw [hver, hnum]
    rfl

/-- In `versym_only_info` (`DT_VERSYM` present, `DT_VERNEEDNUM` 0) the symbol `stdout` of
the RELA item at 0x10300 has `versym` entry 2: the host is asked with `dlsym` and the
address 0x7f00 it answers is the value. -/
theorem unmapped_version_uses_dlsym_witness :
    version_num (table_class linked_tables) world0.mem 0x10000 versym_only_info
        (1 * 2 ^ 32 + 6) = 2
    ∧ (resolve_value host_libc (table_class linked_tables) "stdout"
        (version_name (table_class linked_tables) world0.mem 0x10000 versym_only_info
          (build_versions (table_class linked_tables) world0.mem 0x10000 versym_only_info)
          (1 * 2 ^ 32 + 6)) 0x12 world0).2.log
        = world0.log ++ [Event.dlsym "stdout"]
    ∧ (resolve_value host_libc (table_class linked_tables) "stdout"
        (version_name (table_class linked_tables) world0.mem 0x10000 versym_only_info
          (build_versions (table_class linked_tables) world0.mem 0x10000 versym_only_info)
          (1 * 2 ^ 32 + 6)) 0x12 world0).1 = .ok 0x7f00 :=
  ⟨by decide,
   (unmapped_version_uses_dlsym host_libc (table_class linked_tables) 0x10000 versym_only_info
      world0.mem world0 (1 * 2 ^ 32 + 6) 0x12 "stdout" rfl (by decide) (by decide) (by decide)
      (by decide)).2.2.1,
   (unmapped_version_uses_dlsym host_libc (table_class linked_tables) 0x10000 versym_only_info
      world0.mem world0 (1 * 2 ^ 32 + 6) 0x12 "stdout" rfl (by decide) (by decide) (by decide)
      (by decide)).2.2.2.1 0x7f00 rfl⟩

/-- C26 as stated fails: `pair_codec` meets the assumption on the codec, no item of
`long_list` has type `NONE` and each fits the buffer, yet the serialisation of `long_list`
has 2^31 + 10 bytes and `convert_to_obfuscations`, which returns an `int`, returns
10 - 2^31 for them, not their number. -/
theorem long_list_count_exceeds_int :
    (∀ data rest, pair_codec.decode_data (pair_codec.encode_data data ++ rest)
      = (data, ((pair_codec.encode_data data).length : Int)))
    ∧ (∀ obf ∈ long_list,
        obf.type ≠ NONE ∧ 1 + (pair_codec.encode_data obf.data).length ≤ BUFF_LEN)
    ∧ convert_to_data_list pair_codec long_list = .ok (list_bytes pair_codec long_list)
    ∧ (list_bytes pair_codec long_list).length = 2 ^ 31 + 10
    ∧ ∀ fuel, long_list.length < fuel →
        convert_to_obfuscations pair_codec fuel [] (list_bytes pair_codec long_list)
          = .ok (long_list, 10 - 2 ^ 31)
        ∧ ((10 - 2 ^ 31 : Int) ≠ ((list_bytes pair_codec long_list).length : Int)) := by
  have hitem : ∀ obf ∈ long_list, obf = ⟨ENCRYPTION, []⟩ := by
    intro obf hobf
    exact List.eq_of_mem_replicate hobf
  have hall : ∀ obf ∈ long_list,
      obf.type ≠ NONE ∧ 1 + (pair_codec.encode_data obf.data).length ≤ BUFF_LEN := by
    intro obf hobf
    rw [hitem obf hobf]
    decide
  have hterm : 1 + (pair_codec.encode_data none_data).length ≤ BUFF_LEN := by decide
  have hlen : (list_bytes pair_codec long_list).length = 2 ^ 31 + 10 := by
    unfold list_bytes long_list
    rw [List.length_append, serial_replicate_length]
    have h1 : (item_bytes pair_codec ⟨ENCRYPTION, []⟩).length = 2 := by decide
    have h2 : (item_bytes pair_codec ⟨NONE, none_data⟩).length = 10 := by decide
    rw [h1, h2]
    norm_num
  refine ⟨pair_codec_inverts, hall,
    convert_to_data_list_ok pair_codec long_list (fun o ho => (hall o ho).2) hterm, hlen, ?_⟩
  intro fuel hfuel
  have hparse := convert_to_obfuscations_serial pair_codec pair_codec_inverts long_list [] []
    fuel (fun o ho => (hall o ho).2) hterm (fun o ho => (hall o ho).1) hfuel
  rw [List.append_nil, List.nil_append, hlen] at hparse
  refine ⟨?_, ?_⟩
  · rw [hparse]
    have hwrap : to_int ((2 ^ 31 + 10 : Nat) : Int) = 10 - 2 ^ 31 := by
      unfold to_int
      norm_num
    rw [hwrap]
  · rw [hlen]
    norm_num

/-- C26, amended: when `decode_data` inverts `encode_data` and consumes exactly its
bytes, no item of `list` has type `NONE`, and each item and the terminator fit the buffer
of `BUFF_LEN` bytes, `convert_to_data` of the list is the bytes `list_bytes`, and
`convert_to_obfuscations` on those bytes (whatever follows them) appends exactly the items
of `list` in order, stops at the terminator without appending it, and returns the number
of bytes converted to `int`; that is the number of bytes itself when it is at most
`INT_MAX`. -/
theorem obfuscation_list_round_trip (c : DataCodec) (list init : List obfuscation)
    (tail : List uint8_t) (fuel : Nat)
    (hinv : ∀ data rest, c.decode_data (c.encode_data data ++ rest)
      = (data, ((c.encode_data data).length : Int)))
    (hfit : ∀ obf ∈ list, 1 + (c.encode_data obf.data).length ≤ BUFF_LEN)
    (hterm : 1 + (c.encode_data none_data).length ≤ BUFF_LEN)
    (hnone : ∀ obf ∈ list, obf.type ≠ NONE) (hfuel : list.length < fuel) :
    convert_to_data_list c list = .ok (list_bytes c list)
    ∧ convert_to_obfuscations c fuel init (list_bytes c list ++ tail)
        = .ok (init ++ list, to_int ((list_bytes c list).length : Int))
    ∧ (((list_bytes c list).length : Int) ≤ INT_MAX →
        convert_to_obfuscations c fuel init (list_bytes c list ++ tail)
          = .ok (init ++ list, ((list_bytes c list).length : Int))) := by
  have hparse := convert_to_obfuscations_serial c hinv list init tail fuel hfit hterm hnone hfuel
  refine ⟨convert_to_data_list_ok c list hfit hterm, hparse, ?_⟩
  intro hsmall
  rw [hparse, to_int_of_range _ (by omega) hsmall]

/-- The list `two_obfuscations` with `pair_codec`: its 16 bytes, followed by two other
bytes, parse back to the list after the one item already there, and 16 is returned. -/
theorem obfuscation_list_round_trip_witness :
    convert_to_data_list pair_codec two_obfuscations
      = .ok [1, 1, 107, 0, 3, 0, 0, 1, 110, 1, 111, 1, 110, 1, 101, 0]
    ∧ convert_to_obfuscations pair_codec 3 [⟨COMPRESSION, []⟩]
        (list_bytes pair_codec two_obfuscations ++ [7, 7])
      = .ok ([⟨COMPRESSION, []⟩] ++ two_obfuscations,
          ((list_bytes pair_codec two_obfuscations).length : Int))
    ∧ (list_bytes pair_codec two_obfuscations).length = 16 :=
  ⟨by decide,
   (obfuscation_list_round_trip pair_codec two_obfuscations [⟨COMPRESSION, []⟩] [7, 7] 3
      pair_codec_inverts (by decide) (by decide) (by decide) (by decide)).2.2 (by decide),
   by decide⟩

end Loader
